import Mathlib

/-!
# The ondemand cpufreq governor (drivers/cpufreq/cpufreq_ondemand.c)

A shallow embedding of the decision engine of the ondemand governor:
`powersave_bias_target`, `dbs_freq_increase`, `od_check_cpu`, the timer function
`od_dbs_timer`, `update_sampling_rate` and the sysfs store functions of the
tunables, followed by the properties proved about them.

Conventions of the embedding.

* `unsigned int` values are natural numbers below `2 ^ 32`; every C operation
  that can leave that range is reduced modulo `2 ^ 32` (`uadd`, `usub`, `umul`).
* The global `od_tuners`, the per-CPU array `od_cpu_dbs_info`, the online mask
  and the sequence of calls made to `__cpufreq_driver_target` form an explicit
  state `gov_state`, passed through every function.
* Kernel services whose code is not part of the sources (the frequency table
  lookup, `usecs_to_jiffies`, the powersave bias levels, the load sampler, ...)
  are the fields of a `kernel_env` or `timer_env` parameter.
* `unsigned long` values (`jiffies` and the expiry of a timer) are reduced
  modulo `2 ^ BITS_PER_LONG`; the width and the readings of the volatile
  `jiffies` are the fields of a `clock_env` parameter.
-/

namespace Ondemand

/-! ## 32-bit unsigned arithmetic -/

/-- Number of values of a C `unsigned int`. -/
def U32_MOD : Nat := 4294967296

/-- Truncation of a natural number to an `unsigned int`. -/
def u32 (n : Nat) : Nat := n % U32_MOD

/-- Addition of two `unsigned int`. -/
def uadd (a b : Nat) : Nat := u32 (a + b)

/-- Subtraction of two `unsigned int`, wrapping around below zero. -/
def usub (a b : Nat) : Nat := u32 (u32 a + U32_MOD - u32 b)

/-- Multiplication of two `unsigned int`. -/
def umul (a b : Nat) : Nat := u32 (a * b)

/-- Conversion of an `int` to `unsigned int`. -/
def int_to_u32 (i : Int) : Nat := (i % (U32_MOD : Int)).toNat

/-! ## On-demand governor macros -/

def DEF_FREQUENCY_DOWN_DIFFERENTIAL : Nat := 10
def DEF_FREQUENCY_UP_THRESHOLD : Nat := 80
def DEF_SAMPLING_DOWN_FACTOR : Nat := 1
def MAX_SAMPLING_DOWN_FACTOR : Nat := 100000
def MICRO_FREQUENCY_DOWN_DIFFERENTIAL : Nat := 3
def MICRO_FREQUENCY_UP_THRESHOLD : Nat := 95
def MICRO_FREQUENCY_MIN_SAMPLE_RATE : Nat := 10000
def MIN_FREQUENCY_UP_THRESHOLD : Nat := 11
def MAX_FREQUENCY_UP_THRESHOLD : Nat := 100

/-- The errno value returned (negated) by the store functions. -/
def EINVAL : Int := 22

/-! ## Data model -/

/-- The relation argument of `__cpufreq_driver_target` and of
`cpufreq_frequency_table_target`. -/
inductive cpufreq_relation where
  | CPUFREQ_RELATION_L
  | CPUFREQ_RELATION_H
  deriving DecidableEq, Repr

/-- The fields of `struct cpufreq_policy` that the governor reads. -/
structure cpufreq_policy where
  cpu : Nat
  cur : Nat
  min : Nat
  max : Nat
  deriving DecidableEq, Repr

/-- The values of `sample_type`. -/
inductive od_sample_type where
  | OD_NORMAL_SAMPLE
  | OD_SUB_SAMPLE
  deriving DecidableEq, Repr

/-- The fields of `struct od_cpu_dbs_info_s` (with its `cdbs` part) that the
governor uses. `cur_policy` and `freq_table` are pointers: `none` is `NULL`. -/
structure od_cpu_dbs_info_s where
  cur_policy : Option cpufreq_policy
  max_load : Nat
  freq_table : Option (List Nat)
  freq_lo : Nat
  freq_lo_jiffies : Nat
  freq_hi_jiffies : Nat
  rate_mult : Nat
  sample_type : od_sample_type
  deriving DecidableEq, Repr

/-- The tunables, `struct od_dbs_tuners`. `powersave_bias` is read and written
as an `int` by the sysfs functions. -/
structure od_dbs_tuners where
  ignore_nice : Nat
  sampling_rate : Nat
  sampling_down_factor : Nat
  up_threshold : Nat
  adj_up_threshold : Nat
  powersave_bias : Int
  io_is_busy : Nat
  up_threshold_multi_core : Nat
  down_differential_multi_core : Nat
  optimal_freq : Nat
  up_threshold_any_cpu_load : Nat
  sync_freq : Nat
  deriving DecidableEq, Repr

/-- The static initialiser of `od_tuners`; the fields it does not name are zero. -/
def od_tuners_init : od_dbs_tuners :=
  { ignore_nice := 0
    sampling_rate := 0
    sampling_down_factor := DEF_SAMPLING_DOWN_FACTOR
    up_threshold := DEF_FREQUENCY_UP_THRESHOLD
    adj_up_threshold := DEF_FREQUENCY_UP_THRESHOLD - DEF_FREQUENCY_DOWN_DIFFERENTIAL
    powersave_bias := 0
    io_is_busy := 0
    up_threshold_multi_core := DEF_FREQUENCY_UP_THRESHOLD
    down_differential_multi_core := MICRO_FREQUENCY_DOWN_DIFFERENTIAL
    optimal_freq := 0
    up_threshold_any_cpu_load := DEF_FREQUENCY_UP_THRESHOLD
    sync_freq := 0 }

/-- One call of `__cpufreq_driver_target (policy, target_freq, relation)`;
the policy is named by its `cpu`. -/
structure driver_request where
  cpu : Nat
  target_freq : Nat
  relation : cpufreq_relation
  deriving DecidableEq, Repr

/-- The state of the governor: the global tunables, the online mask (in the
order `for_each_online_cpu` visits it), the per-CPU array `od_cpu_dbs_info`
and the calls of `__cpufreq_driver_target` made so far, oldest first. -/
structure gov_state where
  od_tuners : od_dbs_tuners
  cpu_online_mask : List Nat
  od_cpu_dbs_info : Nat → od_cpu_dbs_info_s
  driver_calls : List driver_request

/-- Kernel services used by the governor whose code is not in the sources.
`table_target policy table target relation` is the index written by
`cpufreq_frequency_table_target`, `none` when it fails and leaves the index
untouched. -/
structure kernel_env where
  table_target : cpufreq_policy → List Nat → Nat → cpufreq_relation → Option Nat
  usecs_to_jiffies : Nat → Nat
  cpufreq_frequency_get_table : Nat → Option (List Nat)
  POWERSAVE_BIAS_MAXLEVEL : Int
  POWERSAVE_BIAS_MINLEVEL : Int

/-- The accessor `per_cpu (od_cpu_dbs_info, cpu)`. -/
def per_cpu (s : gov_state) (cpu : Nat) : od_cpu_dbs_info_s :=
  s.od_cpu_dbs_info cpu

/-- An assignment through `&per_cpu (od_cpu_dbs_info, cpu)`. -/
def set_per_cpu (s : gov_state) (cpu : Nat) (v : od_cpu_dbs_info_s) : gov_state :=
  { s with od_cpu_dbs_info := fun j => if j = cpu then v else s.od_cpu_dbs_info j }

/-- The function `num_online_cpus ()`. -/
def num_online_cpus (s : gov_state) : Nat := s.cpu_online_mask.length

/-- The call `__cpufreq_driver_target (policy, freq, relation)`: the driver is
outside the governor, the call is recorded. -/
def cpufreq_driver_target (s : gov_state) (policy : cpufreq_policy) (freq : Nat)
    (relation : cpufreq_relation) : gov_state :=
  { s with driver_calls := s.driver_calls ++ [⟨policy.cpu, freq, relation⟩] }

/-! ## The Target Selector -/

/-- The two rounding relations of the Target Selector. -/
inductive round_relation where
  | ROUND_UP
  | ROUND_DOWN
  deriving DecidableEq, Repr

/-- Index of the first entry of a table that satisfies `p`. -/
def first_index_where (p : Nat → Bool) : List Nat → Option Nat
  | [] => none
  | f :: rest =>
    if p f then some 0
    else match first_index_where p rest with
      | some i => some (i + 1)
      | none => none

/-- Index of the last entry of a table that satisfies `p`. -/
def last_index_where (p : Nat → Bool) : List Nat → Option Nat
  | [] => none
  | f :: rest =>
    match last_index_where p rest with
    | some i => some (i + 1)
    | none => if p f then some 0 else none

/-- The maximum entry of a table (0 for the empty table). -/
def table_max : List Nat → Nat
  | [] => 0
  | f :: rest => rest.foldl Nat.max f

/-- The minimum entry of a table (0 for the empty table). -/
def table_min : List Nat → Nat
  | [] => 0
  | f :: rest => rest.foldl Nat.min f

/-- Modelled from the spec: the Target Selector `cpufreq_frequency_table_target`
of drivers/cpufreq/freq_table.c, which is not among the sources. It returns the
index into the table. ROUND_UP: the first entry at or above the target, or the
maximum entry if the target exceeds all. ROUND_DOWN: the last entry at or below
the target, or the minimum entry if the target is below all. It fails only if
the table is empty. -/
def cpufreq_frequency_table_target (table : List Nat) (target : Nat)
    (relation : round_relation) : Option Nat :=
  match relation with
  | round_relation.ROUND_UP =>
    match first_index_where (fun f => decide (target ≤ f)) table with
    | some i => some i
    | none => first_index_where (fun f => decide (f = table_max table)) table
  | round_relation.ROUND_DOWN =>
    match last_index_where (fun f => decide (f ≤ target)) table with
    | some i => some i
    | none => first_index_where (fun f => decide (f = table_min table)) table

/-- The frequency the Target Selector resolves a target to: the table entry at
the returned index. -/
def target_frequency (table : List Nat) (target : Nat) (relation : round_relation) :
    Option Nat :=
  match cpufreq_frequency_table_target table target relation with
  | some i => table.get? i
  | none => none

/-- Modelled from the spec: the two relation constants of include/linux/cpufreq.h,
which is not among the sources, in terms of the rounding relations of the Target
Selector. The Blender must bracket `freq_avg` between the next-lower and the
next-higher table entry, with `freq_lo` (looked up with CPUFREQ_RELATION_H) below
and `freq_hi` (looked up with CPUFREQ_RELATION_L) above: CPUFREQ_RELATION_H is
ROUND_DOWN, the highest frequency at or below the target, and CPUFREQ_RELATION_L
is ROUND_UP, the lowest frequency at or above it. -/
def relation_rounding : cpufreq_relation → round_relation
  | cpufreq_relation.CPUFREQ_RELATION_L => round_relation.ROUND_UP
  | cpufreq_relation.CPUFREQ_RELATION_H => round_relation.ROUND_DOWN

/-- An instance of `usecs_to_jiffies` (kernel/time.c is not among the sources)
for a tick of 10000 microseconds (HZ = 100), rounding up; it is used to evaluate
the functions on concrete states. -/
def usecs_to_jiffies_hz100 (u : Nat) : Nat := (u + 9999) / 10000

/-- Modelled from the spec: a kernel environment with the Target Selector of
the spec as table lookup, a tick of 10 ms, one frequency table shared by all
CPUs, POWERSAVE_BIAS_MAXLEVEL 1000 (the upper end of the bias range) and the
negative sentinel -1000 for POWERSAVE_BIAS_MINLEVEL (cpufreq_governor.h, where
the two levels are defined, is not among the sources). -/
def spec_env (table : List Nat) : kernel_env :=
  { table_target := fun _ t target relation =>
      cpufreq_frequency_table_target t target (relation_rounding relation)
    usecs_to_jiffies := usecs_to_jiffies_hz100
    cpufreq_frequency_get_table := fun _ => some table
    POWERSAVE_BIAS_MAXLEVEL := 1000
    POWERSAVE_BIAS_MINLEVEL := -1000 }

/-! ## The Powersave Bias Blender -/

/-- The entry `table[index].frequency` after a call of
`cpufreq_frequency_table_target` made with `index = 0`: a failed lookup leaves
the index at 0. -/
def table_lookup (k : kernel_env) (policy : cpufreq_policy) (table : List Nat)
    (target : Nat) (relation : cpufreq_relation) : Nat :=
  table.getD ((k.table_target policy table target relation).getD 0) 0

/-- The local `freq_req` of `powersave_bias_target`. -/
def psb_freq_req (k : kernel_env) (policy : cpufreq_policy) (table : List Nat)
    (freq_next : Nat) (relation : cpufreq_relation) : Nat :=
  table_lookup k policy table freq_next relation

/-- The local `freq_reduc` of `powersave_bias_target`, as the `unsigned int`
it is converted to when it is used:
`freq_reduc = freq_req * od_tuners.powersave_bias / 1000`. -/
def psb_freq_reduc (t : od_dbs_tuners) (freq_req : Nat) : Nat :=
  umul freq_req (int_to_u32 t.powersave_bias) / 1000

/-- The local `freq_avg` of `powersave_bias_target`:
`freq_avg = freq_req - freq_reduc`. -/
def psb_freq_avg (t : od_dbs_tuners) (freq_req : Nat) : Nat :=
  usub freq_req (psb_freq_reduc t freq_req)

/-- The local `freq_lo` of `powersave_bias_target`: the lookup of `freq_avg`
with CPUFREQ_RELATION_H. -/
def psb_freq_lo (k : kernel_env) (policy : cpufreq_policy) (table : List Nat)
    (freq_avg : Nat) : Nat :=
  table_lookup k policy table freq_avg cpufreq_relation.CPUFREQ_RELATION_H

/-- The local `freq_hi` of `powersave_bias_target`: the lookup of `freq_avg`
with CPUFREQ_RELATION_L. -/
def psb_freq_hi (k : kernel_env) (policy : cpufreq_policy) (table : List Nat)
    (freq_avg : Nat) : Nat :=
  table_lookup k policy table freq_avg cpufreq_relation.CPUFREQ_RELATION_L

/-- The local `jiffies_total` of `powersave_bias_target`: the `unsigned long`
result of `usecs_to_jiffies` stored in an `unsigned int`. -/
def psb_jiffies_total (k : kernel_env) (t : od_dbs_tuners) : Nat :=
  u32 (k.usecs_to_jiffies t.sampling_rate)

/-- The local `jiffies_hi` of `powersave_bias_target`, after its three
assignments. -/
def psb_jiffies_hi (freq_avg freq_lo freq_hi jiffies_total : Nat) : Nat :=
  uadd (umul (usub freq_avg freq_lo) jiffies_total) (usub freq_hi freq_lo / 2)
    / usub freq_hi freq_lo

/-- The function `powersave_bias_target (policy, freq_next, relation)`: the
frequency to be used right now, and the state in which `freq_lo`,
`freq_lo_jiffies` and `freq_hi_jiffies` of `policy->cpu` are set. -/
def powersave_bias_target (k : kernel_env) (s : gov_state) (policy : cpufreq_policy)
    (freq_next : Nat) (relation : cpufreq_relation) : Nat × gov_state :=
  let dbs_info := per_cpu s policy.cpu
  match dbs_info.freq_table with
  | none =>
    (freq_next, set_per_cpu s policy.cpu { dbs_info with freq_lo := 0, freq_lo_jiffies := 0 })
  | some table =>
    let freq_req := psb_freq_req k policy table freq_next relation
    let freq_avg := psb_freq_avg s.od_tuners freq_req
    let freq_lo := psb_freq_lo k policy table freq_avg
    let freq_hi := psb_freq_hi k policy table freq_avg
    if freq_hi = freq_lo then
      (freq_lo, set_per_cpu s policy.cpu { dbs_info with freq_lo := 0, freq_lo_jiffies := 0 })
    else
      let jiffies_total := psb_jiffies_total k s.od_tuners
      let jiffies_hi := psb_jiffies_hi freq_avg freq_lo freq_hi jiffies_total
      let jiffies_lo := usub jiffies_total jiffies_hi
      (freq_hi, set_per_cpu s policy.cpu
        { dbs_info with freq_lo := freq_lo, freq_lo_jiffies := jiffies_lo,
                        freq_hi_jiffies := jiffies_hi })

/-- The function `ondemand_powersave_bias_init_cpu (cpu)`. -/
def ondemand_powersave_bias_init_cpu (k : kernel_env) (s : gov_state) (cpu : Nat) :
    gov_state :=
  set_per_cpu s cpu
    { per_cpu s cpu with freq_table := k.cpufreq_frequency_get_table cpu, freq_lo := 0 }

/-- The function `ondemand_powersave_bias_init ()`. -/
def ondemand_powersave_bias_init (k : kernel_env) (s : gov_state) : gov_state :=
  s.cpu_online_mask.foldl (ondemand_powersave_bias_init_cpu k) s

/-! ## The Decision Engine -/

/-- The function `dbs_freq_increase (p, freq)`. -/
def dbs_freq_increase (k : kernel_env) (s : gov_state) (p : cpufreq_policy) (freq : Nat) :
    gov_state :=
  if s.od_tuners.powersave_bias ≠ 0 then
    let r := powersave_bias_target k s p freq cpufreq_relation.CPUFREQ_RELATION_H
    cpufreq_driver_target r.2 p r.1 cpufreq_relation.CPUFREQ_RELATION_L
  else if p.cur = p.max then
    s
  else
    cpufreq_driver_target s p freq cpufreq_relation.CPUFREQ_RELATION_H

/-- One iteration of the `for_each_online_cpu (j)` loop of `od_check_cpu`, on
the running value of `max_load_other_cpu`. -/
def max_load_other_cpu_step (s : gov_state) (policy : cpufreq_policy)
    (max_load_other_cpu : Nat) (j : Nat) : Nat :=
  if j = policy.cpu then max_load_other_cpu
  else
    let od_j_dbs_info := per_cpu s j
    let m := if max_load_other_cpu < od_j_dbs_info.max_load then od_j_dbs_info.max_load
             else max_load_other_cpu
    match od_j_dbs_info.cur_policy with
    | none => m
    | some pj =>
      if pj.cur = pj.max then
        if policy.cur ≥ s.od_tuners.optimal_freq then s.od_tuners.up_threshold_any_cpu_load
        else m
      else m

/-- The value of `max_load_other_cpu` after the loop over the online CPUs. -/
def max_load_other_cpu (s : gov_state) (policy : cpufreq_policy) : Nat :=
  s.cpu_online_mask.foldl (max_load_other_cpu_step s policy) 0

/-- The value of `freq_next` on the scale-down path of `od_check_cpu`, after
the clamp to `policy->min` and the two multi-core adjustments. -/
def od_freq_next (s : gov_state) (policy : cpufreq_policy) (load_freq : Nat)
    (max_load_other : Nat) : Nat :=
  let t := s.od_tuners
  let freq_next := load_freq / t.adj_up_threshold
  let freq_next := if freq_next < policy.min then policy.min else freq_next
  if num_online_cpus s > 1 then
    let freq_next :=
      if max_load_other >
          usub (usub t.up_threshold_multi_core t.adj_up_threshold) t.up_threshold ∧
          freq_next < t.sync_freq then t.sync_freq
      else freq_next
    if load_freq >
        umul (usub t.up_threshold_multi_core t.down_differential_multi_core) policy.cur then
      t.optimal_freq
    else freq_next
  else freq_next

/-- The function `od_check_cpu (cpu, load_freq)`. The result is `none` when
`cur_policy` of the CPU is `NULL`, which the C code dereferences. -/
def od_check_cpu (k : kernel_env) (s : gov_state) (cpu : Nat) (load_freq : Nat) :
    Option gov_state :=
  match (per_cpu s cpu).cur_policy with
  | none => none
  | some policy =>
    let t := s.od_tuners
    let max_load_other := max_load_other_cpu s policy
    let s1 := set_per_cpu s cpu { per_cpu s cpu with freq_lo := 0 }
    if load_freq > umul t.up_threshold policy.cur then
      let s2 := if policy.cur < policy.max then
                  set_per_cpu s1 cpu { per_cpu s1 cpu with rate_mult := t.sampling_down_factor }
                else s1
      some (dbs_freq_increase k s2 policy policy.max)
    else if num_online_cpus s > 1 ∧ max_load_other > t.up_threshold_any_cpu_load then
      if policy.cur < t.sync_freq then some (dbs_freq_increase k s1 policy t.sync_freq)
      else some s1
    else if num_online_cpus s > 1 ∧ load_freq > umul t.up_threshold_multi_core policy.cur then
      if policy.cur < t.optimal_freq then some (dbs_freq_increase k s1 policy t.optimal_freq)
      else some s1
    else if policy.cur = policy.min then
      some s1
    else if load_freq < umul t.adj_up_threshold policy.cur then
      let s2 := set_per_cpu s1 cpu { per_cpu s1 cpu with rate_mult := 1 }
      let freq_next := od_freq_next s policy load_freq max_load_other
      if t.powersave_bias = 0 then
        some (cpufreq_driver_target s2 policy freq_next cpufreq_relation.CPUFREQ_RELATION_L)
      else
        let r := powersave_bias_target k s2 policy freq_next cpufreq_relation.CPUFREQ_RELATION_L
        some (cpufreq_driver_target r.2 policy r.1 cpufreq_relation.CPUFREQ_RELATION_L)
    else
      some s1

/-- The request that `dbs_freq_increase (policy, freq)` passes to the driver
when it passes one. -/
def freq_increase_request (k : kernel_env) (s : gov_state) (policy : cpufreq_policy)
    (freq : Nat) : driver_request :=
  if s.od_tuners.powersave_bias = 0 then
    ⟨policy.cpu, freq, cpufreq_relation.CPUFREQ_RELATION_H⟩
  else
    ⟨policy.cpu,
      (powersave_bias_target k s policy freq cpufreq_relation.CPUFREQ_RELATION_H).1,
      cpufreq_relation.CPUFREQ_RELATION_L⟩

/-! ## The sysfs interface -/

/-- What a store function leaves behind: its return value (`count`, or a
negated errno) and the state. -/
structure store_result where
  ret : Int
  state : gov_state

/-- The function `store_up_threshold`. `parsed` is what `sscanf (buf, "%u", &input)`
read: `none` when it did not return 1. -/
def store_up_threshold (s : gov_state) (parsed : Option Nat) (count : Nat) : store_result :=
  match parsed with
  | none => ⟨-EINVAL, s⟩
  | some input =>
    if input > MAX_FREQUENCY_UP_THRESHOLD ∨ input < MIN_FREQUENCY_UP_THRESHOLD then
      ⟨-EINVAL, s⟩
    else
      let t := s.od_tuners
      let adj := uadd t.adj_up_threshold input
      let adj := usub adj t.up_threshold
      ⟨count, { s with od_tuners := { t with adj_up_threshold := adj, up_threshold := input } }⟩

/-- The function `store_sampling_down_factor`. -/
def store_sampling_down_factor (s : gov_state) (parsed : Option Nat) (count : Nat) :
    store_result :=
  match parsed with
  | none => ⟨-EINVAL, s⟩
  | some input =>
    if input > MAX_SAMPLING_DOWN_FACTOR ∨ input < 1 then
      ⟨-EINVAL, s⟩
    else
      let s1 := { s with od_tuners := { s.od_tuners with sampling_down_factor := input } }
      ⟨count, s.cpu_online_mask.foldl
        (fun st j => set_per_cpu st j { per_cpu st j with rate_mult := 1 }) s1⟩

/-- The value `store_powersave_bias` keeps of a parsed input, after the two
comparisons with the bypass levels. -/
def powersave_bias_level (k : kernel_env) (input : Int) : Int :=
  if input ≥ k.POWERSAVE_BIAS_MAXLEVEL then k.POWERSAVE_BIAS_MAXLEVEL
  else if input ≤ k.POWERSAVE_BIAS_MINLEVEL then k.POWERSAVE_BIAS_MINLEVEL
  else input

/-- The flag `bypass` of `store_powersave_bias`. -/
def powersave_bias_bypass (k : kernel_env) (input : Int) : Bool :=
  if input ≥ k.POWERSAVE_BIAS_MAXLEVEL then true
  else if input ≤ k.POWERSAVE_BIAS_MINLEVEL then true
  else false

/-- The function `store_powersave_bias`, on the tunables and the per-CPU data.
`parsed` is what `sscanf (buf, "%d", &input)` read. The two loops over the
online CPUs that restart or cancel the sampling timers (`dbs_timer_init`,
`dbs_timer_exit`, `ondemand_powersave_bias_setspeed`) call into code that is
not in the sources and touch neither the tunables nor the fields of
`od_cpu_dbs_info_s` kept here; they leave no trace in this state. -/
def store_powersave_bias (k : kernel_env) (s : gov_state) (parsed : Option Int)
    (count : Nat) : store_result :=
  match parsed with
  | none => ⟨-EINVAL, s⟩
  | some input0 =>
    let input := powersave_bias_level k input0
    let bypass := powersave_bias_bypass k input0
    if input = s.od_tuners.powersave_bias then
      ⟨count, s⟩
    else
      let s1 := { s with od_tuners := { s.od_tuners with powersave_bias := input } }
      if !bypass then
        ⟨count, ondemand_powersave_bias_init k s1⟩
      else
        ⟨count, s1⟩

/-! ## Concrete states used to evaluate the functions -/

/-- A per-CPU record with no policy attached and every counter at zero. -/
def dbs_info_zero : od_cpu_dbs_info_s :=
  { cur_policy := none
    max_load := 0
    freq_table := none
    freq_lo := 0
    freq_lo_jiffies := 0
    freq_hi_jiffies := 0
    rate_mult := 1
    sample_type := od_sample_type.OD_NORMAL_SAMPLE }

/-- The frequency table 200, 400, 600, 800. -/
def table_200_800 : List Nat := [200, 400, 600, 800]

/-- A state with the given tunables and online mask, in which CPU 0 runs
`policy` over the table 200..800 with the given `rate_mult`, and CPU 1 runs a
policy at 400 of 200..800 and publishes `max_load_1`. -/
def example_state (t : od_dbs_tuners) (online : List Nat) (policy : cpufreq_policy)
    (rate_mult : Nat) (max_load_1 : Nat) : gov_state :=
  { od_tuners := t
    cpu_online_mask := online
    od_cpu_dbs_info := fun j =>
      if j = 0 then
        { dbs_info_zero with cur_policy := some policy, freq_table := some table_200_800,
                             rate_mult := rate_mult }
      else if j = 1 then
        { dbs_info_zero with cur_policy := some ⟨1, 400, 200, 800⟩,
                             freq_table := some table_200_800, max_load := max_load_1 }
      else dbs_info_zero
    driver_calls := [] }

/-- The static initialiser with `sampling_down_factor` 5, `sampling_rate`
50000 and `powersave_bias` 100. -/
def tuners_bias_100 : od_dbs_tuners :=
  { od_tuners_init with sampling_rate := 50000, sampling_down_factor := 5, powersave_bias := 100 }

/-- The static initialiser (`up_threshold` 80, `adj_up_threshold` 70, no bias)
with `sampling_down_factor` 5, `sampling_rate` 50000 and the given `sync_freq`. -/
def tuners_sdf_5 (sync_freq : Nat) : od_dbs_tuners :=
  { od_tuners_init with sampling_rate := 50000, sampling_down_factor := 5,
                        sync_freq := sync_freq }

/-! ## Intermediate states of a decision cycle -/

/-- The state after `dbs_info->freq_lo = 0` in `od_check_cpu`. -/
def od_freq_lo_reset (s : gov_state) (cpu : Nat) : gov_state :=
  set_per_cpu s cpu { per_cpu s cpu with freq_lo := 0 }

/-- The state after an assignment `dbs_info->rate_mult = v` in `od_check_cpu`. -/
def od_rate_mult_set (s : gov_state) (cpu : Nat) (v : Nat) : gov_state :=
  set_per_cpu s cpu { per_cpu s cpu with rate_mult := v }

/-! ## The Sampling Scheduler -/

/-- Kernel services used by the timer code whose code is not in the sources.
`need_load_eval s cpu` is the result of `need_load_eval (&core_dbs_info->cdbs,
sampling_rate)`; `load_sampler s cpu` is what the Load Sampler measures for the
CPU, the pair of `load` and `load_freq`, or `none` when it has no data yet;
`delay_for_sampling_rate` converts a sampling rate to a delay in jiffies;
`time_before a b` is the jiffies comparison of that name;
`ondemand_governs cpu` tells whether `cpufreq_cpu_get (cpu)` returns a policy
whose governor is `cpufreq_gov_ondemand`. -/
structure timer_env where
  need_load_eval : gov_state → Nat → Bool
  load_sampler : gov_state → Nat → Option (Nat × Nat)
  delay_for_sampling_rate : Nat → Nat
  time_before : Nat → Nat → Bool
  ondemand_governs : Nat → Bool

/-- Modelled from the spec: `dbs_check_cpu` of drivers/cpufreq/cpufreq_governor.c,
which is not among the sources. It runs the Load Sampler; when the sampler has
no data yet the decision of this cycle is skipped; otherwise the raw load is
published to `max_load` and `load_freq` is handed to the Decision Engine
(`od_dbs_data.gov_check_cpu`, which is `od_check_cpu`). -/
def dbs_check_cpu (k : kernel_env) (e : timer_env) (s : gov_state) (cpu : Nat) :
    Option gov_state :=
  match e.load_sampler s cpu with
  | none => some s
  | some m =>
    od_check_cpu k (set_per_cpu s cpu { per_cpu s cpu with max_load := m.1 }) cpu m.2

/-- What a firing of `od_dbs_timer` leaves behind: the state and the delay it
hands to `schedule_delayed_work_on`. -/
structure timer_result where
  state : gov_state
  delay : Nat

/-- The decision step of a NORMAL firing of `od_dbs_timer`:
`if (eval_load) dbs_check_cpu (&od_dbs_data, cpu);`. -/
def od_decision_step (k : kernel_env) (e : timer_env) (s : gov_state) (cpu : Nat)
    (eval_load : Bool) : Option gov_state :=
  if eval_load then dbs_check_cpu k e s cpu else some s

/-- The function `od_dbs_timer (work)`, for the work item of CPU `w`. The
result is `none` when a `cur_policy` that the C code dereferences is `NULL`.
The delay is the 32-bit value the C code keeps in `int delay`. -/
def od_dbs_timer (k : kernel_env) (e : timer_env) (s : gov_state) (w : Nat) :
    Option timer_result :=
  match (per_cpu s w).cur_policy with
  | none => none
  | some pw =>
    let cpu := pw.cpu
    let sample_type := (per_cpu s cpu).sample_type
    let eval_load := e.need_load_eval s cpu
    let s1 := set_per_cpu s cpu
      { per_cpu s cpu with sample_type := od_sample_type.OD_NORMAL_SAMPLE }
    if sample_type = od_sample_type.OD_SUB_SAMPLE then
      let delay := (per_cpu s1 cpu).freq_lo_jiffies
      if eval_load then
        match (per_cpu s1 cpu).cur_policy with
        | none => none
        | some policy =>
          some ⟨cpufreq_driver_target s1 policy (per_cpu s1 cpu).freq_lo
            cpufreq_relation.CPUFREQ_RELATION_H, delay⟩
      else
        some ⟨s1, delay⟩
    else
      match od_decision_step k e s1 cpu eval_load with
      | none => none
      | some s2 =>
        if (per_cpu s2 cpu).freq_lo ≠ 0 then
          some ⟨set_per_cpu s2 cpu
            { per_cpu s2 cpu with sample_type := od_sample_type.OD_SUB_SAMPLE },
            (per_cpu s2 cpu).freq_hi_jiffies⟩
        else
          some ⟨s2, e.delay_for_sampling_rate
            (umul s2.od_tuners.sampling_rate (per_cpu s2 cpu).rate_mult)⟩

/-- The state `update_sampling_rate` works on: the governor state, the field
`od_dbs_data.min_sampling_rate`, the value of `jiffies` on entry, and for every
CPU the delayed work `dbs_info->cdbs.work`: `none` when it is not pending, its
`timer.expires` when it is. -/
structure sched_state where
  gov : gov_state
  min_sampling_rate : Nat
  jiffies : Nat
  work_expires : Nat → Option Nat

/-- What `update_sampling_rate` takes from the machine and from the clock,
none of it among the sources. `BITS_PER_LONG` is the width of `unsigned long`,
the type of `jiffies`, `next_sampling`, `appointed_at` and `timer.expires`
(32 on ARM, 64 on ARM64). `jiffies` is a volatile counter: `ticks_at_test cpu`
is the number of ticks that have passed since the call began when `jiffies`
is read for `next_sampling` in the iteration of `cpu`, and
`ticks_at_rearm cpu` the number that have passed when
`schedule_delayed_work_on` arms the timer of `cpu` again, after
`cancel_delayed_work_sync` has returned. -/
structure clock_env where
  BITS_PER_LONG : Nat
  ticks_at_test : Nat → Nat
  ticks_at_rearm : Nat → Nat

/-- The sum of two `unsigned long` of `bits_per_long` bits. -/
def ulong_add (bits_per_long a b : Nat) : Nat := (a + b) % 2 ^ bits_per_long

/-- One iteration of the `for_each_online_cpu (cpu)` loop of
`update_sampling_rate`, with `new_rate` already raised to the minimum;
`st.jiffies` is the value of `jiffies` when the call began. `next_sampling` is
computed from `jiffies` as it is read before the test. When the test holds,
the work is cancelled and `schedule_delayed_work_on (cpu, work, delay)` then
leaves it pending with `expires = jiffies + delay`, for the value `jiffies`
has by then. -/
def update_sampling_rate_step (k : kernel_env) (e : timer_env) (c : clock_env)
    (new_rate : Nat) (st : sched_state) (cpu : Nat) : sched_state :=
  if e.ondemand_governs cpu then
    match st.work_expires cpu with
    | none => st
    | some appointed_at =>
      let jiffies_test := ulong_add c.BITS_PER_LONG st.jiffies (c.ticks_at_test cpu)
      let next_sampling := ulong_add c.BITS_PER_LONG jiffies_test (k.usecs_to_jiffies new_rate)
      if e.time_before next_sampling appointed_at then
        let jiffies_rearm := ulong_add c.BITS_PER_LONG st.jiffies (c.ticks_at_rearm cpu)
        { st with work_expires := fun j =>
            if j = cpu then
              some (ulong_add c.BITS_PER_LONG jiffies_rearm (k.usecs_to_jiffies new_rate))
            else st.work_expires j }
      else st
  else st

/-- The function `update_sampling_rate (new_rate)`. -/
def update_sampling_rate (k : kernel_env) (e : timer_env) (c : clock_env) (st : sched_state)
    (new_rate : Nat) : sched_state :=
  let new_rate := max new_rate st.min_sampling_rate
  let st1 := { st with gov :=
    { st.gov with od_tuners := { st.gov.od_tuners with sampling_rate := new_rate } } }
  st1.gov.cpu_online_mask.foldl (update_sampling_rate_step k e c new_rate) st1

/-- The kernel environment looks tables up with the Target Selector of the
spec. -/
def uses_target_selector (k : kernel_env) : Prop :=
  ∀ (policy : cpufreq_policy) (table : List Nat) (target : Nat)
    (relation : cpufreq_relation),
    k.table_target policy table target relation =
      cpufreq_frequency_table_target table target (relation_rounding relation)

/-- The macro `time_before (a, b)` of include/linux/jiffies.h (not among the
sources) on 32-bit `unsigned long`: the difference `a - b`, read as a signed
number, is negative. -/
def time_before_u32 (a b : Nat) : Bool := decide (usub a b ≥ 2147483648)

/-- A timer environment used to evaluate the functions: the load is always to
be evaluated, the sampler measures the given load at the given frequency, a
sampling rate is converted to jiffies with a tick of 10 ms, and every CPU is
governed by ondemand. -/
def example_timer_env (load cur : Nat) : timer_env :=
  { need_load_eval := fun _ _ => true
    load_sampler := fun _ _ => some (load, load * cur)
    delay_for_sampling_rate := usecs_to_jiffies_hz100
    time_before := time_before_u32
    ondemand_governs := fun _ => true }

/-- The macro `time_before (a, b)` of include/linux/jiffies.h (not among the
sources) on an `unsigned long` of `bits_per_long` bits: the difference
`a - b`, read as a signed number, is negative. -/
def time_before_long (bits_per_long a b : Nat) : Bool :=
  decide ((a % 2 ^ bits_per_long + 2 ^ bits_per_long - b % 2 ^ bits_per_long)
    % 2 ^ bits_per_long ≥ 2 ^ (bits_per_long - 1))

/-- The timer environment `example_timer_env` with the comparison of
`unsigned long` values of the given width. -/
def example_timer_env_long (bits_per_long : Nat) : timer_env :=
  { example_timer_env 0 0 with time_before := time_before_long bits_per_long }

/-- A clock with the given width of `unsigned long` on which, for every CPU,
`jiffies` is read for the test the given number of ticks after the call began
and the timer is armed again the given number of ticks after it began. -/
def example_clock_env (bits_per_long ticks_at_test ticks_at_rearm : Nat) : clock_env :=
  { BITS_PER_LONG := bits_per_long
    ticks_at_test := fun _ => ticks_at_test
    ticks_at_rearm := fun _ => ticks_at_rearm }

/-- A scheduler state with CPUs 0 and 1 online, a minimum sampling rate of
10000, the given value of `jiffies`, and the works of CPU 0 and CPU 1 pending
for the given expiries. -/
def example_sched_state (jiffies expires_0 expires_1 : Nat) : sched_state :=
  { gov := example_state (tuners_sdf_5 0) [0, 1] ⟨0, 400, 200, 800⟩ 1 0
    min_sampling_rate := 10000
    jiffies := jiffies
    work_expires := fun j =>
      if j = 0 then some expires_0 else if j = 1 then some expires_1 else none }

/-- The frequency table 1000000, 1200000. -/
def table_1000_1200 : List Nat := [1000000, 1200000]

/-- A state with one CPU online, at 1000000 of the table 1000000, 1200000,
with a bias of 20 and the given sampling rate. -/
def two_step_state (sampling_rate : Nat) : gov_state :=
  { od_tuners := { od_tuners_init with sampling_rate := sampling_rate, powersave_bias := 20 }
    cpu_online_mask := [0]
    od_cpu_dbs_info := fun _ =>
      { dbs_info_zero with cur_policy := some ⟨0, 1000000, 1000000, 1200000⟩,
                           freq_table := some table_1000_1200 }
    driver_calls := [] }

/-- The value `v` is a `freq_lo` that `powersave_bias_target` stores for the
policy when it finds `freq_hi != freq_lo`: for some request `freq_next` and
`relation`, on the frequency table `table` of `policy->cpu`, the two bounds of
`freq_avg` differ and `v` is the lower one. -/
def psb_sub_sampled (k : kernel_env) (t : od_dbs_tuners) (policy : cpufreq_policy)
    (table : Option (List Nat)) (v : Nat) : Prop :=
  ∃ (tb : List Nat) (freq_next : Nat) (relation : cpufreq_relation),
    table = some tb ∧
    psb_freq_hi k policy tb (psb_freq_avg t (psb_freq_req k policy tb freq_next relation)) ≠
      psb_freq_lo k policy tb (psb_freq_avg t (psb_freq_req k policy tb freq_next relation)) ∧
    v = psb_freq_lo k policy tb (psb_freq_avg t (psb_freq_req k policy tb freq_next relation))

/-! ## Definitions for the multi-core rules and the initialisation -/

/-- The test of the loop of `od_check_cpu` on the record of another CPU:
`cur_policy != NULL` and `cur_policy->cur == cur_policy->max`. -/
def policy_at_max (info : od_cpu_dbs_info_s) : Bool :=
  match info.cur_policy with
  | none => false
  | some pj => decide (pj.cur = pj.max)

/-- The contribution of CPU `j` in the words of the specification:
`up_threshold_any_cpu_load` when the policy of `j` is at its maximum frequency
and the frequency of this CPU is at least `optimal_freq`, the published
`max_load` of `j` otherwise. -/
def spec_contribution (s : gov_state) (policy : cpufreq_policy) (j : Nat) : Nat :=
  if policy_at_max (per_cpu s j) = true ∧ policy.cur ≥ s.od_tuners.optimal_freq then
    s.od_tuners.up_threshold_any_cpu_load
  else (per_cpu s j).max_load

/-- The value of `max_load_other_cpu` in the words of the specification: the
maximum of the contributions of the online CPUs other than `policy->cpu`
(zero when there is none). -/
def spec_max_load_other_cpu (s : gov_state) (policy : cpufreq_policy) : Nat :=
  ((s.cpu_online_mask.filter (fun j => decide (j ≠ policy.cpu))).map
    (spec_contribution s policy)).foldl max 0

/-- The block of `od_check_cpu` guarded by
`load_freq < od_tuners.adj_up_threshold * policy->cur`, on the state `s1` that
follows `dbs_info->freq_lo = 0`; `s` is the state on entry and
`max_load_other` the value left by the loop over the online CPUs. -/
def od_scale_down_path (k : kernel_env) (s s1 : gov_state) (cpu : Nat)
    (policy : cpufreq_policy) (load_freq : Nat) (max_load_other : Nat) : gov_state :=
  let s2 := set_per_cpu s1 cpu { per_cpu s1 cpu with rate_mult := 1 }
  let freq_next := od_freq_next s policy load_freq max_load_other
  if s.od_tuners.powersave_bias = 0 then
    cpufreq_driver_target s2 policy freq_next cpufreq_relation.CPUFREQ_RELATION_L
  else
    let r := powersave_bias_target k s2 policy freq_next cpufreq_relation.CPUFREQ_RELATION_L
    cpufreq_driver_target r.2 policy r.1 cpufreq_relation.CPUFREQ_RELATION_L

/-- The value of `freq_next` of `od_check_cpu` before the two multi-core
adjustments: `load_freq / adj_up_threshold`, raised to `policy->min`. -/
def od_freq_next_clamped (s : gov_state) (policy : cpufreq_policy) (load_freq : Nat) : Nat :=
  let freq_next := load_freq / s.od_tuners.adj_up_threshold
  if freq_next < policy.min then policy.min else freq_next

/-- The margin `up_threshold_multi_core - adj_up_threshold - up_threshold` of
the first multi-core adjustment of `od_check_cpu`, an `unsigned int`. -/
def sync_freq_margin (t : od_dbs_tuners) : Nat :=
  usub (usub t.up_threshold_multi_core t.adj_up_threshold) t.up_threshold

/-- The part of `cpufreq_gov_dbs_init` that sets tunables and
`od_dbs_data.min_sampling_rate`. `idle_micro_accounting` tells whether
`get_cpu_idle_time_us` returned something other than `-1ULL`, and
`jiffies_min_sampling_rate` is the value of the product with
`jiffies_to_usecs (10)`; both come from headers that are not among the
sources. The work queue and the registration of the governor are not part of
the state. -/
def cpufreq_gov_dbs_init (idle_micro_accounting : Bool) (jiffies_min_sampling_rate : Nat)
    (st : sched_state) : sched_state :=
  if idle_micro_accounting then
    { st with
      gov := { st.gov with od_tuners := { st.gov.od_tuners with
        up_threshold := MICRO_FREQUENCY_UP_THRESHOLD
        adj_up_threshold := MICRO_FREQUENCY_UP_THRESHOLD - MICRO_FREQUENCY_DOWN_DIFFERENTIAL } }
      min_sampling_rate := MICRO_FREQUENCY_MIN_SAMPLE_RATE }
  else
    { st with min_sampling_rate := jiffies_min_sampling_rate }

/-- A sequence of writes to the sysfs file `up_threshold`: each element is the
result of parsing one written buffer, with the length of that buffer. -/
def store_up_threshold_seq (s : gov_state) (writes : List (Option Nat × Nat)) : gov_state :=
  writes.foldl (fun st w => (store_up_threshold st w.1 w.2).state) s

/-- A state with CPUs 0, 1 and 2: CPU 0 runs `policy` over the table 200..800,
CPU 1 runs at 400 of 200..800 and publishes the load `load_1`, CPU 2 runs at
its maximum 800 and publishes the load `load_2`. -/
def three_cpu_state (t : od_dbs_tuners) (online : List Nat) (policy : cpufreq_policy)
    (load_1 load_2 : Nat) : gov_state :=
  { od_tuners := t
    cpu_online_mask := online
    od_cpu_dbs_info := fun j =>
      if j = 0 then
        { dbs_info_zero with cur_policy := some policy, freq_table := some table_200_800 }
      else if j = 1 then
        { dbs_info_zero with cur_policy := some ⟨1, 400, 200, 800⟩,
                             freq_table := some table_200_800, max_load := load_1 }
      else if j = 2 then
        { dbs_info_zero with cur_policy := some ⟨2, 800, 200, 800⟩,
                             freq_table := some table_200_800, max_load := load_2 }
      else dbs_info_zero
    driver_calls := [] }

/-- The tunables left by `cpufreq_gov_dbs_init` with idle micro accounting
(`up_threshold` 95, `adj_up_threshold` 92), with the given multi-core
threshold, `sync_freq` and `optimal_freq`. -/
def tuners_micro (up_threshold_multi_core sync_freq optimal_freq : Nat) : od_dbs_tuners :=
  { od_tuners_init with
    sampling_rate := 50000
    up_threshold := MICRO_FREQUENCY_UP_THRESHOLD
    adj_up_threshold := MICRO_FREQUENCY_UP_THRESHOLD - MICRO_FREQUENCY_DOWN_DIFFERENTIAL
    up_threshold_multi_core := up_threshold_multi_core
    sync_freq := sync_freq
    optimal_freq := optimal_freq }

/-- The static initialiser with `up_threshold_multi_core` 50, `sync_freq` 300
and `optimal_freq` 600. -/
def tuners_multi_50 : od_dbs_tuners :=
  { od_tuners_init with sampling_rate := 50000, up_threshold_multi_core := 50,
                        sync_freq := 300, optimal_freq := 600 }

/-! ## Frame lemmas -/

@[simp]
theorem set_per_cpu_od_tuners (s : gov_state) (c : Nat) (v : od_cpu_dbs_info_s) :
    (set_per_cpu s c v).od_tuners = s.od_tuners := rfl

@[simp]
theorem set_per_cpu_driver_calls (s : gov_state) (c : Nat) (v : od_cpu_dbs_info_s) :
    (set_per_cpu s c v).driver_calls = s.driver_calls := rfl

@[simp]
theorem set_per_cpu_cpu_online_mask (s : gov_state) (c : Nat) (v : od_cpu_dbs_info_s) :
    (set_per_cpu s c v).cpu_online_mask = s.cpu_online_mask := rfl

@[simp]
theorem num_online_cpus_set_per_cpu (s : gov_state) (c : Nat) (v : od_cpu_dbs_info_s) :
    num_online_cpus (set_per_cpu s c v) = num_online_cpus s := rfl

theorem per_cpu_set_per_cpu (s : gov_state) (c j : Nat) (v : od_cpu_dbs_info_s) :
    per_cpu (set_per_cpu s c v) j = if j = c then v else per_cpu s j := rfl

@[simp]
theorem per_cpu_set_per_cpu_same (s : gov_state) (c : Nat) (v : od_cpu_dbs_info_s) :
    per_cpu (set_per_cpu s c v) c = v := by
  simp [per_cpu_set_per_cpu]

theorem per_cpu_set_per_cpu_other (s : gov_state) (c j : Nat) (v : od_cpu_dbs_info_s)
    (h : j ≠ c) : per_cpu (set_per_cpu s c v) j = per_cpu s j := by
  simp [per_cpu_set_per_cpu, h]

@[simp]
theorem cpufreq_driver_target_od_tuners (s : gov_state) (p : cpufreq_policy)
    (f : Nat) (r : cpufreq_relation) : (cpufreq_driver_target s p f r).od_tuners = s.od_tuners :=
  rfl

@[simp]
theorem cpufreq_driver_target_driver_calls (s : gov_state) (p : cpufreq_policy)
    (f : Nat) (r : cpufreq_relation) :
    (cpufreq_driver_target s p f r).driver_calls = s.driver_calls ++ [⟨p.cpu, f, r⟩] := rfl

@[simp]
theorem per_cpu_cpufreq_driver_target (s : gov_state) (p : cpufreq_policy)
    (f : Nat) (r : cpufreq_relation) (j : Nat) :
    per_cpu (cpufreq_driver_target s p f r) j = per_cpu s j := rfl

/-- The value returned by `powersave_bias_target` depends on the state only
through the tunables and the frequency table of `policy->cpu`. -/
theorem powersave_bias_target_fst_congr (k : kernel_env) (s s2 : gov_state)
    (policy : cpufreq_policy) (freq_next : Nat) (relation : cpufreq_relation)
    (ht : s2.od_tuners = s.od_tuners)
    (hf : (per_cpu s2 policy.cpu).freq_table = (per_cpu s policy.cpu).freq_table) :
    (powersave_bias_target k s2 policy freq_next relation).1 =
      (powersave_bias_target k s policy freq_next relation).1 := by
  rcases h : (per_cpu s policy.cpu).freq_table with _ | table
  · simp only [powersave_bias_target, hf, h]
  · simp only [powersave_bias_target, hf, h, ht]
    split <;> rfl

/-- The function `powersave_bias_target` makes no driver call, changes no
tunable and no `rate_mult`, and leaves the records of the CPUs other than
`policy->cpu` as they are. -/
theorem powersave_bias_target_frame (k : kernel_env) (s : gov_state)
    (policy : cpufreq_policy) (freq_next : Nat) (relation : cpufreq_relation) :
    (powersave_bias_target k s policy freq_next relation).2.driver_calls = s.driver_calls ∧
    (powersave_bias_target k s policy freq_next relation).2.od_tuners = s.od_tuners ∧
    (∀ j, (per_cpu (powersave_bias_target k s policy freq_next relation).2 j).rate_mult =
      (per_cpu s j).rate_mult) ∧
    ∀ j, j ≠ policy.cpu →
      per_cpu (powersave_bias_target k s policy freq_next relation).2 j = per_cpu s j := by
  have key : ∀ v : od_cpu_dbs_info_s, v.rate_mult = (per_cpu s policy.cpu).rate_mult →
      (set_per_cpu s policy.cpu v).driver_calls = s.driver_calls ∧
      (set_per_cpu s policy.cpu v).od_tuners = s.od_tuners ∧
      (∀ j, (per_cpu (set_per_cpu s policy.cpu v) j).rate_mult = (per_cpu s j).rate_mult) ∧
      ∀ j, j ≠ policy.cpu → per_cpu (set_per_cpu s policy.cpu v) j = per_cpu s j := by
    intro v hv
    refine ⟨rfl, rfl, ?_, fun j hj => per_cpu_set_per_cpu_other s _ j v hj⟩
    intro j
    by_cases hj : j = policy.cpu
    · subst hj
      simpa using hv
    · rw [per_cpu_set_per_cpu_other s _ j v hj]
  rcases h : (per_cpu s policy.cpu).freq_table with _ | table
  · simp only [powersave_bias_target, h]
    exact key _ rfl
  · simp only [powersave_bias_target, h]
    split
    · exact key _ rfl
    · exact key _ rfl

/-! ## Properties of the Decision Engine -/

/-- The request of `dbs_freq_increase` depends on the state only through the
tunables and the frequency table of `policy->cpu`. -/
theorem freq_increase_request_congr (k : kernel_env) (s s2 : gov_state)
    (policy : cpufreq_policy) (freq : Nat)
    (ht : s2.od_tuners = s.od_tuners)
    (hf : (per_cpu s2 policy.cpu).freq_table = (per_cpu s policy.cpu).freq_table) :
    freq_increase_request k s2 policy freq = freq_increase_request k s policy freq := by
  unfold freq_increase_request
  rw [ht, powersave_bias_target_fst_congr k s s2 policy freq _ ht hf]

/-- Unless `powersave_bias` is 0 and the policy is at its maximum,
`dbs_freq_increase` makes exactly one driver call, and it changes neither the
tunables nor any `rate_mult`. -/
theorem dbs_freq_increase_effect (k : kernel_env) (s : gov_state) (p : cpufreq_policy)
    (freq : Nat) (h : s.od_tuners.powersave_bias ≠ 0 ∨ p.cur ≠ p.max) :
    (dbs_freq_increase k s p freq).driver_calls =
      s.driver_calls ++ [freq_increase_request k s p freq] ∧
    (dbs_freq_increase k s p freq).od_tuners = s.od_tuners ∧
    ∀ j, (per_cpu (dbs_freq_increase k s p freq) j).rate_mult = (per_cpu s j).rate_mult := by
  have hfr := powersave_bias_target_frame k s p freq cpufreq_relation.CPUFREQ_RELATION_H
  unfold dbs_freq_increase freq_increase_request
  by_cases hb : s.od_tuners.powersave_bias = 0
  · have hne : p.cur ≠ p.max := by
      rcases h with h | h
      · exact absurd hb h
      · exact h
    simp [hb, hne]
  · simp only [hb, ne_eq, not_false_eq_true, if_true, if_false]
    refine ⟨?_, ?_, ?_⟩
    · simp [hfr.1]
    · simp [hfr.2.1]
    · intro j
      simp [hfr.2.2.1 j]

/-- The scale-up branch of `od_check_cpu`, taken below the maximum frequency:
`rate_mult` becomes `sampling_down_factor` and `dbs_freq_increase` makes its
one driver call. -/
theorem od_check_cpu_up_effect (k : kernel_env) (s : gov_state) (cpu load_freq : Nat)
    (policy : cpufreq_policy)
    (hpolicy : (per_cpu s cpu).cur_policy = some policy)
    (hload : load_freq > umul s.od_tuners.up_threshold policy.cur)
    (hcur : policy.cur < policy.max) :
    ∃ s', od_check_cpu k s cpu load_freq = some s' ∧
      (per_cpu s' cpu).rate_mult = s.od_tuners.sampling_down_factor ∧
      s'.driver_calls = s.driver_calls ++ [freq_increase_request k s policy policy.max] ∧
      s'.od_tuners = s.od_tuners := by
  have hne : policy.cur ≠ policy.max := Nat.ne_of_lt hcur
  simp only [od_check_cpu, hpolicy, hload, hcur, if_true]
  refine ⟨_, rfl, ?_, ?_, ?_⟩
  · rw [(dbs_freq_increase_effect k _ policy policy.max (Or.inr hne)).2.2 cpu]
    simp
  · rw [(dbs_freq_increase_effect k _ policy policy.max (Or.inr hne)).1]
    rw [freq_increase_request_congr k s _ policy policy.max ?_ ?_]
    · simp
    · simp
    · by_cases hc : policy.cpu = cpu
      · rw [hc]
        simp
      · simp [per_cpu_set_per_cpu_other _ _ _ _ hc]
  · rw [(dbs_freq_increase_effect k _ policy policy.max (Or.inr hne)).2.1]
    simp

/-- C1: scale-up. In every state in which `load_freq > up_threshold * policy->cur`
(the 32-bit product the code compares with) and `policy->cur < policy->max`,
`od_check_cpu` returns, leaves `rate_mult` of the CPU equal to
`sampling_down_factor`, and appends exactly one request to the driver calls: for
`policy->max` with relation H when `powersave_bias` is 0, for the value of
`powersave_bias_target (policy, policy->max, CPUFREQ_RELATION_H)` with relation L
otherwise. Nothing is assumed of the other CPUs or of the number of online CPUs,
and the tunables are unchanged. -/
theorem od_check_cpu_scale_up (k : kernel_env) (s : gov_state) (cpu load_freq : Nat)
    (policy : cpufreq_policy)
    (hpolicy : (per_cpu s cpu).cur_policy = some policy)
    (hload : load_freq > umul s.od_tuners.up_threshold policy.cur)
    (hcur : policy.cur < policy.max) :
    ∃ s', od_check_cpu k s cpu load_freq = some s' ∧
      (per_cpu s' cpu).rate_mult = s.od_tuners.sampling_down_factor ∧
      s'.driver_calls = s.driver_calls ++
        [if s.od_tuners.powersave_bias = 0 then
           ⟨policy.cpu, policy.max, cpufreq_relation.CPUFREQ_RELATION_H⟩
         else
           ⟨policy.cpu,
            (powersave_bias_target k s policy policy.max
              cpufreq_relation.CPUFREQ_RELATION_H).1,
            cpufreq_relation.CPUFREQ_RELATION_L⟩] ∧
      s'.od_tuners = s.od_tuners :=
  od_check_cpu_up_effect k s cpu load_freq policy hpolicy hload hcur

/-- Witness of C1: two CPUs online, CPU 0 at 400 of 200..800 with a bias of
100 and `load_freq` 33000 above 80 * 400. -/
theorem od_check_cpu_scale_up_witness :
    (33000 > umul tuners_bias_100.up_threshold 400 ∧ 400 < 800) ∧
    ∃ s', od_check_cpu (spec_env table_200_800)
        (example_state tuners_bias_100 [0, 1] ⟨0, 400, 200, 800⟩ 1 90) 0 33000 = some s' ∧
      (per_cpu s' 0).rate_mult = 5 ∧
      s'.driver_calls = [⟨0, 800, cpufreq_relation.CPUFREQ_RELATION_L⟩] ∧
      s'.od_tuners = tuners_bias_100 :=
  ⟨by decide,
   od_check_cpu_scale_up (spec_env table_200_800)
     (example_state tuners_bias_100 [0, 1] ⟨0, 400, 200, 800⟩ 1 90) 0 33000
     ⟨0, 400, 200, 800⟩ rfl (by decide) (by decide)⟩

/-- C2, as stated, fails: with the table 200..800, `cur` 400, `max` 800,
`up_threshold` 80 and no bias, `load_freq` 321 is above 320 but `od_check_cpu`
(one CPU online, `min` 200, `adj_up_threshold` 70, `sampling_down_factor` 5,
`rate_mult` 3 before) requests 200 with relation L and sets `rate_mult` to 1:
the threshold the code compares with is 80 * 400 = 32000. -/
theorem od_check_cpu_scale_up_example_counterexample :
    321 > 320 ∧
    (tuners_sdf_5 0).up_threshold = 80 ∧ (tuners_sdf_5 0).powersave_bias = 0 ∧
    (tuners_sdf_5 0).sampling_down_factor = 5 ∧
    ∃ s', od_check_cpu (spec_env table_200_800)
        (example_state (tuners_sdf_5 0) [0] ⟨0, 400, 200, 800⟩ 3 0) 0 321 = some s' ∧
      s'.driver_calls = [⟨0, 200, cpufreq_relation.CPUFREQ_RELATION_L⟩] ∧
      (per_cpu s' 0).rate_mult = 1 :=
  ⟨by decide, rfl, rfl, rfl, _, rfl, rfl, rfl⟩

/-- C2, amended: with `policy->cur` 400, `policy->max` 800, `up_threshold` 80
and `powersave_bias` 0 (whatever the frequency table), for every `load_freq`
above 32000 = 80 * 400, `od_check_cpu` makes exactly one driver call, for 800
with relation H, and sets `rate_mult` to `sampling_down_factor`. -/
theorem od_check_cpu_scale_up_example (k : kernel_env) (s : gov_state) (cpu load_freq : Nat)
    (policy : cpufreq_policy)
    (hpolicy : (per_cpu s cpu).cur_policy = some policy)
    (hcur : policy.cur = 400) (hmax : policy.max = 800)
    (hup : s.od_tuners.up_threshold = 80) (hbias : s.od_tuners.powersave_bias = 0)
    (hload : load_freq > 32000) :
    ∃ s', od_check_cpu k s cpu load_freq = some s' ∧
      s'.driver_calls = s.driver_calls ++
        [⟨policy.cpu, 800, cpufreq_relation.CPUFREQ_RELATION_H⟩] ∧
      (per_cpu s' cpu).rate_mult = s.od_tuners.sampling_down_factor := by
  have h1 : load_freq > umul s.od_tuners.up_threshold policy.cur := by
    rw [hup, hcur]
    exact hload
  have h2 : policy.cur < policy.max := by
    rw [hcur, hmax]
    decide
  obtain ⟨s', hs, hr, hc, _⟩ := od_check_cpu_up_effect k s cpu load_freq policy hpolicy h1 h2
  refine ⟨s', hs, ?_, hr⟩
  rw [hc, freq_increase_request, if_pos hbias, hmax]

/-- Witness of the amended C2: CPU 0 at 400 of 200..800, `load_freq` 32001. -/
theorem od_check_cpu_scale_up_example_witness :
    32001 > 32000 ∧
    ∃ s', od_check_cpu (spec_env table_200_800)
        (example_state (tuners_sdf_5 0) [0] ⟨0, 400, 200, 800⟩ 3 0) 0 32001 = some s' ∧
      s'.driver_calls = [⟨0, 800, cpufreq_relation.CPUFREQ_RELATION_H⟩] ∧
      (per_cpu s' 0).rate_mult = 5 :=
  ⟨by decide,
   od_check_cpu_scale_up_example (spec_env table_200_800)
     (example_state (tuners_sdf_5 0) [0] ⟨0, 400, 200, 800⟩ 3 0) 0 32001
     ⟨0, 400, 200, 800⟩ rfl rfl rfl rfl rfl (by decide)⟩

/-- C3: scale-down with one CPU online and no bias. In every state in which
`policy->cur` differs from `policy->min`, `load_freq <= up_threshold * cur` and
`load_freq < adj_up_threshold * cur` (the 32-bit products the code compares
with), `od_check_cpu` returns, sets `rate_mult` to 1 and makes exactly one
driver call, for `max (load_freq / adj_up_threshold, policy->min)` with
relation L. -/
theorem od_check_cpu_scale_down (k : kernel_env) (s : gov_state) (cpu load_freq : Nat)
    (policy : cpufreq_policy)
    (hpolicy : (per_cpu s cpu).cur_policy = some policy)
    (hone : num_online_cpus s = 1)
    (hbias : s.od_tuners.powersave_bias = 0)
    (hmin : policy.cur ≠ policy.min)
    (hup : load_freq ≤ umul s.od_tuners.up_threshold policy.cur)
    (hdown : load_freq < umul s.od_tuners.adj_up_threshold policy.cur) :
    ∃ s', od_check_cpu k s cpu load_freq = some s' ∧
      (per_cpu s' cpu).rate_mult = 1 ∧
      s'.driver_calls = s.driver_calls ++
        [⟨policy.cpu, max (load_freq / s.od_tuners.adj_up_threshold) policy.min,
          cpufreq_relation.CPUFREQ_RELATION_L⟩] := by
  have hnup : ¬ load_freq > umul s.od_tuners.up_threshold policy.cur := Nat.not_lt.mpr hup
  have hnm : ¬ num_online_cpus s > 1 := by
    rw [hone]
    decide
  have hnext : od_freq_next s policy load_freq (max_load_other_cpu s policy) =
      max (load_freq / s.od_tuners.adj_up_threshold) policy.min := by
    simp only [od_freq_next, hnm, if_false]
    split
    · rename_i h
      exact (Nat.max_eq_right (Nat.le_of_lt h)).symm
    · rename_i h
      exact (Nat.max_eq_left (Nat.not_lt.mp h)).symm
  simp only [od_check_cpu, hpolicy, hnup, hnm, false_and, if_false, hmin, hdown, if_true,
    hbias, hnext]
  refine ⟨_, rfl, ?_, ?_⟩
  · simp
  · simp

/-- Witness of C3: `cur` 800, `min` 200, `adj_up_threshold` 70 and `load_freq`
100 give 100 / 70 = 1, clamped to 200: the request is for 200. -/
theorem od_check_cpu_scale_down_witness :
    (100 ≤ umul (tuners_sdf_5 0).up_threshold 800 ∧
      100 < umul (tuners_sdf_5 0).adj_up_threshold 800 ∧
      (tuners_sdf_5 0).adj_up_threshold = 70) ∧
    ∃ s', od_check_cpu (spec_env table_200_800)
        (example_state (tuners_sdf_5 0) [0] ⟨0, 800, 200, 800⟩ 5 0) 0 100 = some s' ∧
      (per_cpu s' 0).rate_mult = 1 ∧
      s'.driver_calls = [⟨0, 200, cpufreq_relation.CPUFREQ_RELATION_L⟩] :=
  ⟨by decide,
   od_check_cpu_scale_down (spec_env table_200_800)
     (example_state (tuners_sdf_5 0) [0] ⟨0, 800, 200, 800⟩ 5 0) 0 100
     ⟨0, 800, 200, 800⟩ rfl rfl rfl (by decide) (by decide) (by decide)⟩

/-- C4, as stated, fails: with two CPUs online, CPU 1 publishing a load of 90
(above `up_threshold_any_cpu_load` 80), `sync_freq` 600 and CPU 0 at 400,
`load_freq` 30000 lies in the band 70 * 400 .. 80 * 400, yet `od_check_cpu`
asks the driver for `sync_freq`. -/
theorem od_check_cpu_band_counterexample :
    (umul (tuners_sdf_5 600).adj_up_threshold 400 ≤ 30000 ∧
      30000 ≤ umul (tuners_sdf_5 600).up_threshold 400) ∧
    ∃ s', od_check_cpu (spec_env table_200_800)
        (example_state (tuners_sdf_5 600) [0, 1] ⟨0, 400, 200, 800⟩ 3 90) 0 30000 = some s' ∧
      s'.driver_calls = [⟨0, 600, cpufreq_relation.CPUFREQ_RELATION_H⟩] :=
  ⟨by decide, _, rfl, rfl⟩

/-- C4, amended: in every state (any number of online CPUs, any published
loads) in which `adj_up_threshold * cur <= load_freq <= up_threshold * cur`
(32-bit products), `od_check_cpu` returns and leaves `rate_mult` unchanged; and
it makes no driver call when one CPU is online or, with several online, when
neither multi-core scale-up rule asks for a higher frequency: `cur >= sync_freq`
if `max_load_other_cpu > up_threshold_any_cpu_load`, and otherwise
`cur >= optimal_freq` if `load_freq > up_threshold_multi_core * cur`. -/
theorem od_check_cpu_band (k : kernel_env) (s : gov_state) (cpu load_freq : Nat)
    (policy : cpufreq_policy)
    (hpolicy : (per_cpu s cpu).cur_policy = some policy)
    (hlow : umul s.od_tuners.adj_up_threshold policy.cur ≤ load_freq)
    (hhigh : load_freq ≤ umul s.od_tuners.up_threshold policy.cur) :
    ∃ s', od_check_cpu k s cpu load_freq = some s' ∧
      (per_cpu s' cpu).rate_mult = (per_cpu s cpu).rate_mult ∧
      ((num_online_cpus s > 1 →
          (max_load_other_cpu s policy > s.od_tuners.up_threshold_any_cpu_load →
            s.od_tuners.sync_freq ≤ policy.cur) ∧
          (max_load_other_cpu s policy ≤ s.od_tuners.up_threshold_any_cpu_load →
            load_freq > umul s.od_tuners.up_threshold_multi_core policy.cur →
            s.od_tuners.optimal_freq ≤ policy.cur)) →
        s'.driver_calls = s.driver_calls) := by
  have hnup : ¬ load_freq > umul s.od_tuners.up_threshold policy.cur := Nat.not_lt.mpr hhigh
  have hndown : ¬ load_freq < umul s.od_tuners.adj_up_threshold policy.cur :=
    Nat.not_lt.mpr hlow
  have hinc : ∀ (s1 : gov_state) (freq : Nat),
      (per_cpu (dbs_freq_increase k s1 policy freq) cpu).rate_mult =
        (per_cpu s1 cpu).rate_mult := by
    intro s1 freq
    unfold dbs_freq_increase
    have hfr := powersave_bias_target_frame k s1 policy freq cpufreq_relation.CPUFREQ_RELATION_H
    split
    · simp [hfr.2.2.1 cpu]
    · split <;> simp
  have hca : (num_online_cpus s > 1 →
      (max_load_other_cpu s policy > s.od_tuners.up_threshold_any_cpu_load →
        s.od_tuners.sync_freq ≤ policy.cur) ∧
      (max_load_other_cpu s policy ≤ s.od_tuners.up_threshold_any_cpu_load →
        load_freq > umul s.od_tuners.up_threshold_multi_core policy.cur →
        s.od_tuners.optimal_freq ≤ policy.cur)) →
      num_online_cpus s > 1 →
      max_load_other_cpu s policy > s.od_tuners.up_threshold_any_cpu_load →
      s.od_tuners.sync_freq ≤ policy.cur := fun h hm ha => (h hm).1 ha
  have hcb : (num_online_cpus s > 1 →
      (max_load_other_cpu s policy > s.od_tuners.up_threshold_any_cpu_load →
        s.od_tuners.sync_freq ≤ policy.cur) ∧
      (max_load_other_cpu s policy ≤ s.od_tuners.up_threshold_any_cpu_load →
        load_freq > umul s.od_tuners.up_threshold_multi_core policy.cur →
        s.od_tuners.optimal_freq ≤ policy.cur)) →
      num_online_cpus s > 1 →
      max_load_other_cpu s policy ≤ s.od_tuners.up_threshold_any_cpu_load →
      load_freq > umul s.od_tuners.up_threshold_multi_core policy.cur →
      s.od_tuners.optimal_freq ≤ policy.cur := fun h hm ha hb => (h hm).2 ha hb
  generalize (num_online_cpus s > 1 →
      (max_load_other_cpu s policy > s.od_tuners.up_threshold_any_cpu_load →
        s.od_tuners.sync_freq ≤ policy.cur) ∧
      (max_load_other_cpu s policy ≤ s.od_tuners.up_threshold_any_cpu_load →
        load_freq > umul s.od_tuners.up_threshold_multi_core policy.cur →
        s.od_tuners.optimal_freq ≤ policy.cur)) = quiet at hca hcb ⊢
  simp only [od_check_cpu, hpolicy, hnup, if_false, hndown]
  by_cases hm : num_online_cpus s > 1
  · by_cases ha : max_load_other_cpu s policy > s.od_tuners.up_threshold_any_cpu_load
    · simp only [hm, ha, and_self, if_true]
      by_cases hs : policy.cur < s.od_tuners.sync_freq
      · simp only [hs, if_true]
        refine ⟨_, rfl, ?_, ?_⟩
        · simp [hinc]
        · intro h
          exact absurd (hca h hm ha) (Nat.not_le.mpr hs)
      · simp only [hs, if_false]
        exact ⟨_, rfl, by simp, fun _ => by simp⟩
    · simp only [hm, ha, and_false, if_false, true_and]
      by_cases hb : load_freq > umul s.od_tuners.up_threshold_multi_core policy.cur
      · simp only [hb, if_true]
        by_cases ho : policy.cur < s.od_tuners.optimal_freq
        · simp only [ho, if_true]
          refine ⟨_, rfl, ?_, ?_⟩
          · simp [hinc]
          · intro h
            exact absurd (hcb h hm (Nat.not_lt.mp ha) hb) (Nat.not_le.mpr ho)
        · simp only [ho, if_false]
          exact ⟨_, rfl, by simp, fun _ => by simp⟩
      · simp only [hb, if_false]
        split
        · exact ⟨_, rfl, by simp, fun _ => by simp⟩
        · exact ⟨_, rfl, by simp, fun _ => by simp⟩
  · simp only [hm, false_and, if_false]
    split
    · exact ⟨_, rfl, by simp, fun _ => by simp⟩
    · exact ⟨_, rfl, by simp, fun _ => by simp⟩

/-- Witness of the amended C4: one CPU online, CPU 0 at 400 with `rate_mult` 3
and `load_freq` 30000 between 70 * 400 and 80 * 400: no driver call, `rate_mult`
still 3. -/
theorem od_check_cpu_band_witness :
    (umul (tuners_sdf_5 600).adj_up_threshold 400 ≤ 30000 ∧
      30000 ≤ umul (tuners_sdf_5 600).up_threshold 400) ∧
    ∃ s', od_check_cpu (spec_env table_200_800)
        (example_state (tuners_sdf_5 600) [0] ⟨0, 400, 200, 800⟩ 3 90) 0 30000 = some s' ∧
      (per_cpu s' 0).rate_mult = 3 ∧ s'.driver_calls = [] :=
  ⟨by decide,
   (od_check_cpu_band (spec_env table_200_800)
     (example_state (tuners_sdf_5 600) [0] ⟨0, 400, 200, 800⟩ 3 90) 0 30000
     ⟨0, 400, 200, 800⟩ rfl (by decide) (by decide)).imp
     (fun _ h => ⟨h.1, h.2.1, h.2.2 (fun hm => absurd hm (by decide))⟩)⟩

/-! ## Properties of the Powersave Bias Blender -/

/-- An unsigned subtraction that does not wrap is the subtraction of the
natural numbers. -/
theorem usub_of_le (a b : Nat) (ha : a < U32_MOD) (hb : b ≤ a) : usub a b = a - b := by
  unfold usub u32 U32_MOD at *
  omega

/-- An entry read from a table of `unsigned int` is an `unsigned int`. -/
theorem table_lookup_lt (k : kernel_env) (policy : cpufreq_policy) (table : List Nat)
    (target : Nat) (relation : cpufreq_relation) (hwf : ∀ f ∈ table, f < U32_MOD) :
    table_lookup k policy table target relation < U32_MOD := by
  unfold table_lookup
  generalize (k.table_target policy table target relation).getD 0 = i
  by_cases hi : i < table.length
  · rw [List.getD_eq_getElem table 0 hi]
    exact hwf _ (List.getElem_mem hi)
  · rw [List.getD_eq_default table 0 (Nat.not_lt.mp hi)]
    decide

/-- The time spent at `freq_hi` never exceeds the sampling interval, also when
the 32-bit product or sum that computes it wraps around. -/
theorem psb_jiffies_hi_le (freq_avg freq_lo freq_hi jiffies_total : Nat)
    (hlo : freq_lo ≤ freq_avg) (hhi : freq_avg ≤ freq_hi) (hne : freq_hi ≠ freq_lo)
    (h32 : freq_hi < U32_MOD) :
    psb_jiffies_hi freq_avg freq_lo freq_hi jiffies_total ≤ jiffies_total := by
  have h1 : usub freq_avg freq_lo = freq_avg - freq_lo :=
    usub_of_le _ _ (Nat.lt_of_le_of_lt hhi h32) hlo
  have h2 : usub freq_hi freq_lo = freq_hi - freq_lo :=
    usub_of_le _ _ h32 (Nat.le_trans hlo hhi)
  have hd : 0 < freq_hi - freq_lo := by omega
  unfold psb_jiffies_hi
  rw [h1, h2]
  apply Nat.le_of_lt_succ
  rw [Nat.div_lt_iff_lt_mul hd]
  have hmul : (freq_avg - freq_lo) * jiffies_total ≤ (freq_hi - freq_lo) * jiffies_total :=
    Nat.mul_le_mul_right _ (by omega)
  have hexp : (jiffies_total + 1) * (freq_hi - freq_lo) =
      (freq_hi - freq_lo) * jiffies_total + (freq_hi - freq_lo) := by ring
  rw [hexp]
  clear h1 h2 hexp
  unfold uadd umul u32
  unfold U32_MOD at h32 ⊢
  generalize (freq_avg - freq_lo) * jiffies_total = p at hmul ⊢
  generalize (freq_hi - freq_lo) * jiffies_total = q at hmul ⊢
  omega

/-- C5: tick split of `powersave_bias_target`. For every call on a table of
`unsigned int` entries in which `freq_lo <= freq_avg <= freq_hi` and
`freq_hi != freq_lo`, the stored `freq_hi_jiffies` is at most `jiffies_total`
and `freq_hi_jiffies + freq_lo_jiffies = jiffies_total` as natural numbers (the
unsigned subtraction `jiffies_total - jiffies_hi` does not wrap), where
`jiffies_total = usecs_to_jiffies (sampling_rate)`. -/
theorem powersave_bias_target_tick_split (k : kernel_env) (s : gov_state)
    (policy : cpufreq_policy) (freq_next : Nat) (relation : cpufreq_relation)
    (table : List Nat)
    (htable : (per_cpu s policy.cpu).freq_table = some table)
    (hwf : ∀ f ∈ table, f < U32_MOD)
    (hlo : psb_freq_lo k policy table
        (psb_freq_avg s.od_tuners (psb_freq_req k policy table freq_next relation)) ≤
      psb_freq_avg s.od_tuners (psb_freq_req k policy table freq_next relation))
    (hhi : psb_freq_avg s.od_tuners (psb_freq_req k policy table freq_next relation) ≤
      psb_freq_hi k policy table
        (psb_freq_avg s.od_tuners (psb_freq_req k policy table freq_next relation)))
    (hne : psb_freq_hi k policy table
        (psb_freq_avg s.od_tuners (psb_freq_req k policy table freq_next relation)) ≠
      psb_freq_lo k policy table
        (psb_freq_avg s.od_tuners (psb_freq_req k policy table freq_next relation))) :
    (per_cpu (powersave_bias_target k s policy freq_next relation).2 policy.cpu).freq_hi_jiffies
      ≤ psb_jiffies_total k s.od_tuners ∧
    (per_cpu (powersave_bias_target k s policy freq_next relation).2 policy.cpu).freq_hi_jiffies +
      (per_cpu (powersave_bias_target k s policy freq_next relation).2 policy.cpu).freq_lo_jiffies
      = psb_jiffies_total k s.od_tuners := by
  have h32 : psb_freq_hi k policy table
      (psb_freq_avg s.od_tuners (psb_freq_req k policy table freq_next relation)) < U32_MOD :=
    table_lookup_lt k policy table _ _ hwf
  have hle := psb_jiffies_hi_le _ _ _ (psb_jiffies_total k s.od_tuners) hlo hhi hne h32
  have hT : psb_jiffies_total k s.od_tuners < U32_MOD := Nat.mod_lt _ (by decide)
  simp only [powersave_bias_target, htable, hne, if_false, per_cpu_set_per_cpu_same]
  refine ⟨hle, ?_⟩
  rw [usub_of_le _ _ hT hle]
  omega

/-- Witness of C5: bias 100 on the table 200..800 with a request for 800:
`freq_avg` is 720 between 600 and 800, and of the 5 ticks of the sampling
interval 3 go to `freq_hi` and 2 to `freq_lo`. -/
theorem powersave_bias_target_tick_split_witness :
    (psb_freq_avg tuners_bias_100 800 = 720 ∧
      psb_freq_lo (spec_env table_200_800) ⟨0, 400, 200, 800⟩ table_200_800 720 = 600 ∧
      psb_freq_hi (spec_env table_200_800) ⟨0, 400, 200, 800⟩ table_200_800 720 = 800) ∧
    (per_cpu (powersave_bias_target (spec_env table_200_800)
        (example_state tuners_bias_100 [0] ⟨0, 400, 200, 800⟩ 1 0) ⟨0, 400, 200, 800⟩ 800
        cpufreq_relation.CPUFREQ_RELATION_H).2 0).freq_hi_jiffies ≤ 5 ∧
    (per_cpu (powersave_bias_target (spec_env table_200_800)
        (example_state tuners_bias_100 [0] ⟨0, 400, 200, 800⟩ 1 0) ⟨0, 400, 200, 800⟩ 800
        cpufreq_relation.CPUFREQ_RELATION_H).2 0).freq_hi_jiffies +
      (per_cpu (powersave_bias_target (spec_env table_200_800)
        (example_state tuners_bias_100 [0] ⟨0, 400, 200, 800⟩ 1 0) ⟨0, 400, 200, 800⟩ 800
        cpufreq_relation.CPUFREQ_RELATION_H).2 0).freq_lo_jiffies = 5 :=
  ⟨by decide,
   powersave_bias_target_tick_split (spec_env table_200_800)
     (example_state tuners_bias_100 [0] ⟨0, 400, 200, 800⟩ 1 0) ⟨0, 400, 200, 800⟩ 800
     cpufreq_relation.CPUFREQ_RELATION_H table_200_800 rfl (by decide) (by decide) (by decide)
     (by decide)⟩


/-! ## Properties of the Target Selector -/

/-- A successful forward search splits the table at the entry found: no entry
before it satisfies the predicate. -/
theorem first_index_where_some (p : Nat → Bool) :
    ∀ (l : List Nat) (i : Nat), first_index_where p l = some i →
      ∃ pre x post, l = pre ++ x :: post ∧ pre.length = i ∧ p x = true ∧
        ∀ y ∈ pre, p y = false := by
  intro l
  induction l with
  | nil => intro i h; simp [first_index_where] at h
  | cons f rest ih =>
    intro i h
    unfold first_index_where at h
    by_cases hp : p f = true
    · rw [if_pos hp] at h
      injection h with h
      exact ⟨[], f, rest, rfl, h, hp, by simp⟩
    · rw [if_neg hp] at h
      rcases hr : first_index_where p rest with _ | i'
      · rw [hr] at h
        simp at h
      · rw [hr] at h
        injection h with h
        obtain ⟨pre, x, post, hl, hlen, hx, hpre⟩ := ih i' hr
        refine ⟨f :: pre, x, post, by rw [hl]; rfl, by simp [hlen, h], hx, ?_⟩
        intro y hy
        rcases List.mem_cons.mp hy with hy | hy
        · rw [hy]
          simpa using hp
        · exact hpre y hy

/-- A failed forward search: no entry satisfies the predicate. -/
theorem first_index_where_none (p : Nat → Bool) :
    ∀ (l : List Nat), first_index_where p l = none → ∀ y ∈ l, p y = false := by
  intro l
  induction l with
  | nil => intro _ y hy; simp at hy
  | cons f rest ih =>
    intro h y hy
    unfold first_index_where at h
    by_cases hp : p f = true
    · rw [if_pos hp] at h
      simp at h
    · rw [if_neg hp] at h
      rcases hr : first_index_where p rest with _ | i'
      · rcases List.mem_cons.mp hy with hy | hy
        · rw [hy]
          simpa using hp
        · exact ih hr y hy
      · rw [hr] at h
        simp at h

/-- A failed backward search: no entry satisfies the predicate. -/
theorem last_index_where_none (p : Nat → Bool) :
    ∀ (l : List Nat), last_index_where p l = none → ∀ y ∈ l, p y = false := by
  intro l
  induction l with
  | nil => intro _ y hy; simp at hy
  | cons f rest ih =>
    intro h y hy
    unfold last_index_where at h
    rcases hr : last_index_where p rest with _ | i'
    · rw [hr] at h
      by_cases hp : p f = true
      · simp [hp] at h
      · rcases List.mem_cons.mp hy with hy | hy
        · rw [hy]
          simpa using hp
        · exact ih hr y hy
    · rw [hr] at h
      simp at h

/-- A successful backward search splits the table at the entry found: no
entry after it satisfies the predicate. -/
theorem last_index_where_some (p : Nat → Bool) :
    ∀ (l : List Nat) (i : Nat), last_index_where p l = some i →
      ∃ pre x post, l = pre ++ x :: post ∧ pre.length = i ∧ p x = true ∧
        ∀ y ∈ post, p y = false := by
  intro l
  induction l with
  | nil => intro i h; simp [last_index_where] at h
  | cons f rest ih =>
    intro i h
    unfold last_index_where at h
    rcases hr : last_index_where p rest with _ | i'
    · rw [hr] at h
      by_cases hp : p f = true
      · simp only [hp, if_true] at h
        injection h with h
        exact ⟨[], f, rest, rfl, h, hp, last_index_where_none p rest hr⟩
      · simp [hp] at h
    · rw [hr] at h
      injection h with h
      obtain ⟨pre, x, post, hl, hlen, hx, hpost⟩ := ih i' hr
      exact ⟨f :: pre, x, post, by rw [hl]; rfl, by simp [hlen, h], hx, hpost⟩

/-- The running maximum of a fold bounds its start and every entry, and is
one of them. -/
theorem foldl_max_spec : ∀ (l : List Nat) (a : Nat),
    a ≤ l.foldl Nat.max a ∧ (∀ g ∈ l, g ≤ l.foldl Nat.max a) ∧
      (l.foldl Nat.max a = a ∨ l.foldl Nat.max a ∈ l) := by
  intro l
  induction l with
  | nil => intro a; simp
  | cons f rest ih =>
    intro a
    obtain ⟨h1, h2, h3⟩ := ih (Nat.max a f)
    simp only [List.foldl_cons]
    refine ⟨Nat.le_trans (Nat.le_max_left a f) h1, ?_, ?_⟩
    · intro g hg
      rcases List.mem_cons.mp hg with hg | hg
      · rw [hg]
        exact Nat.le_trans (Nat.le_max_right a f) h1
      · exact h2 g hg
    · rcases h3 with h3 | h3
      · rw [h3]
        rcases Nat.le_total a f with h | h
        · right
          have e : Nat.max a f = f := Nat.max_eq_right h
          rw [e]
          exact List.mem_cons_self _ _
        · left
          exact Nat.max_eq_left h
      · right
        exact List.mem_cons_of_mem _ h3

/-- The running minimum of a fold is below its start and every entry, and is
one of them. -/
theorem foldl_min_spec : ∀ (l : List Nat) (a : Nat),
    l.foldl Nat.min a ≤ a ∧ (∀ g ∈ l, l.foldl Nat.min a ≤ g) ∧
      (l.foldl Nat.min a = a ∨ l.foldl Nat.min a ∈ l) := by
  intro l
  induction l with
  | nil => intro a; simp
  | cons f rest ih =>
    intro a
    obtain ⟨h1, h2, h3⟩ := ih (Nat.min a f)
    simp only [List.foldl_cons]
    refine ⟨Nat.le_trans h1 (Nat.min_le_left a f), ?_, ?_⟩
    · intro g hg
      rcases List.mem_cons.mp hg with hg | hg
      · rw [hg]
        exact Nat.le_trans h1 (Nat.min_le_right a f)
      · exact h2 g hg
    · rcases h3 with h3 | h3
      · rw [h3]
        rcases Nat.le_total a f with h | h
        · left
          exact Nat.min_eq_left h
        · right
          have e : Nat.min a f = f := Nat.min_eq_right h
          rw [e]
          exact List.mem_cons_self _ _
      · right
        exact List.mem_cons_of_mem _ h3

/-- The maximum of a non-empty table is an entry above all entries. -/
theorem table_max_spec (table : List Nat) (hne : table ≠ []) :
    table_max table ∈ table ∧ ∀ g ∈ table, g ≤ table_max table := by
  cases table with
  | nil => exact absurd rfl hne
  | cons f rest =>
    obtain ⟨h1, h2, h3⟩ := foldl_max_spec rest f
    simp only [table_max]
    refine ⟨?_, ?_⟩
    · rcases h3 with h3 | h3
      · rw [h3]
        exact List.mem_cons_self _ _
      · exact List.mem_cons_of_mem _ h3
    · intro g hg
      rcases List.mem_cons.mp hg with hg | hg
      · rw [hg]
        exact h1
      · exact h2 g hg

/-- The minimum of a non-empty table is an entry below all entries. -/
theorem table_min_spec (table : List Nat) (hne : table ≠ []) :
    table_min table ∈ table ∧ ∀ g ∈ table, table_min table ≤ g := by
  cases table with
  | nil => exact absurd rfl hne
  | cons f rest =>
    obtain ⟨h1, h2, h3⟩ := foldl_min_spec rest f
    simp only [table_min]
    refine ⟨?_, ?_⟩
    · rcases h3 with h3 | h3
      · rw [h3]
        exact List.mem_cons_self _ _
      · exact List.mem_cons_of_mem _ h3
    · intro g hg
      rcases List.mem_cons.mp hg with hg | hg
      · rw [hg]
        exact h1
      · exact h2 g hg

/-- The entry at the split point of a table. -/
theorem get?_split (pre post : List Nat) (x : Nat) :
    (pre ++ x :: post).get? pre.length = some x := by
  induction pre with
  | nil => rfl
  | cons a l ih => simpa using ih

/-- The search for a value that is in the table finds an entry equal to it. -/
theorem first_index_where_eq (table : List Nat) (m : Nat) (hm : m ∈ table) :
    ∃ i, first_index_where (fun f => decide (f = m)) table = some i ∧
      table.get? i = some m := by
  rcases h : first_index_where (fun f => decide (f = m)) table with _ | i
  · have := first_index_where_none _ table h m hm
    simp at this
  · obtain ⟨pre, x, post, hl, hlen, hx, _⟩ := first_index_where_some _ table i h
    refine ⟨i, rfl, ?_⟩
    have hxm : x = m := by simpa using hx
    rw [hl, ← hlen, ← hxm]
    exact get?_split pre post x

/-- ROUND_UP on a non-empty ascending table: the smallest entry at or above
the target, or the maximum entry when every entry is below the target. -/
theorem target_frequency_round_up (table : List Nat) (t : Nat) (hne : table ≠ [])
    (hasc : List.Sorted (· ≤ ·) table) :
    ∃ f, target_frequency table t round_relation.ROUND_UP = some f ∧ f ∈ table ∧
      ((∃ g ∈ table, t ≤ g) → t ≤ f ∧ ∀ g ∈ table, t ≤ g → f ≤ g) ∧
      ((∀ g ∈ table, g < t) → f = table_max table ∧ ∀ g ∈ table, g ≤ f) := by
  rcases h : first_index_where (fun f => decide (t ≤ f)) table with _ | i
  · have hall := first_index_where_none _ table h
    obtain ⟨hmem, hmax⟩ := table_max_spec table hne
    obtain ⟨j, hj, hget⟩ := first_index_where_eq table (table_max table) hmem
    refine ⟨table_max table, ?_, hmem, ?_, fun _ => ⟨rfl, hmax⟩⟩
    · simp only [target_frequency, cpufreq_frequency_table_target, h, hj, hget]
    · rintro ⟨g, hg, htg⟩
      have := hall g hg
      simp only [decide_eq_false_iff_not] at this
      exact absurd htg this
  · obtain ⟨pre, x, post, hl, hlen, hx, hpre⟩ := first_index_where_some _ table i h
    have htx : t ≤ x := by simpa using hx
    have hxmem : x ∈ table := by
      rw [hl]
      simp
    refine ⟨x, ?_, hxmem, ?_, ?_⟩
    · simp only [target_frequency, cpufreq_frequency_table_target, h]
      rw [hl, ← hlen]
      exact get?_split pre post x
    · intro _
      refine ⟨htx, ?_⟩
      intro g hg htg
      rw [hl] at hg hasc
      rcases List.mem_append.mp hg with hg | hg
      · have := hpre g hg
        simp only [decide_eq_false_iff_not] at this
        exact absurd htg this
      · rcases List.mem_cons.mp hg with hg | hg
        · rw [hg]
        · have hs := (List.pairwise_append.mp hasc).2.1
          exact List.rel_of_pairwise_cons hs hg
    · intro hall
      exact absurd htx (Nat.not_le.mpr (hall x hxmem))

/-- ROUND_DOWN on a non-empty ascending table: the largest entry at or below
the target, or the minimum entry when every entry is above the target. -/
theorem target_frequency_round_down (table : List Nat) (t : Nat) (hne : table ≠ [])
    (hasc : List.Sorted (· ≤ ·) table) :
    ∃ f, target_frequency table t round_relation.ROUND_DOWN = some f ∧ f ∈ table ∧
      ((∃ g ∈ table, g ≤ t) → f ≤ t ∧ ∀ g ∈ table, g ≤ t → g ≤ f) ∧
      ((∀ g ∈ table, t < g) → f = table_min table ∧ ∀ g ∈ table, f ≤ g) := by
  rcases h : last_index_where (fun f => decide (f ≤ t)) table with _ | i
  · have hall := last_index_where_none _ table h
    obtain ⟨hmem, hmin⟩ := table_min_spec table hne
    obtain ⟨j, hj, hget⟩ := first_index_where_eq table (table_min table) hmem
    refine ⟨table_min table, ?_, hmem, ?_, fun _ => ⟨rfl, hmin⟩⟩
    · simp only [target_frequency, cpufreq_frequency_table_target, h, hj, hget]
    · rintro ⟨g, hg, htg⟩
      have := hall g hg
      simp only [decide_eq_false_iff_not] at this
      exact absurd htg this
  · obtain ⟨pre, x, post, hl, hlen, hx, hpost⟩ := last_index_where_some _ table i h
    have htx : x ≤ t := by simpa using hx
    have hxmem : x ∈ table := by
      rw [hl]
      simp
    refine ⟨x, ?_, hxmem, ?_, ?_⟩
    · simp only [target_frequency, cpufreq_frequency_table_target, h]
      rw [hl, ← hlen]
      exact get?_split pre post x
    · intro _
      refine ⟨htx, ?_⟩
      intro g hg htg
      rw [hl] at hg hasc
      rcases List.mem_append.mp hg with hg | hg
      · exact (List.pairwise_append.mp hasc).2.2 g hg x (List.mem_cons_self _ _)
      · rcases List.mem_cons.mp hg with hg | hg
        · rw [hg]
        · have := hpost g hg
          simp only [decide_eq_false_iff_not] at this
          exact absurd htg this
    · intro hall
      exact absurd htx (Nat.not_le.mpr (hall x hxmem))

/-- C6: the Target Selector. For every non-empty ascending table and every
target, the round-up lookup returns the smallest entry at or above the target,
or the maximum of the table if the target exceeds every entry; the round-down
lookup returns the largest entry at or below the target, or the minimum of the
table if the target is below every entry; and both return the target itself
when it is an entry of the table. -/
theorem cpufreq_frequency_table_target_rounding (table : List Nat) (t : Nat)
    (hne : table ≠ []) (hasc : List.Sorted (· ≤ ·) table) :
    (∃ f, target_frequency table t round_relation.ROUND_UP = some f ∧ f ∈ table ∧
      ((∃ g ∈ table, t ≤ g) → t ≤ f ∧ ∀ g ∈ table, t ≤ g → f ≤ g) ∧
      ((∀ g ∈ table, g < t) → f = table_max table ∧ ∀ g ∈ table, g ≤ f)) ∧
    (∃ f, target_frequency table t round_relation.ROUND_DOWN = some f ∧ f ∈ table ∧
      ((∃ g ∈ table, g ≤ t) → f ≤ t ∧ ∀ g ∈ table, g ≤ t → g ≤ f) ∧
      ((∀ g ∈ table, t < g) → f = table_min table ∧ ∀ g ∈ table, f ≤ g)) ∧
    (t ∈ table →
      target_frequency table t round_relation.ROUND_UP = some t ∧
      target_frequency table t round_relation.ROUND_DOWN = some t) := by
  refine ⟨target_frequency_round_up table t hne hasc,
    target_frequency_round_down table t hne hasc, ?_⟩
  intro ht
  obtain ⟨f, hf, _, hup, _⟩ := target_frequency_round_up table t hne hasc
  obtain ⟨g, hg, _, hdown, _⟩ := target_frequency_round_down table t hne hasc
  obtain ⟨h1, h2⟩ := hup ⟨t, ht, Nat.le_refl t⟩
  obtain ⟨h3, h4⟩ := hdown ⟨t, ht, Nat.le_refl t⟩
  rw [hf, hg, Nat.le_antisymm (h2 t ht (Nat.le_refl t)) h1,
    Nat.le_antisymm h3 (h4 t ht (Nat.le_refl t))]
  exact ⟨rfl, rfl⟩

/-- Witness of C6: on the table 200, 400, 600, 800 the target 500 rounds up to
600 and down to 400. -/
theorem cpufreq_frequency_table_target_rounding_witness :
    (table_200_800 ≠ [] ∧ List.Sorted (· ≤ ·) table_200_800) ∧
    target_frequency table_200_800 500 round_relation.ROUND_UP = some 600 ∧
    target_frequency table_200_800 500 round_relation.ROUND_DOWN = some 400 ∧
    (∃ f, target_frequency table_200_800 500 round_relation.ROUND_UP = some f ∧
      f ∈ table_200_800 ∧
      ((∃ g ∈ table_200_800, 500 ≤ g) → 500 ≤ f ∧ ∀ g ∈ table_200_800, 500 ≤ g → f ≤ g) ∧
      ((∀ g ∈ table_200_800, g < 500) →
        f = table_max table_200_800 ∧ ∀ g ∈ table_200_800, g ≤ f)) :=
  ⟨⟨by decide, by decide⟩, by decide, by decide,
   (cpufreq_frequency_table_target_rounding table_200_800 500 (by decide) (by decide)).1⟩


/-! ## Properties of the sysfs interface -/

/-- C7: `store_up_threshold` preserves the differential. For every accepted
input (11 <= input <= 100), after the call `up_threshold` is the input, the
unsigned difference `up_threshold - adj_up_threshold` is what it was before the
call, and `adj_up_threshold` is `adj_old + input - up_old` computed on 32 bits:
equal to that integer modulo 2^32, and equal to it exactly whenever it lies in
the range of an `unsigned int`. -/
theorem store_up_threshold_differential (s : gov_state) (input count : Nat)
    (hmin : 11 ≤ input) (hmax : input ≤ 100) :
    (store_up_threshold s (some input) count).ret = count ∧
    (store_up_threshold s (some input) count).state.od_tuners.up_threshold = input ∧
    usub (store_up_threshold s (some input) count).state.od_tuners.up_threshold
        (store_up_threshold s (some input) count).state.od_tuners.adj_up_threshold =
      usub s.od_tuners.up_threshold s.od_tuners.adj_up_threshold ∧
    ((store_up_threshold s (some input) count).state.od_tuners.adj_up_threshold : Int) =
      ((s.od_tuners.adj_up_threshold : Int) + input - s.od_tuners.up_threshold) % 4294967296 ∧
    (s.od_tuners.up_threshold ≤ s.od_tuners.adj_up_threshold + input →
      s.od_tuners.adj_up_threshold + input - s.od_tuners.up_threshold < U32_MOD →
      (store_up_threshold s (some input) count).state.od_tuners.adj_up_threshold =
        s.od_tuners.adj_up_threshold + input - s.od_tuners.up_threshold) := by
  have hacc : ¬ (input > MAX_FREQUENCY_UP_THRESHOLD ∨ input < MIN_FREQUENCY_UP_THRESHOLD) := by
    unfold MAX_FREQUENCY_UP_THRESHOLD MIN_FREQUENCY_UP_THRESHOLD
    omega
  simp only [store_up_threshold, hacc, if_false]
  refine ⟨trivial, trivial, ?_, ?_, ?_⟩
  · unfold usub uadd u32 U32_MOD
    omega
  · unfold usub uadd u32 U32_MOD
    omega
  · unfold usub uadd u32 U32_MOD
    omega

/-- Witness of C7: from (80, 70) the input 95 gives (95, 85): the
differential is 10 before and after. -/
theorem store_up_threshold_differential_witness :
    (11 ≤ 95 ∧ 95 ≤ 100) ∧
    (store_up_threshold (example_state (tuners_sdf_5 0) [0] ⟨0, 400, 200, 800⟩ 1 0)
      (some 95) 3).state.od_tuners.up_threshold = 95 ∧
    (store_up_threshold (example_state (tuners_sdf_5 0) [0] ⟨0, 400, 200, 800⟩ 1 0)
      (some 95) 3).state.od_tuners.adj_up_threshold = 85 ∧
    usub 95 85 = usub 80 70 :=
  ⟨by decide,
   (store_up_threshold_differential
     (example_state (tuners_sdf_5 0) [0] ⟨0, 400, 200, 800⟩ 1 0) 95 3
     (by decide) (by decide)).2.1,
   rfl,
   (store_up_threshold_differential
     (example_state (tuners_sdf_5 0) [0] ⟨0, 400, 200, 800⟩ 1 0) 95 3
     (by decide) (by decide)).2.2.1⟩

/-- C8: `store_up_threshold` accepts a parsed input if and only if
11 <= input <= 100; for every input outside that range, and for a write that
does not parse, it returns -EINVAL and leaves the state, `up_threshold` and
`adj_up_threshold` included, exactly as it was. -/
theorem store_up_threshold_range (s : gov_state) (count : Nat) :
    (∀ input : Nat,
      ((store_up_threshold s (some input) count).ret = count ↔ (11 ≤ input ∧ input ≤ 100)) ∧
      (¬ (11 ≤ input ∧ input ≤ 100) →
        (store_up_threshold s (some input) count).ret = -EINVAL ∧
        (store_up_threshold s (some input) count).state = s ∧
        (store_up_threshold s (some input) count).state.od_tuners.up_threshold =
          s.od_tuners.up_threshold ∧
        (store_up_threshold s (some input) count).state.od_tuners.adj_up_threshold =
          s.od_tuners.adj_up_threshold)) ∧
    (store_up_threshold s none count).ret = -EINVAL ∧
    (store_up_threshold s none count).state = s := by
  refine ⟨?_, rfl, rfl⟩
  intro input
  by_cases h : input > MAX_FREQUENCY_UP_THRESHOLD ∨ input < MIN_FREQUENCY_UP_THRESHOLD
  · have hr : ¬ (11 ≤ input ∧ input ≤ 100) := by
      unfold MAX_FREQUENCY_UP_THRESHOLD MIN_FREQUENCY_UP_THRESHOLD at h
      omega
    have hneg : (-EINVAL : Int) ≠ (count : Int) := by
      unfold EINVAL
      omega
    have hres : store_up_threshold s (some input) count = ⟨-EINVAL, s⟩ := by
      simp only [store_up_threshold, h, if_true]
    rw [hres]
    exact ⟨⟨fun e => absurd e hneg, fun e => absurd e hr⟩, fun _ => ⟨rfl, rfl, rfl, rfl⟩⟩
  · have hr : 11 ≤ input ∧ input ≤ 100 := by
      unfold MAX_FREQUENCY_UP_THRESHOLD MIN_FREQUENCY_UP_THRESHOLD at h
      omega
    have hres : (store_up_threshold s (some input) count).ret = count := by
      simp only [store_up_threshold, h, if_false]
    exact ⟨⟨fun _ => hr, fun _ => hres⟩, fun e => absurd hr e⟩

/-- Witness of C8: from (80, 70) the input 101 is rejected and both thresholds
stay, the input 11 is accepted. -/
theorem store_up_threshold_range_witness :
    (store_up_threshold (example_state (tuners_sdf_5 0) [0] ⟨0, 400, 200, 800⟩ 1 0)
      (some 101) 4).ret = -EINVAL ∧
    (store_up_threshold (example_state (tuners_sdf_5 0) [0] ⟨0, 400, 200, 800⟩ 1 0)
      (some 101) 4).state.od_tuners.up_threshold = 80 ∧
    (store_up_threshold (example_state (tuners_sdf_5 0) [0] ⟨0, 400, 200, 800⟩ 1 0)
      (some 101) 4).state.od_tuners.adj_up_threshold = 70 ∧
    (store_up_threshold (example_state (tuners_sdf_5 0) [0] ⟨0, 400, 200, 800⟩ 1 0)
      (some 11) 3).ret = 3 :=
  ⟨((((store_up_threshold_range
        (example_state (tuners_sdf_5 0) [0] ⟨0, 400, 200, 800⟩ 1 0) 4).1 101).2
        (by decide)).1),
   ((((store_up_threshold_range
        (example_state (tuners_sdf_5 0) [0] ⟨0, 400, 200, 800⟩ 1 0) 4).1 101).2
        (by decide)).2.2.1),
   ((((store_up_threshold_range
        (example_state (tuners_sdf_5 0) [0] ⟨0, 400, 200, 800⟩ 1 0) 4).1 101).2
        (by decide)).2.2.2),
   (((store_up_threshold_range
        (example_state (tuners_sdf_5 0) [0] ⟨0, 400, 200, 800⟩ 1 0) 3).1 11).1.mpr
        (by decide))⟩

/-- The function `ondemand_powersave_bias_init` changes no tunable. -/
theorem ondemand_powersave_bias_init_od_tuners (k : kernel_env) (s : gov_state) :
    (ondemand_powersave_bias_init k s).od_tuners = s.od_tuners := by
  unfold ondemand_powersave_bias_init
  generalize s.cpu_online_mask = l
  induction l generalizing s with
  | nil => rfl
  | cons c rest ih =>
    rw [List.foldl_cons, ih]
    rfl

/-- C9, as stated, fails: with the bias levels 1000 and -1000 and a stored bias
of 0, the input 2000 (outside 0..1000) is not rejected: the call returns
`count` and the stored `powersave_bias` changes from 0 to 1000. -/
theorem store_powersave_bias_range_counterexample :
    ¬ ((0 : Int) ≤ 2000 ∧ (2000 : Int) ≤ 1000) ∧
    (tuners_sdf_5 0).powersave_bias = 0 ∧
    (store_powersave_bias (spec_env table_200_800)
      (example_state (tuners_sdf_5 0) [0] ⟨0, 400, 200, 800⟩ 1 0) (some 2000) 4).ret = 4 ∧
    (store_powersave_bias (spec_env table_200_800)
      (example_state (tuners_sdf_5 0) [0] ⟨0, 400, 200, 800⟩ 1 0)
      (some 2000) 4).state.od_tuners.powersave_bias = 1000 :=
  ⟨by decide, rfl, rfl, rfl⟩

/-- C9, amended: `store_powersave_bias` rejects no integer. For every parsed
input it returns `count` and leaves `powersave_bias` equal to the input clamped
to the bypass levels: POWERSAVE_BIAS_MAXLEVEL if the input is at or above it,
POWERSAVE_BIAS_MINLEVEL if the input is at or below it, the input itself
otherwise. Only a write that does not parse returns -EINVAL, and then the state,
`powersave_bias` included, is as it was. -/
theorem store_powersave_bias_clamps (k : kernel_env) (s : gov_state) (count : Nat) :
    (∀ input : Int,
      (store_powersave_bias k s (some input) count).ret = count ∧
      (store_powersave_bias k s (some input) count).state.od_tuners.powersave_bias =
        (if input ≥ k.POWERSAVE_BIAS_MAXLEVEL then k.POWERSAVE_BIAS_MAXLEVEL
         else if input ≤ k.POWERSAVE_BIAS_MINLEVEL then k.POWERSAVE_BIAS_MINLEVEL
         else input)) ∧
    (store_powersave_bias k s none count).ret = -EINVAL ∧
    (store_powersave_bias k s none count).state = s := by
  refine ⟨?_, rfl, rfl⟩
  intro input
  have hlevel : powersave_bias_level k input =
      (if input ≥ k.POWERSAVE_BIAS_MAXLEVEL then k.POWERSAVE_BIAS_MAXLEVEL
       else if input ≤ k.POWERSAVE_BIAS_MINLEVEL then k.POWERSAVE_BIAS_MINLEVEL
       else input) := rfl
  rw [← hlevel]
  unfold store_powersave_bias
  simp only
  by_cases hsame : powersave_bias_level k input = s.od_tuners.powersave_bias
  · rw [if_pos hsame]
    exact ⟨rfl, hsame.symm⟩
  · rw [if_neg hsame]
    cases powersave_bias_bypass k input with
    | true => exact ⟨rfl, rfl⟩
    | false =>
      refine ⟨rfl, ?_⟩
      simp only [Bool.not_false, if_true]
      rw [ondemand_powersave_bias_init_od_tuners]

/-- Witness of the amended C9: with the levels 1000 and -1000, the input 2000
is stored as 1000, the input 250 as 250, and both calls return `count`. -/
theorem store_powersave_bias_clamps_witness :
    ((store_powersave_bias (spec_env table_200_800)
      (example_state (tuners_sdf_5 0) [0] ⟨0, 400, 200, 800⟩ 1 0) (some 2000) 4).ret = 4 ∧
     (store_powersave_bias (spec_env table_200_800)
      (example_state (tuners_sdf_5 0) [0] ⟨0, 400, 200, 800⟩ 1 0)
      (some 2000) 4).state.od_tuners.powersave_bias = 1000) ∧
    ((store_powersave_bias (spec_env table_200_800)
      (example_state (tuners_sdf_5 0) [0] ⟨0, 400, 200, 800⟩ 1 0) (some 250) 3).ret = 3 ∧
     (store_powersave_bias (spec_env table_200_800)
      (example_state (tuners_sdf_5 0) [0] ⟨0, 400, 200, 800⟩ 1 0)
      (some 250) 3).state.od_tuners.powersave_bias = 250) :=
  ⟨(store_powersave_bias_clamps (spec_env table_200_800)
      (example_state (tuners_sdf_5 0) [0] ⟨0, 400, 200, 800⟩ 1 0) 4).1 2000,
   (store_powersave_bias_clamps (spec_env table_200_800)
      (example_state (tuners_sdf_5 0) [0] ⟨0, 400, 200, 800⟩ 1 0) 3).1 250⟩

/-- The loop of `store_sampling_down_factor` over the online CPUs: it sets
`rate_mult` to 1 for the CPUs of the mask and changes nothing else. -/
theorem rate_mult_reset_loop (l : List Nat) (s : gov_state) :
    (l.foldl (fun st j => set_per_cpu st j { per_cpu st j with rate_mult := 1 }) s).od_tuners =
      s.od_tuners ∧
    (∀ j, (per_cpu (l.foldl (fun st j => set_per_cpu st j { per_cpu st j with rate_mult := 1 })
        s) j).rate_mult = if j ∈ l then 1 else (per_cpu s j).rate_mult) ∧
    (∀ j, j ∉ l →
      per_cpu (l.foldl (fun st j => set_per_cpu st j { per_cpu st j with rate_mult := 1 }) s) j =
        per_cpu s j) := by
  induction l generalizing s with
  | nil => simp
  | cons c rest ih =>
    obtain ⟨h1, h2, h3⟩ := ih (set_per_cpu s c { per_cpu s c with rate_mult := 1 })
    simp only [List.foldl_cons]
    refine ⟨by rw [h1]; rfl, ?_, ?_⟩
    · intro j
      rw [h2 j]
      by_cases hj : j = c
      · subst hj
        simp
      · by_cases hr : j ∈ rest
        · simp [hr]
        · simp [hr, hj, per_cpu_set_per_cpu_other _ _ _ _ hj]
    · intro j hj
      have hjc : j ≠ c := fun e => hj (e ▸ List.mem_cons_self _ _)
      have hjr : j ∉ rest := fun e => hj (List.mem_cons_of_mem _ e)
      rw [h3 j hjr, per_cpu_set_per_cpu_other _ _ _ _ hjc]

/-- C10: `store_sampling_down_factor` accepts a parsed input if and only if
1 <= input <= 100000. On acceptance `sampling_down_factor` is the input and
`rate_mult` is 1 for every online CPU (the records of the other CPUs are
untouched); on rejection, and for a write that does not parse, it returns
-EINVAL and the state, `sampling_down_factor` and every `rate_mult` included, is
as it was. -/
theorem store_sampling_down_factor_range (s : gov_state) (count : Nat) :
    (∀ input : Nat,
      ((store_sampling_down_factor s (some input) count).ret = count ↔
        (1 ≤ input ∧ input ≤ 100000)) ∧
      ((1 ≤ input ∧ input ≤ 100000) →
        (store_sampling_down_factor s (some input) count).state.od_tuners.sampling_down_factor
          = input ∧
        (∀ j ∈ s.cpu_online_mask,
          (per_cpu (store_sampling_down_factor s (some input) count).state j).rate_mult = 1) ∧
        (∀ j, j ∉ s.cpu_online_mask →
          per_cpu (store_sampling_down_factor s (some input) count).state j = per_cpu s j)) ∧
      (¬ (1 ≤ input ∧ input ≤ 100000) →
        (store_sampling_down_factor s (some input) count).ret = -EINVAL ∧
        (store_sampling_down_factor s (some input) count).state = s)) ∧
    (store_sampling_down_factor s none count).ret = -EINVAL ∧
    (store_sampling_down_factor s none count).state = s := by
  refine ⟨?_, rfl, rfl⟩
  intro input
  by_cases h : input > MAX_SAMPLING_DOWN_FACTOR ∨ input < 1
  · have hr : ¬ (1 ≤ input ∧ input ≤ 100000) := by
      unfold MAX_SAMPLING_DOWN_FACTOR at h
      omega
    have hneg : (-EINVAL : Int) ≠ (count : Int) := by
      unfold EINVAL
      omega
    have hres : store_sampling_down_factor s (some input) count = ⟨-EINVAL, s⟩ := by
      simp only [store_sampling_down_factor, h, if_true]
    rw [hres]
    exact ⟨⟨fun e => absurd e hneg, fun e => absurd e hr⟩, fun e => absurd e hr,
      fun _ => ⟨rfl, rfl⟩⟩
  · have hr : 1 ≤ input ∧ input ≤ 100000 := by
      unfold MAX_SAMPLING_DOWN_FACTOR at h
      omega
    have hres : store_sampling_down_factor s (some input) count =
        ⟨count, s.cpu_online_mask.foldl
          (fun st j => set_per_cpu st j { per_cpu st j with rate_mult := 1 })
          { s with od_tuners := { s.od_tuners with sampling_down_factor := input } }⟩ := by
      simp only [store_sampling_down_factor, h, if_false]
    obtain ⟨h1, h2, h3⟩ := rate_mult_reset_loop s.cpu_online_mask
      { s with od_tuners := { s.od_tuners with sampling_down_factor := input } }
    rw [hres]
    refine ⟨⟨fun _ => hr, fun _ => rfl⟩, fun _ => ⟨?_, ?_, ?_⟩, fun e => absurd hr e⟩
    · dsimp only
      rw [h1]
    · intro j hj
      dsimp only
      rw [h2 j, if_pos hj]
    · intro j hj
      dsimp only
      rw [h3 j hj]
      rfl

/-- Witness of C10: two CPUs online, CPU 0 with `rate_mult` 5: the input 7 is
accepted, `sampling_down_factor` becomes 7 and `rate_mult` of CPU 0 becomes 1;
the input 0 is rejected and `rate_mult` of CPU 0 stays 5. -/
theorem store_sampling_down_factor_range_witness :
    ((store_sampling_down_factor
        (example_state (tuners_sdf_5 0) [0, 1] ⟨0, 800, 200, 800⟩ 5 0) (some 7) 2).ret = 2 ∧
      (store_sampling_down_factor
        (example_state (tuners_sdf_5 0) [0, 1] ⟨0, 800, 200, 800⟩ 5 0)
        (some 7) 2).state.od_tuners.sampling_down_factor = 7 ∧
      (per_cpu (store_sampling_down_factor
        (example_state (tuners_sdf_5 0) [0, 1] ⟨0, 800, 200, 800⟩ 5 0)
        (some 7) 2).state 0).rate_mult = 1) ∧
    ((store_sampling_down_factor
        (example_state (tuners_sdf_5 0) [0, 1] ⟨0, 800, 200, 800⟩ 5 0) (some 0) 2).ret
        = -EINVAL ∧
      (per_cpu (store_sampling_down_factor
        (example_state (tuners_sdf_5 0) [0, 1] ⟨0, 800, 200, 800⟩ 5 0)
        (some 0) 2).state 0).rate_mult = 5) :=
  ⟨⟨((store_sampling_down_factor_range
        (example_state (tuners_sdf_5 0) [0, 1] ⟨0, 800, 200, 800⟩ 5 0) 2).1 7).1.mpr
        (by decide),
    (((store_sampling_down_factor_range
        (example_state (tuners_sdf_5 0) [0, 1] ⟨0, 800, 200, 800⟩ 5 0) 2).1 7).2.1
        (by decide)).1,
    (((store_sampling_down_factor_range
        (example_state (tuners_sdf_5 0) [0, 1] ⟨0, 800, 200, 800⟩ 5 0) 2).1 7).2.1
        (by decide)).2.1 0 (by decide)⟩,
   ⟨(((store_sampling_down_factor_range
        (example_state (tuners_sdf_5 0) [0, 1] ⟨0, 800, 200, 800⟩ 5 0) 2).1 0).2.2
        (by decide)).1,
    rfl⟩⟩


/-! ## The shape of a decision cycle -/

/-- The state `powersave_bias_target` returns is the state it was given with
the record of `policy->cpu` replaced by one that differs at most in `freq_lo`,
`freq_lo_jiffies` and `freq_hi_jiffies`; its `freq_lo` is 0 or the lower bound
of a pair of differing bounds. -/
theorem powersave_bias_target_record (k : kernel_env) (s : gov_state)
    (policy : cpufreq_policy) (freq_next : Nat) (relation : cpufreq_relation) :
    ∃ v : od_cpu_dbs_info_s,
      (powersave_bias_target k s policy freq_next relation).2 = set_per_cpu s policy.cpu v ∧
      v.sample_type = (per_cpu s policy.cpu).sample_type ∧
      v.freq_table = (per_cpu s policy.cpu).freq_table ∧
      (v.freq_lo = 0 ∨
        psb_sub_sampled k s.od_tuners policy (per_cpu s policy.cpu).freq_table v.freq_lo) := by
  unfold powersave_bias_target
  dsimp only
  split
  · exact ⟨_, rfl, rfl, rfl, Or.inl rfl⟩
  · rename_i table htable
    split
    · exact ⟨_, rfl, rfl, rfl, Or.inl rfl⟩
    · rename_i hne
      exact ⟨_, rfl, rfl, rfl, Or.inr ⟨table, freq_next, relation, htable, hne, rfl⟩⟩

/-- What `powersave_bias_target` does to `sample_type` (nothing), to the
frequency tables (nothing) and to `freq_lo` of `policy->cpu`: it is 0 or the
lower bound of a pair of differing bounds. -/
theorem powersave_bias_target_fields (k : kernel_env) (s : gov_state)
    (policy : cpufreq_policy) (freq_next : Nat) (relation : cpufreq_relation) :
    (∀ j, (per_cpu (powersave_bias_target k s policy freq_next relation).2 j).sample_type =
      (per_cpu s j).sample_type) ∧
    (∀ j, (per_cpu (powersave_bias_target k s policy freq_next relation).2 j).freq_table =
      (per_cpu s j).freq_table) ∧
    ((per_cpu (powersave_bias_target k s policy freq_next relation).2 policy.cpu).freq_lo = 0 ∨
      psb_sub_sampled k s.od_tuners policy (per_cpu s policy.cpu).freq_table
        (per_cpu (powersave_bias_target k s policy freq_next relation).2 policy.cpu).freq_lo) := by
  obtain ⟨v, hv, hs, hf, hlo⟩ := powersave_bias_target_record k s policy freq_next relation
  rw [hv]
  refine ⟨?_, ?_, ?_⟩
  · intro j
    by_cases hj : j = policy.cpu
    · subst hj
      simpa using hs
    · rw [per_cpu_set_per_cpu_other s _ j v hj]
  · intro j
    by_cases hj : j = policy.cpu
    · subst hj
      simpa using hf
    · rw [per_cpu_set_per_cpu_other s _ j v hj]
  · simpa using hlo

/-- What `dbs_freq_increase` leaves alone: the tunables, every `rate_mult`,
every `sample_type` and every frequency table. -/
theorem dbs_freq_increase_frame (k : kernel_env) (s : gov_state) (p : cpufreq_policy)
    (freq : Nat) :
    (dbs_freq_increase k s p freq).od_tuners = s.od_tuners ∧
    (∀ j, (per_cpu (dbs_freq_increase k s p freq) j).rate_mult = (per_cpu s j).rate_mult) ∧
    (∀ j, (per_cpu (dbs_freq_increase k s p freq) j).sample_type =
      (per_cpu s j).sample_type) ∧
    (∀ j, (per_cpu (dbs_freq_increase k s p freq) j).freq_table =
      (per_cpu s j).freq_table) := by
  have hfr := powersave_bias_target_frame k s p freq cpufreq_relation.CPUFREQ_RELATION_H
  have hfl := powersave_bias_target_fields k s p freq cpufreq_relation.CPUFREQ_RELATION_H
  unfold dbs_freq_increase
  split
  · refine ⟨by simp [hfr.2.1], fun j => by simp [hfr.2.2.1 j], fun j => by simp [hfl.1 j],
      fun j => by simp [hfl.2.1 j]⟩
  · split
    · exact ⟨rfl, fun _ => rfl, fun _ => rfl, fun _ => rfl⟩
    · exact ⟨rfl, fun _ => rfl, fun _ => rfl, fun _ => rfl⟩

/-- What `dbs_freq_increase` does to `freq_lo` of a CPU: nothing, unless
`powersave_bias_target` ran for that CPU; then it is 0 or the lower bound of a
pair of differing bounds. -/
theorem dbs_freq_increase_freq_lo (k : kernel_env) (s : gov_state) (p : cpufreq_policy)
    (freq : Nat) (j : Nat) :
    (per_cpu (dbs_freq_increase k s p freq) j).freq_lo = (per_cpu s j).freq_lo ∨
    (per_cpu (dbs_freq_increase k s p freq) j).freq_lo = 0 ∨
    (s.od_tuners.powersave_bias ≠ 0 ∧ j = p.cpu ∧
      psb_sub_sampled k s.od_tuners p (per_cpu s p.cpu).freq_table
        (per_cpu (dbs_freq_increase k s p freq) j).freq_lo) := by
  have hfr := powersave_bias_target_frame k s p freq cpufreq_relation.CPUFREQ_RELATION_H
  have hfl := powersave_bias_target_fields k s p freq cpufreq_relation.CPUFREQ_RELATION_H
  unfold dbs_freq_increase
  split
  · rename_i hb
    by_cases hj : j = p.cpu
    · subst hj
      rcases hfl.2.2 with h | h
      · right
        left
        simpa using h
      · right
        right
        exact ⟨hb, rfl, by simpa using h⟩
    · left
      simp [hfr.2.2.2 j hj]
  · split
    · exact Or.inl rfl
    · exact Or.inl rfl

/-- The shape of a decision cycle. With a policy attached, `od_check_cpu`
returns, and what it returns is: the state with `freq_lo` reset; or that state
after a `dbs_freq_increase`; or the same with `rate_mult` set to
`sampling_down_factor` before the increase to the maximum; or, on the
scale-down path, the state with `freq_lo` reset and `rate_mult` set to 1
followed by one driver call, directly or through `powersave_bias_target`. -/
theorem od_check_cpu_shape (k : kernel_env) (s : gov_state) (cpu load_freq : Nat)
    (policy : cpufreq_policy)
    (hpolicy : (per_cpu s cpu).cur_policy = some policy) :
    ∃ s', od_check_cpu k s cpu load_freq = some s' ∧
      (s' = od_freq_lo_reset s cpu ∨
       (∃ f, s' = dbs_freq_increase k (od_freq_lo_reset s cpu) policy f) ∨
       s' = dbs_freq_increase k
          (od_rate_mult_set (od_freq_lo_reset s cpu) cpu s.od_tuners.sampling_down_factor)
          policy policy.max ∨
       (s.od_tuners.powersave_bias = 0 ∧
        ∃ f, s' = cpufreq_driver_target (od_rate_mult_set (od_freq_lo_reset s cpu) cpu 1)
          policy f cpufreq_relation.CPUFREQ_RELATION_L) ∨
       (s.od_tuners.powersave_bias ≠ 0 ∧
        ∃ f, s' = cpufreq_driver_target
          (powersave_bias_target k (od_rate_mult_set (od_freq_lo_reset s cpu) cpu 1)
            policy f cpufreq_relation.CPUFREQ_RELATION_L).2 policy
          (powersave_bias_target k (od_rate_mult_set (od_freq_lo_reset s cpu) cpu 1)
            policy f cpufreq_relation.CPUFREQ_RELATION_L).1
          cpufreq_relation.CPUFREQ_RELATION_L)) := by
  unfold od_check_cpu
  split
  · rename_i h
    rw [hpolicy] at h
    cases h
  · rename_i p h
    rw [hpolicy] at h
    injection h with h
    subst h
    dsimp only
    split
    · split
      · exact ⟨_, rfl, Or.inr (Or.inr (Or.inl rfl))⟩
      · exact ⟨_, rfl, Or.inr (Or.inl ⟨_, rfl⟩)⟩
    · split
      · split
        · exact ⟨_, rfl, Or.inr (Or.inl ⟨_, rfl⟩)⟩
        · exact ⟨_, rfl, Or.inl rfl⟩
      · split
        · split
          · exact ⟨_, rfl, Or.inr (Or.inl ⟨_, rfl⟩)⟩
          · exact ⟨_, rfl, Or.inl rfl⟩
        · split
          · exact ⟨_, rfl, Or.inl rfl⟩
          · split
            · split
              · rename_i hb
                exact ⟨_, rfl, Or.inr (Or.inr (Or.inr (Or.inl ⟨hb, _, rfl⟩)))⟩
              · rename_i hb
                exact ⟨_, rfl, Or.inr (Or.inr (Or.inr (Or.inr ⟨hb, _, rfl⟩)))⟩
            · exact ⟨_, rfl, Or.inl rfl⟩

@[simp]
theorem od_freq_lo_reset_od_tuners (s : gov_state) (cpu : Nat) :
    (od_freq_lo_reset s cpu).od_tuners = s.od_tuners := rfl

@[simp]
theorem od_rate_mult_set_od_tuners (s : gov_state) (cpu v : Nat) :
    (od_rate_mult_set s cpu v).od_tuners = s.od_tuners := rfl

theorem per_cpu_od_freq_lo_reset (s : gov_state) (cpu j : Nat) :
    per_cpu (od_freq_lo_reset s cpu) j =
      if j = cpu then { per_cpu s cpu with freq_lo := 0 } else per_cpu s j := rfl

theorem per_cpu_od_rate_mult_set (s : gov_state) (cpu v j : Nat) :
    per_cpu (od_rate_mult_set s cpu v) j =
      if j = cpu then { per_cpu s cpu with rate_mult := v } else per_cpu s j := rfl

/-- The two assignments of `od_check_cpu` to the record of its CPU leave the
frequency tables and every `sample_type` alone, and `freq_lo` of the CPU is 0
after them. -/
theorem od_reset_frame (s : gov_state) (cpu v : Nat) :
    (∀ j, (per_cpu (od_freq_lo_reset s cpu) j).freq_table = (per_cpu s j).freq_table) ∧
    (∀ j, (per_cpu (od_freq_lo_reset s cpu) j).sample_type = (per_cpu s j).sample_type) ∧
    (∀ j, (per_cpu (od_freq_lo_reset s cpu) j).rate_mult = (per_cpu s j).rate_mult) ∧
    (per_cpu (od_freq_lo_reset s cpu) cpu).freq_lo = 0 ∧
    (∀ j, (per_cpu (od_rate_mult_set (od_freq_lo_reset s cpu) cpu v) j).freq_table =
      (per_cpu s j).freq_table) ∧
    (∀ j, (per_cpu (od_rate_mult_set (od_freq_lo_reset s cpu) cpu v) j).sample_type =
      (per_cpu s j).sample_type) ∧
    (∀ j, (per_cpu (od_rate_mult_set (od_freq_lo_reset s cpu) cpu v) j).rate_mult =
      if j = cpu then v else (per_cpu s j).rate_mult) ∧
    (per_cpu (od_rate_mult_set (od_freq_lo_reset s cpu) cpu v) cpu).freq_lo = 0 := by
  refine ⟨?_, ?_, ?_, ?_, ?_, ?_, ?_, ?_⟩
  · intro j
    by_cases hj : j = cpu <;> simp [per_cpu_od_freq_lo_reset, hj]
  · intro j
    by_cases hj : j = cpu <;> simp [per_cpu_od_freq_lo_reset, hj]
  · intro j
    by_cases hj : j = cpu <;> simp [per_cpu_od_freq_lo_reset, hj]
  · simp [per_cpu_od_freq_lo_reset]
  · intro j
    by_cases hj : j = cpu <;> simp [per_cpu_od_freq_lo_reset, per_cpu_od_rate_mult_set, hj]
  · intro j
    by_cases hj : j = cpu <;> simp [per_cpu_od_freq_lo_reset, per_cpu_od_rate_mult_set, hj]
  · intro j
    by_cases hj : j = cpu <;> simp [per_cpu_od_freq_lo_reset, per_cpu_od_rate_mult_set, hj]
  · simp [per_cpu_od_freq_lo_reset, per_cpu_od_rate_mult_set]

/-- What a decision cycle leaves alone: the tunables, every `sample_type`,
every frequency table, and `rate_mult` of every CPU but for the three values
it can take for the CPU of the cycle. -/
theorem od_check_cpu_frame (k : kernel_env) (s : gov_state) (cpu load_freq : Nat)
    (policy : cpufreq_policy)
    (hpolicy : (per_cpu s cpu).cur_policy = some policy) :
    ∃ s', od_check_cpu k s cpu load_freq = some s' ∧
      s'.od_tuners = s.od_tuners ∧
      (∀ j, (per_cpu s' j).sample_type = (per_cpu s j).sample_type) ∧
      (∀ j, (per_cpu s' j).freq_table = (per_cpu s j).freq_table) ∧
      (∀ j, (per_cpu s' j).rate_mult = (per_cpu s j).rate_mult ∨
        (per_cpu s' j).rate_mult = 1 ∨
        (per_cpu s' j).rate_mult = s.od_tuners.sampling_down_factor) := by
  obtain ⟨s', hs, hshape⟩ := od_check_cpu_shape k s cpu load_freq policy hpolicy
  refine ⟨s', hs, ?_⟩
  have hrm : ∀ (v j : Nat), v = 1 ∨ v = s.od_tuners.sampling_down_factor →
      ((if j = cpu then v else (per_cpu s j).rate_mult) = (per_cpu s j).rate_mult ∨
        (if j = cpu then v else (per_cpu s j).rate_mult) = 1 ∨
        (if j = cpu then v else (per_cpu s j).rate_mult) =
          s.od_tuners.sampling_down_factor) := by
    intro v j hv
    by_cases hj : j = cpu
    · rw [if_pos hj]
      exact Or.inr hv
    · rw [if_neg hj]
      exact Or.inl rfl
  rcases hshape with h | ⟨f, h⟩ | h | ⟨_, f, h⟩ | ⟨_, f, h⟩
  · subst h
    obtain ⟨h1, h2, h3, _⟩ := od_reset_frame s cpu 0
    exact ⟨rfl, h2, h1, fun j => Or.inl (h3 j)⟩
  · subst h
    obtain ⟨h1, h2, h3, _⟩ := od_reset_frame s cpu 0
    obtain ⟨g1, g2, g3, g4⟩ := dbs_freq_increase_frame k (od_freq_lo_reset s cpu) policy f
    exact ⟨by rw [g1]; rfl, fun j => by rw [g3 j, h2 j], fun j => by rw [g4 j, h1 j],
      fun j => Or.inl (by rw [g2 j, h3 j])⟩
  · subst h
    obtain ⟨_, _, _, _, h1, h2, h3, _⟩ := od_reset_frame s cpu s.od_tuners.sampling_down_factor
    obtain ⟨g1, g2, g3, g4⟩ := dbs_freq_increase_frame k
      (od_rate_mult_set (od_freq_lo_reset s cpu) cpu s.od_tuners.sampling_down_factor)
      policy policy.max
    refine ⟨by rw [g1]; rfl, fun j => by rw [g3 j, h2 j], fun j => by rw [g4 j, h1 j], ?_⟩
    intro j
    rw [g2 j, h3 j]
    exact hrm _ j (Or.inr rfl)
  · subst h
    obtain ⟨_, _, _, _, h1, h2, h3, _⟩ := od_reset_frame s cpu 1
    refine ⟨rfl, fun j => by simp [h2 j], fun j => by simp [h1 j], ?_⟩
    intro j
    rw [per_cpu_cpufreq_driver_target, h3 j]
    exact hrm _ j (Or.inl rfl)
  · subst h
    obtain ⟨_, _, _, _, h1, h2, h3, _⟩ := od_reset_frame s cpu 1
    have hfr := powersave_bias_target_frame k (od_rate_mult_set (od_freq_lo_reset s cpu) cpu 1)
      policy f cpufreq_relation.CPUFREQ_RELATION_L
    have hfl := powersave_bias_target_fields k (od_rate_mult_set (od_freq_lo_reset s cpu) cpu 1)
      policy f cpufreq_relation.CPUFREQ_RELATION_L
    refine ⟨?_, ?_, ?_, ?_⟩
    · rw [cpufreq_driver_target_od_tuners, hfr.2.1]
      rfl
    · intro j
      rw [per_cpu_cpufreq_driver_target, hfl.1 j, h2 j]
    · intro j
      rw [per_cpu_cpufreq_driver_target, hfl.2.1 j, h1 j]
    · intro j
      rw [per_cpu_cpufreq_driver_target, hfr.2.2.1 j, h3 j]
      exact hrm _ j (Or.inl rfl)

/-- C12: `rate_mult` stays a valid multiplier. If `1 <= sampling_down_factor <=
100000` and `rate_mult >= 1` hold for a CPU `j` before, they hold after a cycle
of `od_check_cpu` (for any CPU, which returns when its policy is attached) and
after a call of `store_sampling_down_factor` (any write, accepted or rejected);
and `rate_mult` of `j` is then its previous value, 1, or `sampling_down_factor`. -/
theorem rate_mult_valid (k : kernel_env) (s : gov_state) (cpu load_freq : Nat)
    (policy : cpufreq_policy) (j : Nat) (parsed : Option Nat) (count : Nat)
    (hpolicy : (per_cpu s cpu).cur_policy = some policy)
    (hsdf : 1 ≤ s.od_tuners.sampling_down_factor ∧ s.od_tuners.sampling_down_factor ≤ 100000)
    (hrm : 1 ≤ (per_cpu s j).rate_mult) :
    (∃ s', od_check_cpu k s cpu load_freq = some s' ∧
      (1 ≤ s'.od_tuners.sampling_down_factor ∧ s'.od_tuners.sampling_down_factor ≤ 100000) ∧
      1 ≤ (per_cpu s' j).rate_mult ∧
      ((per_cpu s' j).rate_mult = (per_cpu s j).rate_mult ∨ (per_cpu s' j).rate_mult = 1 ∨
        (per_cpu s' j).rate_mult = s'.od_tuners.sampling_down_factor)) ∧
    ((1 ≤ (store_sampling_down_factor s parsed count).state.od_tuners.sampling_down_factor ∧
        (store_sampling_down_factor s parsed count).state.od_tuners.sampling_down_factor
          ≤ 100000) ∧
      1 ≤ (per_cpu (store_sampling_down_factor s parsed count).state j).rate_mult ∧
      ((per_cpu (store_sampling_down_factor s parsed count).state j).rate_mult =
          (per_cpu s j).rate_mult ∨
        (per_cpu (store_sampling_down_factor s parsed count).state j).rate_mult = 1 ∨
        (per_cpu (store_sampling_down_factor s parsed count).state j).rate_mult =
          (store_sampling_down_factor s parsed count).state.od_tuners.sampling_down_factor)) := by
  refine ⟨?_, ?_⟩
  · obtain ⟨s', hs, ht, _, _, hr⟩ := od_check_cpu_frame k s cpu load_freq policy hpolicy
    refine ⟨s', hs, by rw [ht]; exact hsdf, ?_, by rw [ht]; exact hr j⟩
    rcases hr j with h | h | h
    · rw [h]
      exact hrm
    · rw [h]
    · rw [h]
      exact hsdf.1
  · cases parsed with
    | none => exact ⟨hsdf, hrm, Or.inl rfl⟩
    | some input =>
      by_cases h : input > MAX_SAMPLING_DOWN_FACTOR ∨ input < 1
      · have hres : store_sampling_down_factor s (some input) count = ⟨-EINVAL, s⟩ := by
          simp only [store_sampling_down_factor, h, if_true]
        rw [hres]
        exact ⟨hsdf, hrm, Or.inl rfl⟩
      · have hr : 1 ≤ input ∧ input ≤ 100000 := by
          unfold MAX_SAMPLING_DOWN_FACTOR at h
          omega
        have hres : store_sampling_down_factor s (some input) count =
            ⟨count, s.cpu_online_mask.foldl
              (fun st j => set_per_cpu st j { per_cpu st j with rate_mult := 1 })
              { s with od_tuners := { s.od_tuners with sampling_down_factor := input } }⟩ := by
          simp only [store_sampling_down_factor, h, if_false]
        obtain ⟨h1, h2, _⟩ := rate_mult_reset_loop s.cpu_online_mask
          { s with od_tuners := { s.od_tuners with sampling_down_factor := input } }
        rw [hres]
        dsimp only
        rw [h1, h2 j]
        refine ⟨hr, ?_, ?_⟩
        · split
          · exact Nat.le_refl 1
          · exact hrm
        · split
          · exact Or.inr (Or.inl rfl)
          · exact Or.inl rfl

/-- Witness of C12: CPU 0 at 400 with `rate_mult` 1 and `sampling_down_factor`
5: a scale-up cycle (`load_freq` 33000) leaves `rate_mult` 5, and the write 7 to
`sampling_down_factor` leaves `rate_mult` 1. -/
theorem rate_mult_valid_witness :
    (1 ≤ (tuners_sdf_5 0).sampling_down_factor ∧ (tuners_sdf_5 0).sampling_down_factor ≤ 100000) ∧
    (∃ s', od_check_cpu (spec_env table_200_800)
        (example_state (tuners_sdf_5 0) [0] ⟨0, 400, 200, 800⟩ 1 0) 0 33000 = some s' ∧
      (1 ≤ s'.od_tuners.sampling_down_factor ∧ s'.od_tuners.sampling_down_factor ≤ 100000) ∧
      1 ≤ (per_cpu s' 0).rate_mult ∧
      ((per_cpu s' 0).rate_mult = 1 ∨ (per_cpu s' 0).rate_mult = 1 ∨
        (per_cpu s' 0).rate_mult = s'.od_tuners.sampling_down_factor)) ∧
    (per_cpu (store_sampling_down_factor
      (example_state (tuners_sdf_5 0) [0] ⟨0, 400, 200, 800⟩ 1 0) (some 7) 2).state 0).rate_mult
      = 1 :=
  ⟨by decide,
   (rate_mult_valid (spec_env table_200_800)
     (example_state (tuners_sdf_5 0) [0] ⟨0, 400, 200, 800⟩ 1 0) 0 33000
     ⟨0, 400, 200, 800⟩ 0 (some 7) 2 rfl (by decide) (by decide)).1,
   rfl⟩

/-- C20: `freq_lo` is reset every cycle. With a policy attached, `od_check_cpu`
returns, and afterwards `freq_lo` of its CPU is 0 unless `powersave_bias` is not
0, the CPU is `policy->cpu` and `powersave_bias_target` ran in this call and
found `freq_hi != freq_lo` (then `freq_lo` is that lower bound). In particular
with `powersave_bias = 0` it is 0 after the call, whatever it was before. -/
theorem od_check_cpu_freq_lo_reset (k : kernel_env) (s : gov_state) (cpu load_freq : Nat)
    (policy : cpufreq_policy)
    (hpolicy : (per_cpu s cpu).cur_policy = some policy) :
    ∃ s', od_check_cpu k s cpu load_freq = some s' ∧
      ((per_cpu s' cpu).freq_lo = 0 ∨
        (s.od_tuners.powersave_bias ≠ 0 ∧ cpu = policy.cpu ∧
          ∃ (tb : List Nat) (freq_next : Nat) (relation : cpufreq_relation),
            (per_cpu s policy.cpu).freq_table = some tb ∧
            psb_freq_hi k policy tb
                (psb_freq_avg s.od_tuners (psb_freq_req k policy tb freq_next relation)) ≠
              psb_freq_lo k policy tb
                (psb_freq_avg s.od_tuners (psb_freq_req k policy tb freq_next relation)) ∧
            (per_cpu s' cpu).freq_lo =
              psb_freq_lo k policy tb
                (psb_freq_avg s.od_tuners (psb_freq_req k policy tb freq_next relation)))) ∧
      (s.od_tuners.powersave_bias = 0 → (per_cpu s' cpu).freq_lo = 0) := by
  obtain ⟨s', hs, hshape⟩ := od_check_cpu_shape k s cpu load_freq policy hpolicy
  refine ⟨s', hs, ?_⟩
  have hinc : ∀ (S : gov_state) (f : Nat), S.od_tuners = s.od_tuners →
      (∀ j, (per_cpu S j).freq_table = (per_cpu s j).freq_table) →
      (per_cpu S cpu).freq_lo = 0 →
      ((per_cpu (dbs_freq_increase k S policy f) cpu).freq_lo = 0 ∨
        (s.od_tuners.powersave_bias ≠ 0 ∧ cpu = policy.cpu ∧
          psb_sub_sampled k s.od_tuners policy (per_cpu s policy.cpu).freq_table
            (per_cpu (dbs_freq_increase k S policy f) cpu).freq_lo)) ∧
      (s.od_tuners.powersave_bias = 0 →
        (per_cpu (dbs_freq_increase k S policy f) cpu).freq_lo = 0) := by
    intro S f ht hf h0
    rcases dbs_freq_increase_freq_lo k S policy f cpu with h | h | ⟨hb, hc, hsub⟩
    · rw [h0] at h
      exact ⟨Or.inl h, fun _ => h⟩
    · exact ⟨Or.inl h, fun _ => h⟩
    · rw [ht] at hb hsub
      rw [hf policy.cpu] at hsub
      exact ⟨Or.inr ⟨hb, hc, hsub⟩, fun hz => absurd hz hb⟩
  rcases hshape with h | ⟨f, h⟩ | h | ⟨hb, f, h⟩ | ⟨hb, f, h⟩
  · subst h
    have h0 := (od_reset_frame s cpu 0).2.2.2.1
    exact ⟨Or.inl h0, fun _ => h0⟩
  · subst h
    obtain ⟨h1, _, _, h0, _⟩ := od_reset_frame s cpu 0
    exact hinc _ f rfl h1 h0
  · subst h
    obtain ⟨_, _, _, _, h1, _, _, h0⟩ := od_reset_frame s cpu s.od_tuners.sampling_down_factor
    exact hinc _ policy.max rfl h1 h0
  · subst h
    have h0 := (od_reset_frame s cpu 1).2.2.2.2.2.2.2
    rw [per_cpu_cpufreq_driver_target]
    exact ⟨Or.inl h0, fun _ => h0⟩
  · subst h
    obtain ⟨_, _, _, _, h1, _, _, h0⟩ := od_reset_frame s cpu 1
    have hfr := powersave_bias_target_frame k (od_rate_mult_set (od_freq_lo_reset s cpu) cpu 1)
      policy f cpufreq_relation.CPUFREQ_RELATION_L
    have hfl := powersave_bias_target_fields k (od_rate_mult_set (od_freq_lo_reset s cpu) cpu 1)
      policy f cpufreq_relation.CPUFREQ_RELATION_L
    rw [per_cpu_cpufreq_driver_target]
    refine ⟨?_, fun hz => absurd hz hb⟩
    by_cases hc : cpu = policy.cpu
    · have heq : (per_cpu (powersave_bias_target k
          (od_rate_mult_set (od_freq_lo_reset s cpu) cpu 1) policy f
          cpufreq_relation.CPUFREQ_RELATION_L).2 cpu).freq_lo =
          (per_cpu (powersave_bias_target k
          (od_rate_mult_set (od_freq_lo_reset s cpu) cpu 1) policy f
          cpufreq_relation.CPUFREQ_RELATION_L).2 policy.cpu).freq_lo := by
        rw [hc]
      rw [heq]
      rcases hfl.2.2 with h | h
      · exact Or.inl h
      · rw [h1 policy.cpu] at h
        exact Or.inr ⟨hb, hc, h⟩
    · left
      rw [hfr.2.2.2 cpu hc]
      exact h0

/-- Witness of C20: CPU 0 at 400 with a stale `freq_lo` of 600 and no bias:
after a cycle in the no-op band `freq_lo` is 0. -/
theorem od_check_cpu_freq_lo_reset_witness :
    (per_cpu (set_per_cpu (example_state (tuners_sdf_5 0) [0] ⟨0, 400, 200, 800⟩ 1 0) 0
      { per_cpu (example_state (tuners_sdf_5 0) [0] ⟨0, 400, 200, 800⟩ 1 0) 0 with
        freq_lo := 600 }) 0).freq_lo = 600 ∧
    ∃ s', od_check_cpu (spec_env table_200_800)
        (set_per_cpu (example_state (tuners_sdf_5 0) [0] ⟨0, 400, 200, 800⟩ 1 0) 0
          { per_cpu (example_state (tuners_sdf_5 0) [0] ⟨0, 400, 200, 800⟩ 1 0) 0 with
            freq_lo := 600 }) 0 30000 = some s' ∧
      (per_cpu s' 0).freq_lo = 0 :=
  ⟨rfl,
   (od_check_cpu_freq_lo_reset (spec_env table_200_800)
     (set_per_cpu (example_state (tuners_sdf_5 0) [0] ⟨0, 400, 200, 800⟩ 1 0) 0
       { per_cpu (example_state (tuners_sdf_5 0) [0] ⟨0, 400, 200, 800⟩ 1 0) 0 with
         freq_lo := 600 }) 0 30000 ⟨0, 400, 200, 800⟩ rfl).imp
     (fun _ h => ⟨h.1, h.2.2 rfl⟩)⟩

/-! ## Properties of the Sampling Scheduler -/

/-- The decision step of a timer firing returns when the policy of the CPU is
attached, and it leaves the tunables and every `sample_type` alone. -/
theorem od_decision_step_frame (k : kernel_env) (e : timer_env) (s : gov_state) (cpu : Nat)
    (eval_load : Bool) (policy : cpufreq_policy)
    (hpolicy : (per_cpu s cpu).cur_policy = some policy) :
    ∃ s2, od_decision_step k e s cpu eval_load = some s2 ∧
      s2.od_tuners = s.od_tuners ∧
      ∀ j, (per_cpu s2 j).sample_type = (per_cpu s j).sample_type := by
  unfold od_decision_step
  cases eval_load with
  | false => exact ⟨s, rfl, rfl, fun _ => rfl⟩
  | true =>
    simp only [if_true]
    unfold dbs_check_cpu
    split
    · exact ⟨s, rfl, rfl, fun _ => rfl⟩
    · rename_i m _
      have hp : (per_cpu (set_per_cpu s cpu { per_cpu s cpu with max_load := m.1 }) cpu).cur_policy
          = some policy := by
        simpa using hpolicy
      obtain ⟨s2, hs, ht, hst, _⟩ := od_check_cpu_frame k
        (set_per_cpu s cpu { per_cpu s cpu with max_load := m.1 }) cpu m.2 policy hp
      refine ⟨s2, hs, by rw [ht]; rfl, ?_⟩
      intro j
      rw [hst j]
      by_cases hj : j = cpu
      · subst hj
        simp
      · rw [per_cpu_set_per_cpu_other _ _ _ _ hj]

/-- C13: a SUB_SAMPLE firing of `od_dbs_timer`. For every firing that starts
with `sample_type = OD_SUB_SAMPLE` (policies attached), the function returns;
the delay it re-arms with is `freq_lo_jiffies`; the only driver call is the one
for `freq_lo` with relation H, made exactly when `need_load_eval` holds; the
Decision Engine is not run: apart from `sample_type` of the CPU, which is
OD_NORMAL_SAMPLE afterwards, every per-CPU record and the tunables are as before.
Hence the next firing of this work does not start with OD_SUB_SAMPLE. -/
theorem od_dbs_timer_sub_sample (k : kernel_env) (e : timer_env) (s : gov_state) (w : Nat)
    (pw policy : cpufreq_policy)
    (hw : (per_cpu s w).cur_policy = some pw)
    (hsub : (per_cpu s pw.cpu).sample_type = od_sample_type.OD_SUB_SAMPLE)
    (hcore : (per_cpu s pw.cpu).cur_policy = some policy) :
    ∃ r, od_dbs_timer k e s w = some r ∧
      r.delay = (per_cpu s pw.cpu).freq_lo_jiffies ∧
      r.state.driver_calls = s.driver_calls ++
        (if e.need_load_eval s pw.cpu = true then
          [⟨policy.cpu, (per_cpu s pw.cpu).freq_lo, cpufreq_relation.CPUFREQ_RELATION_H⟩]
         else []) ∧
      r.state.od_tuners = s.od_tuners ∧
      (∀ j, per_cpu r.state j =
        if j = pw.cpu then
          { per_cpu s pw.cpu with sample_type := od_sample_type.OD_NORMAL_SAMPLE }
        else per_cpu s j) ∧
      (per_cpu r.state pw.cpu).sample_type = od_sample_type.OD_NORMAL_SAMPLE ∧
      (per_cpu r.state pw.cpu).sample_type ≠ od_sample_type.OD_SUB_SAMPLE := by
  have hc1 : (per_cpu (set_per_cpu s pw.cpu
      { per_cpu s pw.cpu with sample_type := od_sample_type.OD_NORMAL_SAMPLE })
      pw.cpu).cur_policy = some policy := by
    simpa using hcore
  unfold od_dbs_timer
  simp only [hw, hsub, if_true]
  cases hev : e.need_load_eval s pw.cpu with
  | false =>
    simp only [Bool.false_eq_true, if_false]
    refine ⟨_, rfl, by simp, by simp, rfl, fun j => per_cpu_set_per_cpu _ _ _ _, by simp,
      by simp⟩
  | true =>
    simp only [if_true, hc1]
    refine ⟨_, rfl, by simp, by simp, rfl, fun j => per_cpu_set_per_cpu _ _ _ _, by simp,
      by simp⟩

/-- Witness of C13: CPU 0 in OD_SUB_SAMPLE with `freq_lo` 600 and
`freq_lo_jiffies` 2: the firing asks the driver for 600 with relation H, re-arms
after 2 jiffies and leaves OD_NORMAL_SAMPLE. -/
theorem od_dbs_timer_sub_sample_witness :
    (per_cpu (set_per_cpu (example_state tuners_bias_100 [0] ⟨0, 800, 200, 800⟩ 5 0) 0
      { per_cpu (example_state tuners_bias_100 [0] ⟨0, 800, 200, 800⟩ 5 0) 0 with
        sample_type := od_sample_type.OD_SUB_SAMPLE, freq_lo := 600, freq_lo_jiffies := 2,
        freq_hi_jiffies := 3 }) 0).sample_type = od_sample_type.OD_SUB_SAMPLE ∧
    ∃ r, od_dbs_timer (spec_env table_200_800) (example_timer_env 90 800)
        (set_per_cpu (example_state tuners_bias_100 [0] ⟨0, 800, 200, 800⟩ 5 0) 0
          { per_cpu (example_state tuners_bias_100 [0] ⟨0, 800, 200, 800⟩ 5 0) 0 with
            sample_type := od_sample_type.OD_SUB_SAMPLE, freq_lo := 600, freq_lo_jiffies := 2,
            freq_hi_jiffies := 3 }) 0 = some r ∧
      r.delay = 2 ∧
      r.state.driver_calls = [⟨0, 600, cpufreq_relation.CPUFREQ_RELATION_H⟩] ∧
      (per_cpu r.state 0).sample_type = od_sample_type.OD_NORMAL_SAMPLE :=
  ⟨rfl,
   (od_dbs_timer_sub_sample (spec_env table_200_800) (example_timer_env 90 800)
     (set_per_cpu (example_state tuners_bias_100 [0] ⟨0, 800, 200, 800⟩ 5 0) 0
       { per_cpu (example_state tuners_bias_100 [0] ⟨0, 800, 200, 800⟩ 5 0) 0 with
         sample_type := od_sample_type.OD_SUB_SAMPLE, freq_lo := 600, freq_lo_jiffies := 2,
         freq_hi_jiffies := 3 }) 0 ⟨0, 800, 200, 800⟩ ⟨0, 800, 200, 800⟩ rfl rfl rfl).imp
     (fun _ h => ⟨h.1, h.2.1, h.2.2.1, h.2.2.2.2.2.1⟩)⟩

/-- C14: a NORMAL firing of `od_dbs_timer`. For every firing that starts with
`sample_type = OD_NORMAL_SAMPLE` (policies attached), the decision step and the
function return; if `freq_lo` is not 0 after the decision step, `sample_type`
becomes OD_SUB_SAMPLE and the delay is `freq_hi_jiffies`; otherwise
`sample_type` stays OD_NORMAL_SAMPLE and the delay is
`delay_for_sampling_rate (sampling_rate * rate_mult)`, the product being the
32-bit product of the code. The values of `freq_lo`, `freq_hi_jiffies`,
`rate_mult` and `sampling_rate` are those the decision step left. -/
theorem od_dbs_timer_normal (k : kernel_env) (e : timer_env) (s : gov_state) (w : Nat)
    (pw policy : cpufreq_policy)
    (hw : (per_cpu s w).cur_policy = some pw)
    (hnormal : (per_cpu s pw.cpu).sample_type = od_sample_type.OD_NORMAL_SAMPLE)
    (hcore : (per_cpu s pw.cpu).cur_policy = some policy) :
    ∃ s2 r,
      od_decision_step k e
        (set_per_cpu s pw.cpu
          { per_cpu s pw.cpu with sample_type := od_sample_type.OD_NORMAL_SAMPLE })
        pw.cpu (e.need_load_eval s pw.cpu) = some s2 ∧
      od_dbs_timer k e s w = some r ∧
      r.state.od_tuners = s2.od_tuners ∧ s2.od_tuners = s.od_tuners ∧
      r.state.driver_calls = s2.driver_calls ∧
      (per_cpu r.state pw.cpu).freq_lo = (per_cpu s2 pw.cpu).freq_lo ∧
      ((per_cpu s2 pw.cpu).freq_lo ≠ 0 →
        (per_cpu r.state pw.cpu).sample_type = od_sample_type.OD_SUB_SAMPLE ∧
        r.delay = (per_cpu s2 pw.cpu).freq_hi_jiffies) ∧
      ((per_cpu s2 pw.cpu).freq_lo = 0 →
        (per_cpu r.state pw.cpu).sample_type = od_sample_type.OD_NORMAL_SAMPLE ∧
        r.delay = e.delay_for_sampling_rate
          (umul s2.od_tuners.sampling_rate (per_cpu s2 pw.cpu).rate_mult)) := by
  have hc1 : (per_cpu (set_per_cpu s pw.cpu
      { per_cpu s pw.cpu with sample_type := od_sample_type.OD_NORMAL_SAMPLE })
      pw.cpu).cur_policy = some policy := by
    simpa using hcore
  obtain ⟨s2, hs2, ht, hst⟩ := od_decision_step_frame k e _ pw.cpu
    (e.need_load_eval s pw.cpu) policy hc1
  have hst2 : (per_cpu s2 pw.cpu).sample_type = od_sample_type.OD_NORMAL_SAMPLE := by
    rw [hst pw.cpu]
    simp
  have hnsub : ¬ od_sample_type.OD_NORMAL_SAMPLE = od_sample_type.OD_SUB_SAMPLE := by
    decide
  by_cases hlo : (per_cpu s2 pw.cpu).freq_lo = 0
  · have hres : od_dbs_timer k e s w = some ⟨s2, e.delay_for_sampling_rate
        (umul s2.od_tuners.sampling_rate (per_cpu s2 pw.cpu).rate_mult)⟩ := by
      unfold od_dbs_timer
      simp only [hw, hnormal, hnsub, if_false, hs2, hlo, ne_eq, not_true_eq_false]
    exact ⟨s2, _, hs2, hres, rfl, ht, rfl, rfl, fun h => absurd hlo h, fun _ => ⟨hst2, rfl⟩⟩
  · have hres : od_dbs_timer k e s w = some ⟨set_per_cpu s2 pw.cpu
        { per_cpu s2 pw.cpu with sample_type := od_sample_type.OD_SUB_SAMPLE },
        (per_cpu s2 pw.cpu).freq_hi_jiffies⟩ := by
      unfold od_dbs_timer
      simp only [hw, hnormal, hnsub, if_false, hs2, hlo, ne_eq, not_false_eq_true, if_true]
    exact ⟨s2, _, hs2, hres, rfl, ht, rfl, by simp, fun _ => ⟨by simp, rfl⟩,
      fun h => absurd h hlo⟩

/-- Witness of C14: CPU 0 at 400 with a bias of 100 and a measured load of 90:
the decision step scales up through `powersave_bias_target`, which leaves
`freq_lo` 600 and `freq_hi_jiffies` 3: the firing leaves OD_SUB_SAMPLE and re-arms
after 3 jiffies. -/
theorem od_dbs_timer_normal_witness :
    (per_cpu (example_state tuners_bias_100 [0] ⟨0, 400, 200, 800⟩ 1 0) 0).sample_type =
      od_sample_type.OD_NORMAL_SAMPLE ∧
    ∃ r, od_dbs_timer (spec_env table_200_800) (example_timer_env 90 400)
        (example_state tuners_bias_100 [0] ⟨0, 400, 200, 800⟩ 1 0) 0 = some r ∧
      (per_cpu r.state 0).freq_lo = 600 ∧
      (per_cpu r.state 0).sample_type = od_sample_type.OD_SUB_SAMPLE ∧
      r.delay = 3 :=
  ⟨rfl,
   match od_dbs_timer_normal (spec_env table_200_800) (example_timer_env 90 400)
     (example_state tuners_bias_100 [0] ⟨0, 400, 200, 800⟩ 1 0) 0
     ⟨0, 400, 200, 800⟩ ⟨0, 400, 200, 800⟩ rfl rfl rfl with
   | ⟨_, r, _, hr, _, _, _, _, _, _⟩ => ⟨r, hr, by
       have h := hr
       simp only [od_dbs_timer] at h
       cases h
       exact ⟨rfl, rfl, rfl⟩⟩⟩

/-- One iteration of the loop of `update_sampling_rate` leaves the state as it
is, or, when `time_before` holds of `jiffies + usecs_to_jiffies (new_rate)`,
with `jiffies` as read for the test, and the appointed expiry, re-arms the
pending work of the CPU to `usecs_to_jiffies (new_rate)` from the value
`jiffies` has when the timer is armed again. -/
theorem update_sampling_rate_step_cases (k : kernel_env) (e : timer_env) (c : clock_env)
    (new_rate : Nat) (cur : sched_state) (cpu : Nat) :
    update_sampling_rate_step k e c new_rate cur cpu = cur ∨
    ∃ a, cur.work_expires cpu = some a ∧
      e.time_before
        (ulong_add c.BITS_PER_LONG
          (ulong_add c.BITS_PER_LONG cur.jiffies (c.ticks_at_test cpu))
          (k.usecs_to_jiffies new_rate)) a = true ∧
      update_sampling_rate_step k e c new_rate cur cpu =
        { cur with
          work_expires := fun j =>
            if j = cpu then
              some (ulong_add c.BITS_PER_LONG
                (ulong_add c.BITS_PER_LONG cur.jiffies (c.ticks_at_rearm cpu))
                (k.usecs_to_jiffies new_rate))
            else cur.work_expires j } := by
  unfold update_sampling_rate_step
  by_cases hg : e.ondemand_governs cpu = true
  · rw [if_pos hg]
    rcases ha : cur.work_expires cpu with _ | a
    · exact Or.inl rfl
    · dsimp only
      by_cases hb : e.time_before
          (ulong_add c.BITS_PER_LONG
            (ulong_add c.BITS_PER_LONG cur.jiffies (c.ticks_at_test cpu))
            (k.usecs_to_jiffies new_rate)) a = true
      · rw [if_pos hb]
        exact Or.inr ⟨a, rfl, hb, rfl⟩
      · rw [if_neg hb]
        exact Or.inl rfl
  · rw [if_neg hg]
    exact Or.inl rfl

/-- The loop of `update_sampling_rate` over the online CPUs changes neither
the governor state nor the value of `jiffies` on entry, and it leaves each
delayed work as it was or re-armed, from a pending state for which the test
held, to `usecs_to_jiffies (new_rate)` from the moment of re-arming. -/
theorem update_sampling_rate_loop (k : kernel_env) (e : timer_env) (c : clock_env)
    (new_rate : Nat) (st0 : sched_state) (l : List Nat) (cur : sched_state)
    (hg : cur.gov = st0.gov) (hj : cur.jiffies = st0.jiffies)
    (hw : ∀ j, cur.work_expires j = st0.work_expires j ∨
      ∃ appointed_at, st0.work_expires j = some appointed_at ∧
        e.time_before
          (ulong_add c.BITS_PER_LONG
            (ulong_add c.BITS_PER_LONG st0.jiffies (c.ticks_at_test j))
            (k.usecs_to_jiffies new_rate)) appointed_at = true ∧
        cur.work_expires j =
          some (ulong_add c.BITS_PER_LONG
            (ulong_add c.BITS_PER_LONG st0.jiffies (c.ticks_at_rearm j))
            (k.usecs_to_jiffies new_rate))) :
    (l.foldl (update_sampling_rate_step k e c new_rate) cur).gov = st0.gov ∧
    (l.foldl (update_sampling_rate_step k e c new_rate) cur).jiffies = st0.jiffies ∧
    ∀ j, (l.foldl (update_sampling_rate_step k e c new_rate) cur).work_expires j =
        st0.work_expires j ∨
      ∃ appointed_at, st0.work_expires j = some appointed_at ∧
        e.time_before
          (ulong_add c.BITS_PER_LONG
            (ulong_add c.BITS_PER_LONG st0.jiffies (c.ticks_at_test j))
            (k.usecs_to_jiffies new_rate)) appointed_at = true ∧
        (l.foldl (update_sampling_rate_step k e c new_rate) cur).work_expires j =
          some (ulong_add c.BITS_PER_LONG
            (ulong_add c.BITS_PER_LONG st0.jiffies (c.ticks_at_rearm j))
            (k.usecs_to_jiffies new_rate)) := by
  induction l generalizing cur with
  | nil => exact ⟨hg, hj, hw⟩
  | cons cpu rest ih =>
    rw [List.foldl_cons]
    rcases update_sampling_rate_step_cases k e c new_rate cur cpu with h | ⟨a, ha, hb, h⟩
    · rw [h]
      exact ih cur hg hj hw
    · rw [h]
      apply ih
      · exact hg
      · exact hj
      · intro j
        rw [hj] at hb
        by_cases hjc : j = cpu
        · subst hjc
          right
          rcases hw j with h0 | ⟨a0, h0, hb0, _⟩
          · rw [ha] at h0
            exact ⟨a, h0.symm, hb, by simp [hj]⟩
          · exact ⟨a0, h0, hb0, by simp [hj]⟩
        · simpa [hjc] using hw j

/-- C11, counterexample. A 64-bit `unsigned long`, `jiffies` 1000, the work of
CPU 0 pending for 1003, and a write of 20000 (2 jiffies at 100 Hz): the test
`time_before (1002, 1003)` holds, so the work is cancelled; the timer is armed
again 3 ticks after `jiffies` was read, for 1003 + 2 = 1005, which is not
before the appointed 1003: the pending sample is postponed. -/
theorem update_sampling_rate_postpones_counterexample :
    time_before_long 64 (ulong_add 64 1000 (usecs_to_jiffies_hz100 20000)) 1003 = true ∧
    (update_sampling_rate (spec_env table_200_800) (example_timer_env_long 64)
      (example_clock_env 64 0 3) (example_sched_state 1000 1003 1100) 20000).work_expires 0 =
        some 1005 ∧
    time_before_long 64 1005 1003 = false ∧ 1003 < 1005 := by
  refine ⟨by decide, by rfl, by decide, by decide⟩

/-- C11, amended: `update_sampling_rate` enforces the minimum-rate floor, and
re-arms a pending timer only when the test made before cancelling it holds.
For every width of `unsigned long`, every `usecs_to_jiffies`, every
`time_before` and all readings of `jiffies`: after the call
`sampling_rate = max (new_rate, min_sampling_rate)`, so it is at least
`min_sampling_rate` and equal to `new_rate` whenever `new_rate` is at least
`min_sampling_rate`. The delayed work of every CPU is as it was (pending with
the same expiry, or not pending), or it was pending, `time_before` holds of
`jiffies + usecs_to_jiffies (sampling_rate)` and the appointed expiry for the
value of `jiffies` read for the test, and the work is re-armed to
`usecs_to_jiffies (sampling_rate)` from the value `jiffies` has when the timer
is armed again. For a CPU for which no tick passes between the two, the new
expiry is the tested one and `time_before` holds of it and the appointed
expiry: the update does not postpone the pending sample. -/
theorem update_sampling_rate_floor (k : kernel_env) (e : timer_env) (c : clock_env)
    (st : sched_state) (new_rate : Nat) :
    (update_sampling_rate k e c st new_rate).gov.od_tuners.sampling_rate =
      max new_rate st.min_sampling_rate ∧
    st.min_sampling_rate ≤
      (update_sampling_rate k e c st new_rate).gov.od_tuners.sampling_rate ∧
    (st.min_sampling_rate ≤ new_rate →
      (update_sampling_rate k e c st new_rate).gov.od_tuners.sampling_rate = new_rate) ∧
    (∀ j, (update_sampling_rate k e c st new_rate).work_expires j = st.work_expires j ∨
      ∃ appointed_at, st.work_expires j = some appointed_at ∧
        e.time_before
          (ulong_add c.BITS_PER_LONG
            (ulong_add c.BITS_PER_LONG st.jiffies (c.ticks_at_test j))
            (k.usecs_to_jiffies
              (update_sampling_rate k e c st new_rate).gov.od_tuners.sampling_rate))
          appointed_at = true ∧
        (update_sampling_rate k e c st new_rate).work_expires j =
          some (ulong_add c.BITS_PER_LONG
            (ulong_add c.BITS_PER_LONG st.jiffies (c.ticks_at_rearm j))
            (k.usecs_to_jiffies
              (update_sampling_rate k e c st new_rate).gov.od_tuners.sampling_rate))) ∧
    (∀ j, c.ticks_at_rearm j = c.ticks_at_test j →
      (update_sampling_rate k e c st new_rate).work_expires j = st.work_expires j ∨
      ∃ appointed_at new_expiry, st.work_expires j = some appointed_at ∧
        (update_sampling_rate k e c st new_rate).work_expires j = some new_expiry ∧
        e.time_before new_expiry appointed_at = true) := by
  obtain ⟨h1, _, h3⟩ := update_sampling_rate_loop k e c (max new_rate st.min_sampling_rate)
    { st with gov := { st.gov with od_tuners :=
        { st.gov.od_tuners with sampling_rate := max new_rate st.min_sampling_rate } } }
    st.gov.cpu_online_mask
    { st with gov := { st.gov with od_tuners :=
        { st.gov.od_tuners with sampling_rate := max new_rate st.min_sampling_rate } } }
    rfl rfl (fun _ => Or.inl rfl)
  have hrate : (update_sampling_rate k e c st new_rate).gov.od_tuners.sampling_rate =
      max new_rate st.min_sampling_rate := by
    unfold update_sampling_rate
    dsimp only
    rw [h1]
  rw [hrate]
  refine ⟨rfl, Nat.le_max_right _ _, fun h => Nat.max_eq_left h, fun j => h3 j, ?_⟩
  intro j hsame
  rcases h3 j with h | ⟨a, ha, hb, hn⟩
  · exact Or.inl h
  · rw [hsame] at hn
    exact Or.inr ⟨a, _, ha, hn, hb⟩

/-- C11, witness. A 64-bit `unsigned long`, minimum 10000, `jiffies`
4294967290, the work of CPU 0 pending for 4294967400 and that of CPU 1 for
4294967293. A write of 5000 is raised to 10000. A write of 100000 (10 jiffies)
with no tick passing re-arms the work of CPU 0 to 4294967300, a sum that does
not wrap at 32 bits, and leaves that of CPU 1; the new expiry of CPU 0 is
before the appointed one. -/
theorem update_sampling_rate_floor_witness :
    (update_sampling_rate (spec_env table_200_800) (example_timer_env_long 64)
      (example_clock_env 64 0 0) (example_sched_state 4294967290 4294967400 4294967293)
      5000).gov.od_tuners.sampling_rate = 10000 ∧
    ((update_sampling_rate (spec_env table_200_800) (example_timer_env_long 64)
        (example_clock_env 64 0 0) (example_sched_state 4294967290 4294967400 4294967293)
        100000).work_expires 0 = some 4294967300 ∧
      (update_sampling_rate (spec_env table_200_800) (example_timer_env_long 64)
        (example_clock_env 64 0 0) (example_sched_state 4294967290 4294967400 4294967293)
        100000).work_expires 1 = some 4294967293) ∧
    ((update_sampling_rate (spec_env table_200_800) (example_timer_env_long 64)
        (example_clock_env 64 0 0) (example_sched_state 4294967290 4294967400 4294967293)
        100000).work_expires 0 = some 4294967400 ∨
      ∃ appointed_at new_expiry, (some 4294967400 : Option Nat) = some appointed_at ∧
        (update_sampling_rate (spec_env table_200_800) (example_timer_env_long 64)
          (example_clock_env 64 0 0) (example_sched_state 4294967290 4294967400 4294967293)
          100000).work_expires 0 = some new_expiry ∧
        time_before_long 64 new_expiry appointed_at = true) :=
  ⟨(update_sampling_rate_floor (spec_env table_200_800) (example_timer_env_long 64)
      (example_clock_env 64 0 0) (example_sched_state 4294967290 4294967400 4294967293)
      5000).1,
   ⟨by rfl, by rfl⟩,
   (update_sampling_rate_floor (spec_env table_200_800) (example_timer_env_long 64)
      (example_clock_env 64 0 0) (example_sched_state 4294967290 4294967400 4294967293)
      100000).2.2.2.2 0 rfl⟩


/-! ## The Blender on the Target Selector of the spec -/

/-- With the Target Selector of the spec, the entry read after a lookup is
the frequency the selector resolves the target to. -/
theorem table_lookup_selector (k : kernel_env) (hk : uses_target_selector k)
    (policy : cpufreq_policy) (table : List Nat) (target : Nat)
    (relation : cpufreq_relation) (f : Nat)
    (h : target_frequency table target (relation_rounding relation) = some f) :
    table_lookup k policy table target relation = f := by
  unfold table_lookup
  rw [hk]
  unfold target_frequency at h
  rcases hi : cpufreq_frequency_table_target table target (relation_rounding relation)
    with _ | i
  · rw [hi] at h
    cases h
  · rw [hi] at h
    simp only [List.get?_eq_getElem?] at h
    simp only [Option.getD_some]
    rw [List.getD_eq_getElem?_getD, h]
    rfl

/-- Both lookups of a value that is in a non-empty ascending table return it. -/
theorem target_frequency_member (table : List Nat) (t : Nat) (hne : table ≠ [])
    (hasc : List.Sorted (· ≤ ·) table) (ht : t ∈ table) :
    target_frequency table t round_relation.ROUND_UP = some t ∧
    target_frequency table t round_relation.ROUND_DOWN = some t := by
  obtain ⟨f, hf, _, hup, _⟩ := target_frequency_round_up table t hne hasc
  obtain ⟨g, hg, _, hdown, _⟩ := target_frequency_round_down table t hne hasc
  obtain ⟨h1, h2⟩ := hup ⟨t, ht, Nat.le_refl t⟩
  obtain ⟨h3, h4⟩ := hdown ⟨t, ht, Nat.le_refl t⟩
  rw [hf, hg, Nat.le_antisymm (h2 t ht (Nat.le_refl t)) h1,
    Nat.le_antisymm h3 (h4 t ht (Nat.le_refl t))]
  exact ⟨rfl, rfl⟩

/-- With the Target Selector of the spec, every lookup in a non-empty
ascending table reads an entry of the table. -/
theorem table_lookup_mem (k : kernel_env) (hk : uses_target_selector k)
    (policy : cpufreq_policy) (table : List Nat) (target : Nat)
    (relation : cpufreq_relation) (hne : table ≠ []) (hasc : List.Sorted (· ≤ ·) table) :
    table_lookup k policy table target relation ∈ table := by
  cases relation with
  | CPUFREQ_RELATION_L =>
    obtain ⟨f, hf, hmem, _⟩ := target_frequency_round_up table target hne hasc
    rw [table_lookup_selector k hk policy table target
      cpufreq_relation.CPUFREQ_RELATION_L f hf]
    exact hmem
  | CPUFREQ_RELATION_H =>
    obtain ⟨f, hf, hmem, _⟩ := target_frequency_round_down table target hne hasc
    rw [table_lookup_selector k hk policy table target
      cpufreq_relation.CPUFREQ_RELATION_H f hf]
    exact hmem

/-- For a bias between 0 and 1000, the reduction `freq_reduc` is at most
`freq_req`, also when the 32-bit product wraps; so `freq_avg = freq_req -
freq_reduc` does not wrap, and it is `freq_req - freq_req * powersave_bias / 1000`
when the product does not overflow. -/
theorem psb_freq_avg_le (t : od_dbs_tuners) (freq_req : Nat) (h32 : freq_req < U32_MOD)
    (hbias : 0 ≤ t.powersave_bias ∧ t.powersave_bias ≤ 1000) :
    psb_freq_avg t freq_req ≤ freq_req ∧
    psb_freq_avg t freq_req = freq_req - psb_freq_reduc t freq_req ∧
    (freq_req * t.powersave_bias.toNat < U32_MOD →
      psb_freq_avg t freq_req = freq_req - freq_req * t.powersave_bias.toNat / 1000) := by
  obtain ⟨b, hb⟩ := Int.eq_ofNat_of_zero_le hbias.1
  have hb1000 : b ≤ 1000 := by
    have := hbias.2
    rw [hb] at this
    exact_mod_cast this
  have hconv : int_to_u32 t.powersave_bias = b := by
    unfold int_to_u32 U32_MOD
    rw [hb]
    omega
  have htoNat : t.powersave_bias.toNat = b := by
    rw [hb]
    rfl
  have hmul : freq_req * b ≤ freq_req * 1000 := Nat.mul_le_mul_left _ hb1000
  have hred : psb_freq_reduc t freq_req ≤ freq_req := by
    unfold psb_freq_reduc umul u32 U32_MOD
    rw [hconv]
    generalize freq_req * b = p at hmul
    omega
  have havg : psb_freq_avg t freq_req = freq_req - psb_freq_reduc t freq_req := by
    unfold psb_freq_avg
    exact usub_of_le _ _ h32 hred
  refine ⟨by rw [havg]; exact Nat.sub_le _ _, havg, ?_⟩
  intro hno
  rw [havg, htoNat]
  rw [htoNat] at hno
  unfold psb_freq_reduc umul u32
  rw [hconv, Nat.mod_eq_of_lt hno]

/-- With the Target Selector of the spec on a non-empty ascending table, the
two bounds computed by `powersave_bias_target` for a value that has an entry
at or below it and an entry at or above it bracket that value, and are the
largest entry at or below it and the smallest entry at or above it. -/
theorem psb_bounds_bracket (k : kernel_env) (hk : uses_target_selector k)
    (policy : cpufreq_policy) (table : List Nat) (freq_avg : Nat)
    (hne : table ≠ []) (hasc : List.Sorted (· ≤ ·) table)
    (hbelow : ∃ g ∈ table, g ≤ freq_avg) (habove : ∃ g ∈ table, freq_avg ≤ g) :
    psb_freq_lo k policy table freq_avg ∈ table ∧
    psb_freq_hi k policy table freq_avg ∈ table ∧
    psb_freq_lo k policy table freq_avg ≤ freq_avg ∧
    freq_avg ≤ psb_freq_hi k policy table freq_avg ∧
    (∀ g ∈ table, g ≤ freq_avg → g ≤ psb_freq_lo k policy table freq_avg) ∧
    (∀ g ∈ table, freq_avg ≤ g → psb_freq_hi k policy table freq_avg ≤ g) := by
  obtain ⟨f, hf, hfm, hup, _⟩ := target_frequency_round_up table freq_avg hne hasc
  obtain ⟨g, hg, hgm, hdown, _⟩ := target_frequency_round_down table freq_avg hne hasc
  have hlo : psb_freq_lo k policy table freq_avg = g :=
    table_lookup_selector k hk policy table freq_avg cpufreq_relation.CPUFREQ_RELATION_H g hg
  have hhi : psb_freq_hi k policy table freq_avg = f :=
    table_lookup_selector k hk policy table freq_avg cpufreq_relation.CPUFREQ_RELATION_L f hf
  rw [hlo, hhi]
  exact ⟨hgm, hfm, (hdown hbelow).1, (hup habove).1, (hdown hbelow).2, (hup habove).2⟩

/-- C16: `powersave_bias_target` brackets the average. With the Target Selector
of the spec, a non-empty ascending table of 32-bit entries and `powersave_bias`
in 0..1000, let `freq_req` be the entry resolved for `freq_next`, `freq_avg` the
value the code computes from it (which is `freq_req - freq_req * powersave_bias
/ 1000` whenever that 32-bit product does not overflow, and is at most
`freq_req` in any case), and `freq_lo`, `freq_hi` the two bounds it looks up. If
the minimum of the table is at most `freq_avg`, then `freq_lo <= freq_avg <=
freq_hi`, `freq_lo` is the largest entry at or below `freq_avg`, `freq_hi` the
smallest entry at or above it, no entry lies strictly between them, and both
equal `freq_avg` when it is itself an entry. -/
theorem powersave_bias_target_brackets (k : kernel_env) (t : od_dbs_tuners)
    (policy : cpufreq_policy) (table : List Nat) (freq_next : Nat)
    (relation : cpufreq_relation) (freq_req freq_avg freq_lo freq_hi : Nat)
    (hk : uses_target_selector k)
    (hne : table ≠ []) (hasc : List.Sorted (· ≤ ·) table)
    (hwf : ∀ f ∈ table, f < U32_MOD)
    (hbias : 0 ≤ t.powersave_bias ∧ t.powersave_bias ≤ 1000)
    (hreq : freq_req = psb_freq_req k policy table freq_next relation)
    (havg : freq_avg = psb_freq_avg t freq_req)
    (hlo : freq_lo = psb_freq_lo k policy table freq_avg)
    (hhi : freq_hi = psb_freq_hi k policy table freq_avg)
    (hmin : table_min table ≤ freq_avg) :
    (freq_req ∈ table ∧ freq_avg ≤ freq_req ∧
      (freq_req * t.powersave_bias.toNat < U32_MOD →
        freq_avg = freq_req - freq_req * t.powersave_bias.toNat / 1000)) ∧
    (freq_lo ≤ freq_avg ∧ freq_avg ≤ freq_hi) ∧
    (freq_lo ∈ table ∧ ∀ g ∈ table, g ≤ freq_avg → g ≤ freq_lo) ∧
    (freq_hi ∈ table ∧ ∀ g ∈ table, freq_avg ≤ g → freq_hi ≤ g) ∧
    (∀ g ∈ table, ¬ (freq_lo < g ∧ g < freq_hi)) ∧
    (freq_avg ∈ table → freq_lo = freq_avg ∧ freq_hi = freq_avg) := by
  have hreqmem : freq_req ∈ table := by
    rw [hreq]
    exact table_lookup_mem k hk policy table freq_next relation hne hasc
  obtain ⟨h1, _, h3⟩ := psb_freq_avg_le t freq_req (hwf _ hreqmem) hbias
  rw [← havg] at h1 h3
  obtain ⟨b1, b2, b3, b4, b5, b6⟩ := psb_bounds_bracket k hk policy table freq_avg hne hasc
    ⟨table_min table, (table_min_spec table hne).1, hmin⟩ ⟨freq_req, hreqmem, h1⟩
  rw [← hlo] at b1 b3 b5
  rw [← hhi] at b2 b4 b6
  refine ⟨⟨hreqmem, h1, h3⟩, ⟨b3, b4⟩, ⟨b1, b5⟩, ⟨b2, b6⟩, ?_, ?_⟩
  · intro g hg hbetween
    rcases Nat.le_total g freq_avg with h | h
    · exact absurd (b5 g hg h) (Nat.not_le.mpr hbetween.1)
    · exact absurd (b6 g hg h) (Nat.not_le.mpr hbetween.2)
  · intro hmem
    exact ⟨Nat.le_antisymm b3 (b5 _ hmem (Nat.le_refl _)),
      Nat.le_antisymm (b6 _ hmem (Nat.le_refl _)) b4⟩

/-- Witness of C16: bias 100 on the table 200..800 with a request for 800:
`freq_req` is 800, `freq_avg` 720, `freq_lo` 600 and `freq_hi` 800. -/
theorem powersave_bias_target_brackets_witness :
    (table_min table_200_800 ≤ 720 ∧ (0 : Int) ≤ tuners_bias_100.powersave_bias ∧
      tuners_bias_100.powersave_bias ≤ 1000) ∧
    ((800 ∈ table_200_800 ∧ 720 ≤ 800 ∧
      (800 * tuners_bias_100.powersave_bias.toNat < U32_MOD →
        720 = 800 - 800 * tuners_bias_100.powersave_bias.toNat / 1000)) ∧
    (600 ≤ 720 ∧ 720 ≤ 800) ∧
    (600 ∈ table_200_800 ∧ ∀ g ∈ table_200_800, g ≤ 720 → g ≤ 600) ∧
    (800 ∈ table_200_800 ∧ ∀ g ∈ table_200_800, 720 ≤ g → 800 ≤ g) ∧
    (∀ g ∈ table_200_800, ¬ (600 < g ∧ g < 800)) ∧
    (720 ∈ table_200_800 → 600 = 720 ∧ 800 = 720)) :=
  ⟨by decide,
   powersave_bias_target_brackets (spec_env table_200_800) tuners_bias_100
     ⟨0, 400, 200, 800⟩ table_200_800 800 cpufreq_relation.CPUFREQ_RELATION_H
     800 720 600 800 (fun _ _ _ _ => rfl) (by decide) (by decide) (by decide) (by decide)
     (by decide) (by decide) (by decide) (by decide) (by decide)⟩

/-- C17: `powersave_bias_target` without sub-sampling. Whenever the two bounds
coincide, the function returns that frequency and leaves `freq_lo = 0` and
`freq_lo_jiffies = 0` in the record of `policy->cpu`. With the Target Selector of
the spec on a non-empty ascending table of 32-bit entries this is the case
whenever `freq_avg` is an entry of the table (the frequency returned is then
`freq_avg`), in particular when `powersave_bias = 0` (it is then `freq_req`). -/
theorem powersave_bias_target_no_sub_sampling (k : kernel_env) (s : gov_state)
    (policy : cpufreq_policy) (freq_next : Nat) (relation : cpufreq_relation)
    (table : List Nat) (freq_req freq_avg freq_lo freq_hi : Nat)
    (htable : (per_cpu s policy.cpu).freq_table = some table)
    (hreq : freq_req = psb_freq_req k policy table freq_next relation)
    (havg : freq_avg = psb_freq_avg s.od_tuners freq_req)
    (hlo : freq_lo = psb_freq_lo k policy table freq_avg)
    (hhi : freq_hi = psb_freq_hi k policy table freq_avg) :
    (freq_hi = freq_lo →
      (powersave_bias_target k s policy freq_next relation).1 = freq_lo ∧
      (per_cpu (powersave_bias_target k s policy freq_next relation).2 policy.cpu).freq_lo = 0 ∧
      (per_cpu (powersave_bias_target k s policy freq_next relation).2
        policy.cpu).freq_lo_jiffies = 0) ∧
    (uses_target_selector k → table ≠ [] → List.Sorted (· ≤ ·) table →
      (∀ f ∈ table, f < U32_MOD) →
      (freq_avg ∈ table → freq_hi = freq_lo ∧ freq_lo = freq_avg) ∧
      (s.od_tuners.powersave_bias = 0 →
        freq_avg = freq_req ∧ freq_hi = freq_lo ∧ freq_lo = freq_req)) := by
  subst hreq havg hlo hhi
  have hpart : ∀ avg, uses_target_selector k → table ≠ [] → List.Sorted (· ≤ ·) table →
      avg ∈ table →
      psb_freq_hi k policy table avg = psb_freq_lo k policy table avg ∧
        psb_freq_lo k policy table avg = avg := by
    intro avg hk hne hasc hmem
    obtain ⟨hu, hd⟩ := target_frequency_member table avg hne hasc hmem
    have e1 : psb_freq_lo k policy table avg = avg :=
      table_lookup_selector k hk policy table avg cpufreq_relation.CPUFREQ_RELATION_H avg hd
    have e2 : psb_freq_hi k policy table avg = avg :=
      table_lookup_selector k hk policy table avg cpufreq_relation.CPUFREQ_RELATION_L avg hu
    rw [e1, e2]
    exact ⟨rfl, rfl⟩
  refine ⟨?_, ?_⟩
  · intro heq
    simp only [powersave_bias_target, htable, heq, if_true, per_cpu_set_per_cpu_same]
    exact ⟨trivial, trivial, trivial⟩
  · intro hk hne hasc hwf
    refine ⟨hpart _ hk hne hasc, ?_⟩
    intro hb
    have hreqmem : psb_freq_req k policy table freq_next relation ∈ table :=
      table_lookup_mem k hk policy table freq_next relation hne hasc
    have h0 : psb_freq_avg s.od_tuners (psb_freq_req k policy table freq_next relation) =
        psb_freq_req k policy table freq_next relation := by
      have h32 := hwf _ hreqmem
      unfold psb_freq_avg psb_freq_reduc umul int_to_u32 usub u32 U32_MOD at *
      rw [hb]
      simp only [Int.zero_emod, Int.toNat_zero, Nat.mul_zero, Nat.zero_mod, Nat.zero_div]
      omega
    rw [h0]
    obtain ⟨e1, e2⟩ := hpart _ hk hne hasc hreqmem
    exact ⟨rfl, e1, e2⟩

/-- Witness of C17: bias 250 on the table 200..800 with a request for 800:
`freq_avg` is 600, an entry of the table: the function returns 600 and clears
`freq_lo` (600 before) and `freq_lo_jiffies`. -/
theorem powersave_bias_target_no_sub_sampling_witness :
    (powersave_bias_target (spec_env table_200_800)
      (set_per_cpu (example_state { tuners_bias_100 with powersave_bias := 250 } [0]
          ⟨0, 400, 200, 800⟩ 1 0) 0
        { per_cpu (example_state { tuners_bias_100 with powersave_bias := 250 } [0]
            ⟨0, 400, 200, 800⟩ 1 0) 0 with freq_lo := 600, freq_lo_jiffies := 2 })
      ⟨0, 400, 200, 800⟩ 800 cpufreq_relation.CPUFREQ_RELATION_H).1 = 600 ∧
    (per_cpu (powersave_bias_target (spec_env table_200_800)
      (set_per_cpu (example_state { tuners_bias_100 with powersave_bias := 250 } [0]
          ⟨0, 400, 200, 800⟩ 1 0) 0
        { per_cpu (example_state { tuners_bias_100 with powersave_bias := 250 } [0]
            ⟨0, 400, 200, 800⟩ 1 0) 0 with freq_lo := 600, freq_lo_jiffies := 2 })
      ⟨0, 400, 200, 800⟩ 800 cpufreq_relation.CPUFREQ_RELATION_H).2 0).freq_lo = 0 ∧
    (per_cpu (powersave_bias_target (spec_env table_200_800)
      (set_per_cpu (example_state { tuners_bias_100 with powersave_bias := 250 } [0]
          ⟨0, 400, 200, 800⟩ 1 0) 0
        { per_cpu (example_state { tuners_bias_100 with powersave_bias := 250 } [0]
            ⟨0, 400, 200, 800⟩ 1 0) 0 with freq_lo := 600, freq_lo_jiffies := 2 })
      ⟨0, 400, 200, 800⟩ 800 cpufreq_relation.CPUFREQ_RELATION_H).2 0).freq_lo_jiffies = 0 :=
  (powersave_bias_target_no_sub_sampling (spec_env table_200_800)
    (set_per_cpu (example_state { tuners_bias_100 with powersave_bias := 250 } [0]
        ⟨0, 400, 200, 800⟩ 1 0) 0
      { per_cpu (example_state { tuners_bias_100 with powersave_bias := 250 } [0]
          ⟨0, 400, 200, 800⟩ 1 0) 0 with freq_lo := 600, freq_lo_jiffies := 2 })
    ⟨0, 400, 200, 800⟩ 800 cpufreq_relation.CPUFREQ_RELATION_H table_200_800
    800 600 600 600 rfl (by decide) (by decide) (by decide) (by decide)).1 rfl

/-- Rounding to nearest: the quotient of `x + d / 2` by `d`, multiplied back by
`d`, differs from `x` by at most half of `d`. -/
theorem round_div_error (x d : Nat) (hd : 0 < d) :
    2 * |((((x + d / 2) / d * d : Nat) : Int)) - (x : Int)| ≤ (d : Int) := by
  have h1 := Nat.div_add_mod (x + d / 2) d
  have h2 := Nat.mod_lt (x + d / 2) hd
  have h3 : (x + d / 2) / d * d = d * ((x + d / 2) / d) := Nat.mul_comm _ _
  rw [h3]
  generalize d * ((x + d / 2) / d) = P at h1
  generalize (x + d / 2) % d = r at h1 h2
  have hle : -(d : Int) ≤ 2 * ((P : Int) - x) ∧ 2 * ((P : Int) - x) ≤ d := by omega
  rcases abs_cases ((P : Int) - x) with ⟨h, _⟩ | ⟨h, _⟩
  · rw [h]
    exact hle.2
  · rw [h]
    omega

/-- Without 32-bit overflow and with `freq_lo <= freq_avg <= freq_hi`,
`freq_lo < freq_hi`, the `jiffies_hi` of `powersave_bias_target` is the quotient
of the natural numbers. -/
theorem psb_jiffies_hi_exact (freq_avg freq_lo freq_hi jiffies_total : Nat)
    (hlo : freq_lo ≤ freq_avg) (hhi : freq_avg ≤ freq_hi) (h32 : freq_hi < U32_MOD)
    (hno : (freq_avg - freq_lo) * jiffies_total + (freq_hi - freq_lo) / 2 < U32_MOD) :
    psb_jiffies_hi freq_avg freq_lo freq_hi jiffies_total =
      ((freq_avg - freq_lo) * jiffies_total + (freq_hi - freq_lo) / 2) / (freq_hi - freq_lo) := by
  have h1 : usub freq_avg freq_lo = freq_avg - freq_lo :=
    usub_of_le _ _ (Nat.lt_of_le_of_lt hhi h32) hlo
  have h2 : usub freq_hi freq_lo = freq_hi - freq_lo :=
    usub_of_le _ _ h32 (Nat.le_trans hlo hhi)
  unfold psb_jiffies_hi
  rw [h1, h2]
  have h3 : umul (freq_avg - freq_lo) jiffies_total = (freq_avg - freq_lo) * jiffies_total := by
    unfold umul u32
    exact Nat.mod_eq_of_lt (Nat.lt_of_le_of_lt (Nat.le_add_right _ _) hno)
  rw [h3]
  unfold uadd u32
  rw [Nat.mod_eq_of_lt hno]

/-- What `powersave_bias_target` returns and stores when the two bounds
differ: it returns `freq_hi` and stores `freq_lo`, `jiffies_hi` and `jiffies_lo`
as the 32-bit code computes them. -/
theorem powersave_bias_target_stored (k : kernel_env) (s : gov_state)
    (policy : cpufreq_policy) (freq_next : Nat) (relation : cpufreq_relation)
    (table : List Nat) (freq_req freq_avg freq_lo freq_hi jiffies_total : Nat)
    (htable : (per_cpu s policy.cpu).freq_table = some table)
    (hreq : freq_req = psb_freq_req k policy table freq_next relation)
    (havg : freq_avg = psb_freq_avg s.od_tuners freq_req)
    (hlo : freq_lo = psb_freq_lo k policy table freq_avg)
    (hhi : freq_hi = psb_freq_hi k policy table freq_avg)
    (hT : jiffies_total = psb_jiffies_total k s.od_tuners)
    (hne : freq_hi ≠ freq_lo) :
    (powersave_bias_target k s policy freq_next relation).1 = freq_hi ∧
    (per_cpu (powersave_bias_target k s policy freq_next relation).2 policy.cpu).freq_lo
      = freq_lo ∧
    (per_cpu (powersave_bias_target k s policy freq_next relation).2
      policy.cpu).freq_hi_jiffies = psb_jiffies_hi freq_avg freq_lo freq_hi jiffies_total ∧
    (per_cpu (powersave_bias_target k s policy freq_next relation).2
      policy.cpu).freq_lo_jiffies =
      usub jiffies_total (psb_jiffies_hi freq_avg freq_lo freq_hi jiffies_total) ∧
    jiffies_total < U32_MOD := by
  subst hreq havg hlo hhi hT
  simp only [powersave_bias_target, htable, hne, if_false, per_cpu_set_per_cpu_same]
  exact ⟨trivial, trivial, trivial, trivial, Nat.mod_lt _ (by decide)⟩

/-- The time-weighted sum of the two frequencies differs from the requested
one by what the rounding of `jiffies_hi` leaves. -/
theorem weighted_average_error (lo a d q jl x : Nat) (hx : x = a * (q + jl))
    (hq : 2 * |((q * d : Nat) : Int) - (x : Int)| ≤ (d : Int)) :
    2 * |(q : Int) * ((lo + d : Nat) : Int) + (jl : Int) * (lo : Int) -
        ((lo + a : Nat) : Int) * ((q + jl : Nat) : Int)| ≤ ((lo + d : Nat) : Int) - (lo : Int) := by
  have e : (q : Int) * ((lo + d : Nat) : Int) + (jl : Int) * (lo : Int) -
      ((lo + a : Nat) : Int) * ((q + jl : Nat) : Int) = ((q * d : Nat) : Int) - (x : Int) := by
    subst hx
    push_cast
    ring
  have e2 : ((lo + d : Nat) : Int) - (lo : Int) = (d : Int) := by
    push_cast
    ring
  rw [e, e2]
  exact hq

/-- C18, as stated, fails: on the table 1000000, 1200000 with a bias of 20 and
a sampling rate of 244030000 us (24403 jiffies), a request for 1200000 has
`freq_avg` 1176000 between `freq_lo` 1000000 and `freq_hi` 1200000; the formula
gives floor ((176000 * 24403 + 100000) / 200000) = 21475, but the 32-bit sum
wraps and the function stores `freq_hi_jiffies` 0 and `freq_lo_jiffies` 24403. -/
theorem powersave_bias_target_sub_sampling_counterexample :
    psb_freq_avg (two_step_state 244030000).od_tuners 1200000 = 1176000 ∧
    psb_freq_lo (spec_env table_1000_1200) ⟨0, 1000000, 1000000, 1200000⟩ table_1000_1200
      1176000 = 1000000 ∧
    psb_freq_hi (spec_env table_1000_1200) ⟨0, 1000000, 1000000, 1200000⟩ table_1000_1200
      1176000 = 1200000 ∧
    psb_jiffies_total (spec_env table_1000_1200) (two_step_state 244030000).od_tuners = 24403 ∧
    ((1176000 - 1000000) * 24403 + (1200000 - 1000000) / 2) / (1200000 - 1000000) = 21475 ∧
    (per_cpu (powersave_bias_target (spec_env table_1000_1200) (two_step_state 244030000)
      ⟨0, 1000000, 1000000, 1200000⟩ 1200000 cpufreq_relation.CPUFREQ_RELATION_H).2
      0).freq_hi_jiffies = 0 ∧
    (per_cpu (powersave_bias_target (spec_env table_1000_1200) (two_step_state 244030000)
      ⟨0, 1000000, 1000000, 1200000⟩ 1200000 cpufreq_relation.CPUFREQ_RELATION_H).2
      0).freq_lo_jiffies = 24403 := by
  refine ⟨by decide, by decide, by decide, by decide, by decide, by decide, by decide⟩

/-- C18, amended: the sub-sampling case of `powersave_bias_target`. Whenever
`freq_hi != freq_lo`, the function returns `freq_hi` and stores `freq_lo`; when
moreover `freq_lo <= freq_avg <= freq_hi` and `(freq_avg - freq_lo) *
jiffies_total + floor ((freq_hi - freq_lo) / 2)` does not overflow 32 bits, it
stores `freq_hi_jiffies = floor (((freq_avg - freq_lo) * jiffies_total + floor
((freq_hi - freq_lo) / 2)) / (freq_hi - freq_lo))`, which is `(freq_avg -
freq_lo) * jiffies_total / (freq_hi - freq_lo)` rounded to the nearest integer,
and `freq_lo_jiffies = jiffies_total - freq_hi_jiffies`, a difference that does
not wrap. -/
theorem powersave_bias_target_sub_sampling (k : kernel_env) (s : gov_state)
    (policy : cpufreq_policy) (freq_next : Nat) (relation : cpufreq_relation)
    (table : List Nat) (freq_req freq_avg freq_lo freq_hi jiffies_total : Nat)
    (htable : (per_cpu s policy.cpu).freq_table = some table)
    (hreq : freq_req = psb_freq_req k policy table freq_next relation)
    (havg : freq_avg = psb_freq_avg s.od_tuners freq_req)
    (hlo : freq_lo = psb_freq_lo k policy table freq_avg)
    (hhi : freq_hi = psb_freq_hi k policy table freq_avg)
    (hT : jiffies_total = psb_jiffies_total k s.od_tuners)
    (hne : freq_hi ≠ freq_lo) :
    (powersave_bias_target k s policy freq_next relation).1 = freq_hi ∧
    (per_cpu (powersave_bias_target k s policy freq_next relation).2 policy.cpu).freq_lo
      = freq_lo ∧
    (freq_lo ≤ freq_avg → freq_avg ≤ freq_hi → freq_hi < U32_MOD →
      (freq_avg - freq_lo) * jiffies_total + (freq_hi - freq_lo) / 2 < U32_MOD →
      (per_cpu (powersave_bias_target k s policy freq_next relation).2
          policy.cpu).freq_hi_jiffies =
        ((freq_avg - freq_lo) * jiffies_total + (freq_hi - freq_lo) / 2) /
          (freq_hi - freq_lo) ∧
      2 * |(((per_cpu (powersave_bias_target k s policy freq_next relation).2
          policy.cpu).freq_hi_jiffies * (freq_hi - freq_lo) : Nat) : Int) -
          (((freq_avg - freq_lo) * jiffies_total : Nat) : Int)| ≤ ((freq_hi - freq_lo : Nat) : Int) ∧
      (per_cpu (powersave_bias_target k s policy freq_next relation).2
          policy.cpu).freq_hi_jiffies ≤ jiffies_total ∧
      (per_cpu (powersave_bias_target k s policy freq_next relation).2
          policy.cpu).freq_lo_jiffies =
        jiffies_total -
          (per_cpu (powersave_bias_target k s policy freq_next relation).2
            policy.cpu).freq_hi_jiffies) := by
  obtain ⟨r1, r2, r3, r4, hT32⟩ := powersave_bias_target_stored k s policy freq_next relation
    table freq_req freq_avg freq_lo freq_hi jiffies_total htable hreq havg hlo hhi hT hne
  refine ⟨r1, r2, ?_⟩
  intro hlo' hhi' h32 hno
  have hex := psb_jiffies_hi_exact _ _ _ _ hlo' hhi' h32 hno
  have hle := psb_jiffies_hi_le _ _ _ jiffies_total hlo' hhi' hne h32
  have hd : 0 < freq_hi - freq_lo := by omega
  rw [r3, r4]
  refine ⟨hex, ?_, hle, usub_of_le _ _ hT32 hle⟩
  rw [hex]
  exact round_div_error _ _ hd

/-- Witness of the amended C18: bias 100 on the table 200..800 with a request
for 800 and 5 jiffies per sample: `freq_avg` 720 lies between 600 and 800, the
function returns 800 and stores `freq_lo` 600, `freq_hi_jiffies`
(120 * 5 + 100) / 200 = 3 and `freq_lo_jiffies` 2. -/
theorem powersave_bias_target_sub_sampling_witness :
    ((800 : Nat) ≠ 600 ∧ 600 ≤ 720 ∧ 720 ≤ 800 ∧ (720 - 600) * 5 + (800 - 600) / 2 < U32_MOD) ∧
    (powersave_bias_target (spec_env table_200_800)
      (example_state tuners_bias_100 [0] ⟨0, 400, 200, 800⟩ 1 0) ⟨0, 400, 200, 800⟩ 800
      cpufreq_relation.CPUFREQ_RELATION_H).1 = 800 ∧
    (per_cpu (powersave_bias_target (spec_env table_200_800)
      (example_state tuners_bias_100 [0] ⟨0, 400, 200, 800⟩ 1 0) ⟨0, 400, 200, 800⟩ 800
      cpufreq_relation.CPUFREQ_RELATION_H).2 0).freq_lo = 600 ∧
    (per_cpu (powersave_bias_target (spec_env table_200_800)
      (example_state tuners_bias_100 [0] ⟨0, 400, 200, 800⟩ 1 0) ⟨0, 400, 200, 800⟩ 800
      cpufreq_relation.CPUFREQ_RELATION_H).2 0).freq_hi_jiffies = 3 ∧
    (per_cpu (powersave_bias_target (spec_env table_200_800)
      (example_state tuners_bias_100 [0] ⟨0, 400, 200, 800⟩ 1 0) ⟨0, 400, 200, 800⟩ 800
      cpufreq_relation.CPUFREQ_RELATION_H).2 0).freq_lo_jiffies = 2 :=
  ⟨by decide,
   (powersave_bias_target_sub_sampling (spec_env table_200_800)
      (example_state tuners_bias_100 [0] ⟨0, 400, 200, 800⟩ 1 0) ⟨0, 400, 200, 800⟩ 800
      cpufreq_relation.CPUFREQ_RELATION_H table_200_800 800 720 600 800 5
      rfl (by decide) (by decide) (by decide) (by decide) (by decide) (by decide)).1,
   (powersave_bias_target_sub_sampling (spec_env table_200_800)
      (example_state tuners_bias_100 [0] ⟨0, 400, 200, 800⟩ 1 0) ⟨0, 400, 200, 800⟩ 800
      cpufreq_relation.CPUFREQ_RELATION_H table_200_800 800 720 600 800 5
      rfl (by decide) (by decide) (by decide) (by decide) (by decide) (by decide)).2.1,
   ((powersave_bias_target_sub_sampling (spec_env table_200_800)
      (example_state tuners_bias_100 [0] ⟨0, 400, 200, 800⟩ 1 0) ⟨0, 400, 200, 800⟩ 800
      cpufreq_relation.CPUFREQ_RELATION_H table_200_800 800 720 600 800 5
      rfl (by decide) (by decide) (by decide) (by decide) (by decide) (by decide)).2.2
      (by decide) (by decide) (by decide) (by decide)).1,
   rfl⟩

/-- C19, as stated, fails: on the table 1000000, 1200000 with a bias of 20 and
24403 jiffies per sample, `freq_lo` 1000000 <= `freq_avg` 1176000 <= `freq_hi`
1200000 and the product 176000 * 24403 = 4294928000 does not overflow 32 bits,
but adding 100000 to it does: the function stores `freq_hi_jiffies` 0 and
`freq_lo_jiffies` 24403, and twice the error of the weighted sum, 8589856000,
exceeds the table step 200000. -/
theorem powersave_bias_target_average_counterexample :
    ((1000000 : Nat) ≤ 1176000 ∧ (1176000 : Nat) ≤ 1200000 ∧ (1000000 : Nat) < 1200000 ∧
      (1176000 - 1000000) * 24403 < U32_MOD) ∧
    psb_freq_avg (two_step_state 244030000).od_tuners
      (psb_freq_req (spec_env table_1000_1200) ⟨0, 1000000, 1000000, 1200000⟩
        table_1000_1200 1200000 cpufreq_relation.CPUFREQ_RELATION_H) = 1176000 ∧
    psb_freq_lo (spec_env table_1000_1200) ⟨0, 1000000, 1000000, 1200000⟩ table_1000_1200
      1176000 = 1000000 ∧
    psb_freq_hi (spec_env table_1000_1200) ⟨0, 1000000, 1000000, 1200000⟩ table_1000_1200
      1176000 = 1200000 ∧
    psb_jiffies_total (spec_env table_1000_1200) (two_step_state 244030000).od_tuners = 24403 ∧
    ¬ (2 * |((per_cpu (powersave_bias_target (spec_env table_1000_1200)
          (two_step_state 244030000) ⟨0, 1000000, 1000000, 1200000⟩ 1200000
          cpufreq_relation.CPUFREQ_RELATION_H).2 0).freq_hi_jiffies : Int) * 1200000 +
        ((per_cpu (powersave_bias_target (spec_env table_1000_1200)
          (two_step_state 244030000) ⟨0, 1000000, 1000000, 1200000⟩ 1200000
          cpufreq_relation.CPUFREQ_RELATION_H).2 0).freq_lo_jiffies : Int) * 1000000 -
        1176000 * 24403| ≤ (1200000 : Int) - 1000000) := by
  have h1 : (per_cpu (powersave_bias_target (spec_env table_1000_1200)
      (two_step_state 244030000) ⟨0, 1000000, 1000000, 1200000⟩ 1200000
      cpufreq_relation.CPUFREQ_RELATION_H).2 0).freq_hi_jiffies = 0 := by decide
  have h2 : (per_cpu (powersave_bias_target (spec_env table_1000_1200)
      (two_step_state 244030000) ⟨0, 1000000, 1000000, 1200000⟩ 1200000
      cpufreq_relation.CPUFREQ_RELATION_H).2 0).freq_lo_jiffies = 24403 := by decide
  refine ⟨by decide, by decide, by decide, by decide, by decide, ?_⟩
  rw [h1, h2]
  norm_num

/-- C19, amended: `powersave_bias_target` yields the requested time-weighted
average. For every call with `freq_lo <= freq_avg <= freq_hi`, `freq_lo <
freq_hi` (32-bit entries) and no 32-bit overflow in `(freq_avg - freq_lo) *
jiffies_total + floor ((freq_hi - freq_lo) / 2)`, the stored split satisfies
`2 * |freq_hi_jiffies * freq_hi + freq_lo_jiffies * freq_lo - freq_avg *
jiffies_total| <= freq_hi - freq_lo`. -/
theorem powersave_bias_target_average (k : kernel_env) (s : gov_state)
    (policy : cpufreq_policy) (freq_next : Nat) (relation : cpufreq_relation)
    (table : List Nat) (freq_req freq_avg freq_lo freq_hi jiffies_total : Nat)
    (htable : (per_cpu s policy.cpu).freq_table = some table)
    (hreq : freq_req = psb_freq_req k policy table freq_next relation)
    (havg : freq_avg = psb_freq_avg s.od_tuners freq_req)
    (hlo : freq_lo = psb_freq_lo k policy table freq_avg)
    (hhi : freq_hi = psb_freq_hi k policy table freq_avg)
    (hT : jiffies_total = psb_jiffies_total k s.od_tuners)
    (hle1 : freq_lo ≤ freq_avg) (hle2 : freq_avg ≤ freq_hi) (hlt : freq_lo < freq_hi)
    (h32 : freq_hi < U32_MOD)
    (hno : (freq_avg - freq_lo) * jiffies_total + (freq_hi - freq_lo) / 2 < U32_MOD) :
    2 * |((per_cpu (powersave_bias_target k s policy freq_next relation).2
          policy.cpu).freq_hi_jiffies : Int) * (freq_hi : Int) +
        ((per_cpu (powersave_bias_target k s policy freq_next relation).2
          policy.cpu).freq_lo_jiffies : Int) * (freq_lo : Int) -
        (freq_avg : Int) * (jiffies_total : Int)| ≤ (freq_hi : Int) - (freq_lo : Int) := by
  have hne : freq_hi ≠ freq_lo := Nat.ne_of_gt hlt
  obtain ⟨_, _, r3, r4, hT32⟩ := powersave_bias_target_stored k s policy freq_next relation
    table freq_req freq_avg freq_lo freq_hi jiffies_total htable hreq havg hlo hhi hT hne
  have hex := psb_jiffies_hi_exact _ _ _ _ hle1 hle2 h32 hno
  have hle := psb_jiffies_hi_le _ _ _ jiffies_total hle1 hle2 hne h32
  have hd : 0 < freq_hi - freq_lo := by omega
  have hround := round_div_error ((freq_avg - freq_lo) * jiffies_total) (freq_hi - freq_lo) hd
  rw [r3, r4, usub_of_le _ _ hT32 hle]
  rw [← hex] at hround
  generalize psb_jiffies_hi freq_avg freq_lo freq_hi jiffies_total = q at hle hround
  clear r3 r4 hex hreq havg hlo hhi hT htable
  obtain ⟨jl, rfl⟩ := Nat.exists_eq_add_of_le hle
  obtain ⟨a, rfl⟩ := Nat.exists_eq_add_of_le hle1
  obtain ⟨d, rfl⟩ := Nat.exists_eq_add_of_le (Nat.le_of_lt hlt)
  have e1 : freq_lo + a - freq_lo = a := Nat.add_sub_cancel_left _ _
  have e2 : freq_lo + d - freq_lo = d := Nat.add_sub_cancel_left _ _
  have e3 : q + jl - q = jl := Nat.add_sub_cancel_left _ _
  rw [e1, e2] at hround
  rw [e3]
  exact weighted_average_error freq_lo a d q jl (a * (q + jl)) rfl hround

/-- Witness of the amended C19: bias 100 on the table 200..800 with a request
for 800 and 5 jiffies per sample: 3 jiffies at 800 and 2 at 600 give 3600 against
720 * 5 = 3600. -/
theorem powersave_bias_target_average_witness :
    ((600 : Nat) ≤ 720 ∧ (720 : Nat) ≤ 800 ∧ (600 : Nat) < 800 ∧
      (720 - 600) * 5 + (800 - 600) / 2 < U32_MOD) ∧
    2 * |((per_cpu (powersave_bias_target (spec_env table_200_800)
          (example_state tuners_bias_100 [0] ⟨0, 400, 200, 800⟩ 1 0) ⟨0, 400, 200, 800⟩ 800
          cpufreq_relation.CPUFREQ_RELATION_H).2 0).freq_hi_jiffies : Int) * (800 : Nat) +
        ((per_cpu (powersave_bias_target (spec_env table_200_800)
          (example_state tuners_bias_100 [0] ⟨0, 400, 200, 800⟩ 1 0) ⟨0, 400, 200, 800⟩ 800
          cpufreq_relation.CPUFREQ_RELATION_H).2 0).freq_lo_jiffies : Int) * (600 : Nat) -
        ((720 : Nat) : Int) * ((5 : Nat) : Int)| ≤ ((800 : Nat) : Int) - ((600 : Nat) : Int) :=
  ⟨by decide,
   powersave_bias_target_average (spec_env table_200_800)
     (example_state tuners_bias_100 [0] ⟨0, 400, 200, 800⟩ 1 0) ⟨0, 400, 200, 800⟩ 800
     cpufreq_relation.CPUFREQ_RELATION_H table_200_800 800 720 600 800 5
     rfl (by decide) (by decide) (by decide) (by decide) (by decide)
     (by decide) (by decide) (by decide) (by decide) (by decide)⟩


/-! ## The decision cycle as one equation -/

/-- With a policy attached, `od_check_cpu` returns the state selected by its
tests, taken in the order of the code: the scale-up test, the two multi-core
rules (each of which returns whether or not it raises the frequency), the test
`cur == min`, and the scale-down test. -/
theorem od_check_cpu_eq (k : kernel_env) (s : gov_state) (cpu load_freq : Nat)
    (policy : cpufreq_policy)
    (hpolicy : (per_cpu s cpu).cur_policy = some policy) :
    od_check_cpu k s cpu load_freq = some (
      if load_freq > umul s.od_tuners.up_threshold policy.cur then
        dbs_freq_increase k
          (if policy.cur < policy.max then
             od_rate_mult_set (od_freq_lo_reset s cpu) cpu s.od_tuners.sampling_down_factor
           else od_freq_lo_reset s cpu) policy policy.max
      else if num_online_cpus s > 1 ∧
          max_load_other_cpu s policy > s.od_tuners.up_threshold_any_cpu_load then
        (if policy.cur < s.od_tuners.sync_freq then
           dbs_freq_increase k (od_freq_lo_reset s cpu) policy s.od_tuners.sync_freq
         else od_freq_lo_reset s cpu)
      else if num_online_cpus s > 1 ∧
          load_freq > umul s.od_tuners.up_threshold_multi_core policy.cur then
        (if policy.cur < s.od_tuners.optimal_freq then
           dbs_freq_increase k (od_freq_lo_reset s cpu) policy s.od_tuners.optimal_freq
         else od_freq_lo_reset s cpu)
      else if policy.cur = policy.min then od_freq_lo_reset s cpu
      else if load_freq < umul s.od_tuners.adj_up_threshold policy.cur then
        od_scale_down_path k s (od_freq_lo_reset s cpu) cpu policy load_freq
          (max_load_other_cpu s policy)
      else od_freq_lo_reset s cpu) := by
  unfold od_check_cpu
  split
  · rename_i h
    rw [hpolicy] at h
    cases h
  · rename_i p h
    rw [hpolicy] at h
    injection h with h
    subst h
    dsimp only
    split
    · split
      · rfl
      · rfl
    · split
      · split
        · rfl
        · rfl
      · split
        · split
          · rfl
          · rfl
        · split
          · rfl
          · split
            · unfold od_scale_down_path
              dsimp only
              split
              · rfl
              · rfl
            · rfl

/-- A call of `dbs_freq_increase` adds at most one driver call. -/
theorem dbs_freq_increase_calls (k : kernel_env) (s : gov_state) (p : cpufreq_policy)
    (freq : Nat) :
    (dbs_freq_increase k s p freq).driver_calls = s.driver_calls ∨
    ∃ r, (dbs_freq_increase k s p freq).driver_calls = s.driver_calls ++ [r] := by
  unfold dbs_freq_increase
  split
  · right
    dsimp only
    rw [cpufreq_driver_target_driver_calls, (powersave_bias_target_frame k s p _ _).1]
    exact ⟨_, rfl⟩
  · split
    · left; rfl
    · right
      exact ⟨_, cpufreq_driver_target_driver_calls _ _ _ _⟩

/-- The scale-down block adds exactly one driver call and sets `rate_mult` of
the CPU to 1. -/
theorem od_scale_down_path_calls (k : kernel_env) (s s1 : gov_state) (cpu : Nat)
    (policy : cpufreq_policy) (load_freq mlo : Nat) :
    ∃ r, (od_scale_down_path k s s1 cpu policy load_freq mlo).driver_calls =
      s1.driver_calls ++ [r] := by
  unfold od_scale_down_path
  dsimp only
  split
  · exact ⟨_, by rw [cpufreq_driver_target_driver_calls, set_per_cpu_driver_calls]⟩
  · rw [cpufreq_driver_target_driver_calls, (powersave_bias_target_frame k _ policy _ _).1,
      set_per_cpu_driver_calls]
    exact ⟨_, rfl⟩


/-! ## The load of the other CPUs -/

/-- One pass of the loop over the online CPUs: the CPU of the policy is
skipped; another CPU whose policy is at its maximum while this CPU runs at
`optimal_freq` or above replaces the running value by
`up_threshold_any_cpu_load`; any other CPU raises it to its `max_load`. -/
theorem max_load_other_cpu_step_eq (s : gov_state) (policy : cpufreq_policy) (m j : Nat) :
    max_load_other_cpu_step s policy m j =
      if j = policy.cpu then m
      else if policy_at_max (per_cpu s j) = true ∧ policy.cur ≥ s.od_tuners.optimal_freq then
        s.od_tuners.up_threshold_any_cpu_load
      else max m (per_cpu s j).max_load := by
  have hmax : (if m < (per_cpu s j).max_load then (per_cpu s j).max_load else m) =
      max m (per_cpu s j).max_load := by
    split
    · rename_i h; exact (Nat.max_eq_right (Nat.le_of_lt h)).symm
    · rename_i h; exact (Nat.max_eq_left (Nat.le_of_not_lt h)).symm
  unfold max_load_other_cpu_step policy_at_max
  by_cases hj : j = policy.cpu
  · rw [if_pos hj, if_pos hj]
  · rw [if_neg hj, if_neg hj]
    dsimp only
    rw [hmax]
    rcases hp : (per_cpu s j).cur_policy with _ | pj
    · simp
    · by_cases hc : pj.cur = pj.max
      · by_cases ho : policy.cur ≥ s.od_tuners.optimal_freq
        · simp [hc, ho]
        · simp [hc, ho]
      · simp [hc]

/-- Over CPUs none of which triggers the replacement, the loop computes the
maximum of the running value and the `max_load` of the CPUs other than that of
the policy. -/
theorem max_load_fold_plain (s : gov_state) (policy : cpufreq_policy) (l : List Nat)
    (h : ∀ j ∈ l, j ≠ policy.cpu →
      ¬ (policy_at_max (per_cpu s j) = true ∧ policy.cur ≥ s.od_tuners.optimal_freq)) :
    ∀ m, l.foldl (max_load_other_cpu_step s policy) m =
      ((l.filter (fun j => decide (j ≠ policy.cpu))).map
        (fun j => (per_cpu s j).max_load)).foldl max m := by
  induction l with
  | nil => intro m; rfl
  | cons a l ih =>
    intro m
    have ih2 := ih (fun j hj => h j (List.mem_cons_of_mem a hj))
    rw [List.foldl_cons, ih2, max_load_other_cpu_step_eq]
    by_cases ha : a = policy.cpu
    · rw [if_pos ha, List.filter_cons_of_neg (by simp [ha])]
    · rw [if_neg ha, if_neg (h a (List.mem_cons_self a l) ha),
        List.filter_cons_of_pos (by simp [ha]), List.map_cons, List.foldl_cons]

/-- Where no CPU triggers the replacement, the contribution of the
specification is the published `max_load`. -/
theorem spec_contribution_plain (s : gov_state) (policy : cpufreq_policy) (l : List Nat)
    (h : ∀ j ∈ l, j ≠ policy.cpu →
      ¬ (policy_at_max (per_cpu s j) = true ∧ policy.cur ≥ s.od_tuners.optimal_freq)) :
    (l.filter (fun j => decide (j ≠ policy.cpu))).map (spec_contribution s policy) =
      (l.filter (fun j => decide (j ≠ policy.cpu))).map (fun j => (per_cpu s j).max_load) := by
  apply List.map_congr_left
  intro j hj
  rw [List.mem_filter] at hj
  unfold spec_contribution
  rw [if_neg (h j hj.1 (by simpa using hj.2))]

/-- The maximum of a list of numbers does not depend on their order. -/
theorem foldl_max_perm (l1 l2 : List Nat) (h : List.Perm l1 l2) (m : Nat) :
    l1.foldl max m = l2.foldl max m := by
  apply List.Perm.foldl_eq' h
  intro x _ y _ z
  simp only [max_assoc, max_comm x y]


/-- C21, counterexample. CPU 0 runs at 400 with `optimal_freq` 0; CPU 1
publishes a load of 95 below its maximum frequency, CPU 2 publishes 10 at its
maximum. The contributions are 95 and 80, their maximum is 95, but the loop
visiting 0, 1, 2 leaves 80: CPU 2 replaces the running 95 by
`up_threshold_any_cpu_load`. Visiting 0, 2, 1 instead leaves 95, so the value
depends on the order. -/
theorem max_load_other_cpu_counterexample :
    max_load_other_cpu
      (three_cpu_state od_tuners_init [0, 1, 2] ⟨0, 400, 200, 800⟩ 95 10)
      ⟨0, 400, 200, 800⟩ = 80 ∧
    spec_max_load_other_cpu
      (three_cpu_state od_tuners_init [0, 1, 2] ⟨0, 400, 200, 800⟩ 95 10)
      ⟨0, 400, 200, 800⟩ = 95 ∧
    max_load_other_cpu
      (three_cpu_state od_tuners_init [0, 2, 1] ⟨0, 400, 200, 800⟩ 95 10)
      ⟨0, 400, 200, 800⟩ = 95 := by
  refine ⟨by decide, by decide, by decide⟩

/-- C21, amended. If no other online CPU is at its maximum frequency while
this CPU runs at `optimal_freq` or above, `max_load_other_cpu` is the maximum
of the contributions of the other online CPUs, which is then the maximum of
their published `max_load`. That maximum does not depend on the order of the
online mask. Otherwise the last other CPU at its maximum frequency replaces
the running value: the result is the maximum of `up_threshold_any_cpu_load`
and the `max_load` of the other CPUs visited after it. -/
theorem max_load_other_cpu_value (s : gov_state) (policy : cpufreq_policy) :
    ((∀ j ∈ s.cpu_online_mask, j ≠ policy.cpu →
        ¬ (policy_at_max (per_cpu s j) = true ∧ policy.cur ≥ s.od_tuners.optimal_freq)) →
      max_load_other_cpu s policy = spec_max_load_other_cpu s policy) ∧
    (∀ online : List Nat, List.Perm online s.cpu_online_mask →
      spec_max_load_other_cpu { s with cpu_online_mask := online } policy =
        spec_max_load_other_cpu s policy) ∧
    (∀ (pre : List Nat) (j : Nat) (post : List Nat),
      s.cpu_online_mask = pre ++ j :: post → j ≠ policy.cpu →
      policy_at_max (per_cpu s j) = true → policy.cur ≥ s.od_tuners.optimal_freq →
      (∀ i ∈ post, i ≠ policy.cpu → policy_at_max (per_cpu s i) = false) →
      max_load_other_cpu s policy =
        ((post.filter (fun i => decide (i ≠ policy.cpu))).map
          (fun i => (per_cpu s i).max_load)).foldl max
          s.od_tuners.up_threshold_any_cpu_load) := by
  refine ⟨?_, ?_, ?_⟩
  · intro h
    unfold max_load_other_cpu spec_max_load_other_cpu
    rw [max_load_fold_plain s policy _ h 0, spec_contribution_plain s policy _ h]
  · intro online hperm
    unfold spec_max_load_other_cpu
    exact foldl_max_perm _ _ ((hperm.filter _).map _) 0
  · intro pre j post hmask hj hat hopt hpost
    unfold max_load_other_cpu
    rw [hmask, List.foldl_append, List.foldl_cons, max_load_other_cpu_step_eq, if_neg hj,
      if_pos ⟨hat, hopt⟩]
    apply max_load_fold_plain
    intro i hi hne hcon
    rw [hpost i hi hne] at hcon
    exact Bool.false_ne_true hcon.1

/-- C21, witness. With CPUs 0 and 1 online no other CPU is at its maximum
frequency and the loop gives the maximum of the specification; with the order
0, 2, 1 the value is 95, the maximum of `up_threshold_any_cpu_load` 80 and the
load of CPU 1, which is visited after CPU 2; the maximum of the
specification is the same for the orders 2, 1, 0 and 0, 1, 2. -/
theorem max_load_other_cpu_value_witness :
    max_load_other_cpu
      (three_cpu_state (tuners_sdf_5 0) [0, 1] ⟨0, 400, 200, 800⟩ 95 10)
      ⟨0, 400, 200, 800⟩ =
      spec_max_load_other_cpu
        (three_cpu_state (tuners_sdf_5 0) [0, 1] ⟨0, 400, 200, 800⟩ 95 10)
        ⟨0, 400, 200, 800⟩ ∧
    max_load_other_cpu
      (three_cpu_state (tuners_sdf_5 0) [0, 2, 1] ⟨0, 400, 200, 800⟩ 95 10)
      ⟨0, 400, 200, 800⟩ = 95 ∧
    spec_max_load_other_cpu
      { three_cpu_state (tuners_sdf_5 0) [0, 1, 2] ⟨0, 400, 200, 800⟩ 95 10 with
        cpu_online_mask := [2, 1, 0] } ⟨0, 400, 200, 800⟩ =
      spec_max_load_other_cpu
        (three_cpu_state (tuners_sdf_5 0) [0, 1, 2] ⟨0, 400, 200, 800⟩ 95 10)
        ⟨0, 400, 200, 800⟩ :=
  ⟨(max_load_other_cpu_value
      (three_cpu_state (tuners_sdf_5 0) [0, 1] ⟨0, 400, 200, 800⟩ 95 10)
      ⟨0, 400, 200, 800⟩).1 (by decide),
   (max_load_other_cpu_value
      (three_cpu_state (tuners_sdf_5 0) [0, 2, 1] ⟨0, 400, 200, 800⟩ 95 10)
      ⟨0, 400, 200, 800⟩).2.2 [0] 2 [1] rfl (by decide) (by decide) (by decide) (by decide),
   (max_load_other_cpu_value
      (three_cpu_state (tuners_sdf_5 0) [0, 1, 2] ⟨0, 400, 200, 800⟩ 95 10)
      ⟨0, 400, 200, 800⟩).2.1 [2, 1, 0] (by decide)⟩


/-! ## The multi-core rules and the floor -/

/-- C22, counterexample. Two CPUs online, CPU 1 publishing a load of 90 (above
`up_threshold_any_cpu_load` 80), CPU 0 at 400 with `sync_freq` 300,
`up_threshold_multi_core` 50 and `optimal_freq` 600. With `load_freq` 25000
rule (b) holds (25000 > 50 * 400 and 400 < 600), and with `load_freq` 100 the
scale-down test holds (100 < 70 * 400 and 400 is above the minimum 200), yet
`od_check_cpu` makes no driver call in either case: it returns after the
outer test of rule (a). -/
theorem od_check_cpu_multi_core_counterexample :
    (num_online_cpus (example_state tuners_multi_50 [0, 1] ⟨0, 400, 200, 800⟩ 1 90) > 1 ∧
      25000 ≤ umul tuners_multi_50.up_threshold 400 ∧
      max_load_other_cpu (example_state tuners_multi_50 [0, 1] ⟨0, 400, 200, 800⟩ 1 90)
        ⟨0, 400, 200, 800⟩ > tuners_multi_50.up_threshold_any_cpu_load ∧
      ¬ 400 < tuners_multi_50.sync_freq ∧
      25000 > umul tuners_multi_50.up_threshold_multi_core 400 ∧
      400 < tuners_multi_50.optimal_freq ∧
      100 < umul tuners_multi_50.adj_up_threshold 400) ∧
    (∃ s', od_check_cpu (spec_env table_200_800)
        (example_state tuners_multi_50 [0, 1] ⟨0, 400, 200, 800⟩ 1 90) 0 25000 = some s' ∧
      s'.driver_calls = []) ∧
    (∃ s', od_check_cpu (spec_env table_200_800)
        (example_state tuners_multi_50 [0, 1] ⟨0, 400, 200, 800⟩ 1 90) 0 100 = some s' ∧
      s'.driver_calls = []) :=
  ⟨by decide, ⟨_, rfl, rfl⟩, ⟨_, rfl, rfl⟩⟩

/-- C22, amended. With more than one CPU online and
`load_freq <= up_threshold * cur`: if `max_load_other_cpu` exceeds
`up_threshold_any_cpu_load`, `od_check_cpu` calls `dbs_freq_increase` for
`sync_freq` when `cur < sync_freq` and returns in either case, without looking
at rule (b) or the scale-down test; otherwise, if
`load_freq > up_threshold_multi_core * cur`, it calls `dbs_freq_increase` for
`optimal_freq` when `cur < optimal_freq` and returns in either case; only when
neither outer test holds does it go on to the test `cur == min` and the
scale-down test. -/
theorem od_check_cpu_multi_core (k : kernel_env) (s : gov_state) (cpu load_freq : Nat)
    (policy : cpufreq_policy)
    (hpolicy : (per_cpu s cpu).cur_policy = some policy)
    (honline : num_online_cpus s > 1)
    (hload : load_freq ≤ umul s.od_tuners.up_threshold policy.cur) :
    (max_load_other_cpu s policy > s.od_tuners.up_threshold_any_cpu_load →
      od_check_cpu k s cpu load_freq = some
        (if policy.cur < s.od_tuners.sync_freq then
           dbs_freq_increase k (od_freq_lo_reset s cpu) policy s.od_tuners.sync_freq
         else od_freq_lo_reset s cpu)) ∧
    (max_load_other_cpu s policy ≤ s.od_tuners.up_threshold_any_cpu_load →
      load_freq > umul s.od_tuners.up_threshold_multi_core policy.cur →
      od_check_cpu k s cpu load_freq = some
        (if policy.cur < s.od_tuners.optimal_freq then
           dbs_freq_increase k (od_freq_lo_reset s cpu) policy s.od_tuners.optimal_freq
         else od_freq_lo_reset s cpu)) ∧
    (max_load_other_cpu s policy ≤ s.od_tuners.up_threshold_any_cpu_load →
      load_freq ≤ umul s.od_tuners.up_threshold_multi_core policy.cur →
      od_check_cpu k s cpu load_freq = some
        (if policy.cur = policy.min then od_freq_lo_reset s cpu
         else if load_freq < umul s.od_tuners.adj_up_threshold policy.cur then
           od_scale_down_path k s (od_freq_lo_reset s cpu) cpu policy load_freq
             (max_load_other_cpu s policy)
         else od_freq_lo_reset s cpu)) := by
  have hnup : ¬ load_freq > umul s.od_tuners.up_threshold policy.cur := Nat.not_lt.mpr hload
  rw [od_check_cpu_eq k s cpu load_freq policy hpolicy, if_neg hnup]
  refine ⟨?_, ?_, ?_⟩
  · intro ha
    rw [if_pos ⟨honline, ha⟩]
  · intro ha hb
    rw [if_neg (fun h => absurd h.2 (Nat.not_lt.mpr ha)), if_pos ⟨honline, hb⟩]
  · intro ha hb
    rw [if_neg (fun h => absurd h.2 (Nat.not_lt.mpr ha)),
      if_neg (fun h => absurd h.2 (Nat.not_lt.mpr hb))]

/-- C22, witness. In the state of the counterexample rule (a) has its outer
test true and `cur >= sync_freq`: the cycle returns the state with `freq_lo`
reset and nothing else. -/
theorem od_check_cpu_multi_core_witness :
    od_check_cpu (spec_env table_200_800)
        (example_state tuners_multi_50 [0, 1] ⟨0, 400, 200, 800⟩ 1 90) 0 25000 =
      some
        (if 400 < tuners_multi_50.sync_freq then
           dbs_freq_increase (spec_env table_200_800)
             (od_freq_lo_reset (example_state tuners_multi_50 [0, 1] ⟨0, 400, 200, 800⟩ 1 90) 0)
             ⟨0, 400, 200, 800⟩ tuners_multi_50.sync_freq
         else od_freq_lo_reset (example_state tuners_multi_50 [0, 1] ⟨0, 400, 200, 800⟩ 1 90) 0) :=
  (od_check_cpu_multi_core (spec_env table_200_800)
    (example_state tuners_multi_50 [0, 1] ⟨0, 400, 200, 800⟩ 1 90) 0 25000
    ⟨0, 400, 200, 800⟩ rfl (by decide) (by decide)).1 (by decide)

/-- C23: the floor. In every state in which `cur == min` and no scale-up rule
asked for a higher frequency (`load_freq <= up_threshold * cur` and, with
several CPUs online, `cur >= sync_freq` if `max_load_other_cpu` exceeds
`up_threshold_any_cpu_load`, and otherwise `cur >= optimal_freq` if
`load_freq > up_threshold_multi_core * cur`; this includes the case in which
neither outer test holds), `od_check_cpu` returns the state in which only
`freq_lo` was reset: no driver call is made and `rate_mult` is unchanged,
whatever `load_freq` is compared with `adj_up_threshold * cur`. -/
theorem od_check_cpu_at_min (k : kernel_env) (s : gov_state) (cpu load_freq : Nat)
    (policy : cpufreq_policy)
    (hpolicy : (per_cpu s cpu).cur_policy = some policy)
    (hup : load_freq ≤ umul s.od_tuners.up_threshold policy.cur)
    (hrules : num_online_cpus s > 1 →
      (max_load_other_cpu s policy > s.od_tuners.up_threshold_any_cpu_load →
        s.od_tuners.sync_freq ≤ policy.cur) ∧
      (max_load_other_cpu s policy ≤ s.od_tuners.up_threshold_any_cpu_load →
        load_freq > umul s.od_tuners.up_threshold_multi_core policy.cur →
        s.od_tuners.optimal_freq ≤ policy.cur))
    (hmin : policy.cur = policy.min) :
    ∃ s', od_check_cpu k s cpu load_freq = some s' ∧
      s' = od_freq_lo_reset s cpu ∧
      s'.driver_calls = s.driver_calls ∧
      ∀ j, (per_cpu s' j).rate_mult = (per_cpu s j).rate_mult := by
  have hnup : ¬ load_freq > umul s.od_tuners.up_threshold policy.cur := Nat.not_lt.mpr hup
  rw [od_check_cpu_eq k s cpu load_freq policy hpolicy, if_neg hnup]
  refine ⟨_, rfl, ?_⟩
  have key : ∀ x : gov_state, x = od_freq_lo_reset s cpu →
      x = od_freq_lo_reset s cpu ∧ x.driver_calls = s.driver_calls ∧
        ∀ j, (per_cpu x j).rate_mult = (per_cpu s j).rate_mult := by
    intro x hx
    rw [hx]
    exact ⟨rfl, rfl, (od_reset_frame s cpu 0).2.2.1⟩
  apply key
  split
  · rename_i h
    rw [if_neg (Nat.not_lt.mpr ((hrules h.1).1 h.2))]
  · rename_i ha
    split
    · rename_i h
      rw [if_neg (Nat.not_lt.mpr
        ((hrules h.1).2 (Nat.le_of_not_lt (fun hc => ha ⟨h.1, hc⟩)) h.2))]
    · rfl

/-- C23, witness. One CPU online at its minimum 200 with `rate_mult` 5 and
`load_freq` 100, which is below 70 * 200: no driver call, `rate_mult` still 5. -/
theorem od_check_cpu_at_min_witness :
    100 < umul (tuners_sdf_5 0).adj_up_threshold 200 ∧
    ∃ s', od_check_cpu (spec_env table_200_800)
        (example_state (tuners_sdf_5 0) [0] ⟨0, 200, 200, 800⟩ 5 0) 0 100 = some s' ∧
      s' = od_freq_lo_reset (example_state (tuners_sdf_5 0) [0] ⟨0, 200, 200, 800⟩ 5 0) 0 ∧
      s'.driver_calls = (example_state (tuners_sdf_5 0) [0] ⟨0, 200, 200, 800⟩ 5 0).driver_calls ∧
      ∀ j, (per_cpu s' j).rate_mult =
        (per_cpu (example_state (tuners_sdf_5 0) [0] ⟨0, 200, 200, 800⟩ 5 0) j).rate_mult :=
  ⟨by decide,
   od_check_cpu_at_min (spec_env table_200_800)
     (example_state (tuners_sdf_5 0) [0] ⟨0, 200, 200, 800⟩ 5 0) 0 100
     ⟨0, 200, 200, 800⟩ rfl (by decide) (by decide) rfl⟩


/-- With at most one CPU online the multi-core adjustments are skipped:
`freq_next` is `load_freq / adj_up_threshold` raised to `policy->min`. -/
theorem od_freq_next_single (s : gov_state) (policy : cpufreq_policy)
    (load_freq mlo : Nat) (h : ¬ num_online_cpus s > 1) :
    od_freq_next s policy load_freq mlo = od_freq_next_clamped s policy load_freq := by
  unfold od_freq_next od_freq_next_clamped
  dsimp only
  rw [if_neg h]

/-- The clamped `freq_next` is at least `policy->min`, at least the quotient,
and below `cur` when `load_freq` is below the 32-bit product
`adj_up_threshold * cur` and `min < cur`. -/
theorem od_freq_next_clamped_bounds (s : gov_state) (policy : cpufreq_policy)
    (load_freq : Nat) :
    policy.min ≤ od_freq_next_clamped s policy load_freq ∧
    load_freq / s.od_tuners.adj_up_threshold ≤ od_freq_next_clamped s policy load_freq ∧
    (load_freq < umul s.od_tuners.adj_up_threshold policy.cur → policy.min < policy.cur →
      od_freq_next_clamped s policy load_freq < policy.cur) := by
  unfold od_freq_next_clamped
  dsimp only
  refine ⟨?_, ?_, ?_⟩
  · split <;> omega
  · split <;> omega
  · intro hlt hmin
    have hprod : umul s.od_tuners.adj_up_threshold policy.cur ≤
        s.od_tuners.adj_up_threshold * policy.cur := Nat.mod_le _ _
    have hq : load_freq / s.od_tuners.adj_up_threshold < policy.cur := by
      apply Nat.div_lt_of_lt_mul
      omega
    split <;> omega

/-- C25: already at the maximum. In every state in which
`load_freq > up_threshold * cur` and `cur == max`, `od_check_cpu` returns and
leaves `rate_mult` unchanged; with `powersave_bias` 0 it makes no driver call
and the state is the one in which only `freq_lo` was reset. -/
theorem od_check_cpu_saturated (k : kernel_env) (s : gov_state) (cpu load_freq : Nat)
    (policy : cpufreq_policy)
    (hpolicy : (per_cpu s cpu).cur_policy = some policy)
    (hload : load_freq > umul s.od_tuners.up_threshold policy.cur)
    (hmax : policy.cur = policy.max) :
    ∃ s', od_check_cpu k s cpu load_freq = some s' ∧
      (∀ j, (per_cpu s' j).rate_mult = (per_cpu s j).rate_mult) ∧
      (s.od_tuners.powersave_bias = 0 →
        s'.driver_calls = s.driver_calls ∧ s' = od_freq_lo_reset s cpu) := by
  have hnlt : ¬ policy.cur < policy.max := by omega
  rw [od_check_cpu_eq k s cpu load_freq policy hpolicy, if_pos hload, if_neg hnlt]
  refine ⟨_, rfl, ?_, ?_⟩
  · intro j
    rw [(dbs_freq_increase_frame k _ policy policy.max).2.1 j]
    exact (od_reset_frame s cpu 0).2.2.1 j
  · intro hb
    have hb2 : ¬ (od_freq_lo_reset s cpu).od_tuners.powersave_bias ≠ 0 := by
      rw [od_freq_lo_reset_od_tuners]
      exact not_not.mpr hb
    have hres : dbs_freq_increase k (od_freq_lo_reset s cpu) policy policy.max =
        od_freq_lo_reset s cpu := by
      unfold dbs_freq_increase
      rw [if_neg hb2, if_pos hmax]
    rw [hres]
    exact ⟨rfl, rfl⟩

/-- C25, witness. One CPU online at its maximum 800 with `rate_mult` 5, no
bias, `load_freq` 64001 above 80 * 800: no driver call, `rate_mult` still 5. -/
theorem od_check_cpu_saturated_witness :
    ∃ s', od_check_cpu (spec_env table_200_800)
        (example_state (tuners_sdf_5 0) [0] ⟨0, 800, 200, 800⟩ 5 0) 0 64001 = some s' ∧
      (∀ j, (per_cpu s' j).rate_mult =
        (per_cpu (example_state (tuners_sdf_5 0) [0] ⟨0, 800, 200, 800⟩ 5 0) j).rate_mult) ∧
      ((tuners_sdf_5 0).powersave_bias = 0 →
        s'.driver_calls = [] ∧
        s' = od_freq_lo_reset (example_state (tuners_sdf_5 0) [0] ⟨0, 800, 200, 800⟩ 5 0) 0) :=
  od_check_cpu_saturated (spec_env table_200_800)
    (example_state (tuners_sdf_5 0) [0] ⟨0, 800, 200, 800⟩ 5 0) 0 64001
    ⟨0, 800, 200, 800⟩ rfl (by decide) rfl

/-- C27: at most one request per cycle. With a policy attached, `od_check_cpu`
returns, and the list of driver calls of the result is the list on entry, or
that list with one call added. -/
theorem od_check_cpu_one_call (k : kernel_env) (s : gov_state) (cpu load_freq : Nat)
    (policy : cpufreq_policy)
    (hpolicy : (per_cpu s cpu).cur_policy = some policy) :
    ∃ s', od_check_cpu k s cpu load_freq = some s' ∧
      (s'.driver_calls = s.driver_calls ∨ ∃ r, s'.driver_calls = s.driver_calls ++ [r]) := by
  rw [od_check_cpu_eq k s cpu load_freq policy hpolicy]
  refine ⟨_, rfl, ?_⟩
  have hinc : ∀ (s1 : gov_state) (f : Nat), s1.driver_calls = s.driver_calls →
      ((dbs_freq_increase k s1 policy f).driver_calls = s.driver_calls ∨
        ∃ r, (dbs_freq_increase k s1 policy f).driver_calls = s.driver_calls ++ [r]) := by
    intro s1 f h1
    rw [← h1]
    exact dbs_freq_increase_calls k s1 policy f
  split
  · split
    · exact hinc _ _ rfl
    · exact hinc _ _ rfl
  · split
    · split
      · exact hinc _ _ rfl
      · exact Or.inl rfl
    · split
      · split
        · exact hinc _ _ rfl
        · exact Or.inl rfl
      · split
        · exact Or.inl rfl
        · split
          · exact Or.inr (od_scale_down_path_calls k s (od_freq_lo_reset s cpu) cpu policy
              load_freq (max_load_other_cpu s policy))
          · exact Or.inl rfl

/-- C27, witness. The scale-down cycle of one CPU at 800 with `load_freq` 100
makes one call on a state that had made none. -/
theorem od_check_cpu_one_call_witness :
    ∃ s', od_check_cpu (spec_env table_200_800)
        (example_state (tuners_sdf_5 0) [0] ⟨0, 800, 200, 800⟩ 5 0) 0 100 = some s' ∧
      (s'.driver_calls = [] ∨ ∃ r, s'.driver_calls = [] ++ [r]) :=
  od_check_cpu_one_call (spec_env table_200_800)
    (example_state (tuners_sdf_5 0) [0] ⟨0, 800, 200, 800⟩ 5 0) 0 100 ⟨0, 800, 200, 800⟩ rfl

/-- C28: scale-down with one CPU online really lowers. With one CPU online, no
bias and `min <= cur`, whenever the scale-down path is taken (`cur != min`,
`load_freq <= up_threshold * cur`, `load_freq < adj_up_threshold * cur`),
`od_check_cpu` returns after exactly one driver call, with relation L, for a
value `v` such that `min <= v < cur`. -/
theorem od_check_cpu_scale_down_lowers (k : kernel_env) (s : gov_state)
    (cpu load_freq : Nat) (policy : cpufreq_policy)
    (hpolicy : (per_cpu s cpu).cur_policy = some policy)
    (hone : num_online_cpus s = 1)
    (hbias : s.od_tuners.powersave_bias = 0)
    (hle : policy.min ≤ policy.cur)
    (hmin : policy.cur ≠ policy.min)
    (hup : load_freq ≤ umul s.od_tuners.up_threshold policy.cur)
    (hdown : load_freq < umul s.od_tuners.adj_up_threshold policy.cur) :
    ∃ s' v, od_check_cpu k s cpu load_freq = some s' ∧
      s'.driver_calls = s.driver_calls ++
        [⟨policy.cpu, v, cpufreq_relation.CPUFREQ_RELATION_L⟩] ∧
      policy.min ≤ v ∧ v < policy.cur := by
  have hnup : ¬ load_freq > umul s.od_tuners.up_threshold policy.cur := Nat.not_lt.mpr hup
  have hnm : ¬ num_online_cpus s > 1 := by omega
  have hb := od_freq_next_clamped_bounds s policy load_freq
  rw [od_check_cpu_eq k s cpu load_freq policy hpolicy, if_neg hnup,
    if_neg (fun h => hnm h.1), if_neg (fun h => hnm h.1), if_neg hmin, if_pos hdown]
  refine ⟨_, od_freq_next_clamped s policy load_freq, rfl, ?_, hb.1,
    hb.2.2 hdown (by omega)⟩
  unfold od_scale_down_path
  dsimp only
  rw [if_pos hbias, od_freq_next_single s policy load_freq _ hnm,
    cpufreq_driver_target_driver_calls]
  rfl

/-- C28, witness. `cur` 800, `min` 200, `load_freq` 100: the one request is for
a value from 200 up to, but not including, 800. -/
theorem od_check_cpu_scale_down_lowers_witness :
    ∃ s' v, od_check_cpu (spec_env table_200_800)
        (example_state (tuners_sdf_5 0) [0] ⟨0, 800, 200, 800⟩ 5 0) 0 100 = some s' ∧
      s'.driver_calls = [] ++ [⟨0, v, cpufreq_relation.CPUFREQ_RELATION_L⟩] ∧
      200 ≤ v ∧ v < 800 :=
  od_check_cpu_scale_down_lowers (spec_env table_200_800)
    (example_state (tuners_sdf_5 0) [0] ⟨0, 800, 200, 800⟩ 5 0) 0 100 ⟨0, 800, 200, 800⟩
    rfl rfl rfl (by decide) (by decide) (by decide) (by decide)


/-- C24: the `optimal_freq` adjustment can lower `freq_next`. Two CPUs online,
the thresholds 95 and 92 of `cpufreq_gov_dbs_init`, `up_threshold_multi_core`
80, `down_differential_multi_core` 3, CPU 0 at 800 of 200..800 and
`load_freq` 62400: no scale-up rule holds, 62400 < 92 * 800 puts the cycle on
the scale-down path, and 62400 / 92 = 678. Since 62400 > (80 - 3) * 800 the
code assigns `optimal_freq` without the test `freq_next < optimal_freq` that
the `sync_freq` adjustment has: with `optimal_freq` 300 the driver is asked
for 300, and with the default 0 for 0, below `policy->min`. -/
theorem od_check_cpu_optimal_freq_lowers :
    (num_online_cpus (example_state (tuners_micro 80 0 300) [0, 1] ⟨0, 800, 200, 800⟩ 1 0) > 1 ∧
      62400 ≤ umul (tuners_micro 80 0 300).up_threshold 800 ∧
      62400 ≤ umul (tuners_micro 80 0 300).up_threshold_multi_core 800 ∧
      62400 < umul (tuners_micro 80 0 300).adj_up_threshold 800 ∧
      max (62400 / (tuners_micro 80 0 300).adj_up_threshold) 200 = 678) ∧
    (∃ s', od_check_cpu (spec_env table_200_800)
        (example_state (tuners_micro 80 0 300) [0, 1] ⟨0, 800, 200, 800⟩ 1 0) 0 62400 =
          some s' ∧
      s'.driver_calls = [⟨0, 300, cpufreq_relation.CPUFREQ_RELATION_L⟩]) ∧
    (∃ s', od_check_cpu (spec_env table_200_800)
        (example_state (tuners_micro 80 0 0) [0, 1] ⟨0, 800, 200, 800⟩ 1 0) 0 62400 =
          some s' ∧
      s'.driver_calls = [⟨0, 0, cpufreq_relation.CPUFREQ_RELATION_L⟩]) :=
  ⟨by decide, ⟨_, rfl, rfl⟩, ⟨_, rfl, rfl⟩⟩

/-! ## The thresholds under writes to `up_threshold` -/

/-- One write to `up_threshold` keeps the differential (10 or 3) between the
two thresholds and keeps `up_threshold` between 11 and 100. -/
theorem store_up_threshold_invariant (s : gov_state) (parsed : Option Nat) (count : Nat)
    (h : (s.od_tuners.adj_up_threshold + 10 = s.od_tuners.up_threshold ∨
          s.od_tuners.adj_up_threshold + 3 = s.od_tuners.up_threshold) ∧
      11 ≤ s.od_tuners.up_threshold ∧ s.od_tuners.up_threshold ≤ 100) :
    ((store_up_threshold s parsed count).state.od_tuners.adj_up_threshold + 10 =
        (store_up_threshold s parsed count).state.od_tuners.up_threshold ∨
      (store_up_threshold s parsed count).state.od_tuners.adj_up_threshold + 3 =
        (store_up_threshold s parsed count).state.od_tuners.up_threshold) ∧
    11 ≤ (store_up_threshold s parsed count).state.od_tuners.up_threshold ∧
    (store_up_threshold s parsed count).state.od_tuners.up_threshold ≤ 100 := by
  unfold store_up_threshold
  rcases parsed with _ | input
  · exact h
  · dsimp only
    split
    · exact h
    · rename_i hr
      dsimp only
      unfold MAX_FREQUENCY_UP_THRESHOLD MIN_FREQUENCY_UP_THRESHOLD at hr
      unfold usub uadd u32 U32_MOD
      omega

/-- A sequence of writes to `up_threshold` keeps the invariant of one write. -/
theorem store_up_threshold_seq_invariant (writes : List (Option Nat × Nat)) :
    ∀ s : gov_state,
      ((s.od_tuners.adj_up_threshold + 10 = s.od_tuners.up_threshold ∨
          s.od_tuners.adj_up_threshold + 3 = s.od_tuners.up_threshold) ∧
        11 ≤ s.od_tuners.up_threshold ∧ s.od_tuners.up_threshold ≤ 100) →
      (((store_up_threshold_seq s writes).od_tuners.adj_up_threshold + 10 =
          (store_up_threshold_seq s writes).od_tuners.up_threshold ∨
        (store_up_threshold_seq s writes).od_tuners.adj_up_threshold + 3 =
          (store_up_threshold_seq s writes).od_tuners.up_threshold) ∧
      11 ≤ (store_up_threshold_seq s writes).od_tuners.up_threshold ∧
      (store_up_threshold_seq s writes).od_tuners.up_threshold ≤ 100) := by
  induction writes with
  | nil => intro s h; exact h
  | cons w ws ih =>
    intro s h
    exact ih _ (store_up_threshold_invariant s w.1 w.2 h)

/-- The thresholds after `cpufreq_gov_dbs_init` on the static initialiser: 95
and 92 with idle micro accounting, 80 and 70 without. -/
theorem cpufreq_gov_dbs_init_thresholds (micro : Bool) (m : Nat) (st : sched_state)
    (h : st.gov.od_tuners = od_tuners_init) :
    ((cpufreq_gov_dbs_init micro m st).gov.od_tuners.up_threshold = 80 ∧
      (cpufreq_gov_dbs_init micro m st).gov.od_tuners.adj_up_threshold = 70) ∨
    ((cpufreq_gov_dbs_init micro m st).gov.od_tuners.up_threshold = 95 ∧
      (cpufreq_gov_dbs_init micro m st).gov.od_tuners.adj_up_threshold = 92) := by
  unfold cpufreq_gov_dbs_init
  cases micro
  · left
    simp only [Bool.false_eq_true, if_false, h]
    exact ⟨rfl, rfl⟩
  · right
    simp only [if_true]
    exact ⟨rfl, rfl⟩

/-- C26: the divisor of the scale-down path is never zero. From a state whose
thresholds `(up_threshold, adj_up_threshold)` are (80, 70), as in the static
initialiser, or (95, 92), as set by `cpufreq_gov_dbs_init`, every finite
sequence of writes to `up_threshold`, whatever was written, leaves
`1 <= adj_up_threshold < up_threshold <= 100`; in particular
`adj_up_threshold` is not 0. -/
theorem store_up_threshold_seq_divisor (s : gov_state) (writes : List (Option Nat × Nat))
    (hinit : (s.od_tuners.up_threshold = 80 ∧ s.od_tuners.adj_up_threshold = 70) ∨
      (s.od_tuners.up_threshold = 95 ∧ s.od_tuners.adj_up_threshold = 92)) :
    1 ≤ (store_up_threshold_seq s writes).od_tuners.adj_up_threshold ∧
    (store_up_threshold_seq s writes).od_tuners.adj_up_threshold <
      (store_up_threshold_seq s writes).od_tuners.up_threshold ∧
    (store_up_threshold_seq s writes).od_tuners.up_threshold ≤ 100 ∧
    (store_up_threshold_seq s writes).od_tuners.adj_up_threshold ≠ 0 := by
  have h := store_up_threshold_seq_invariant writes s (by omega)
  omega

/-- C26, witness. After `cpufreq_gov_dbs_init` with idle micro accounting the
thresholds are 95 and 92; the writes 11, an unparsable buffer, 200 and 100
leave 100 and 97. -/
theorem store_up_threshold_seq_divisor_witness :
    (store_up_threshold_seq
      (cpufreq_gov_dbs_init true 0
        ⟨example_state od_tuners_init [0] ⟨0, 400, 200, 800⟩ 1 0, 0, 0, fun _ => none⟩).gov
      [(some 11, 3), (none, 2), (some 200, 4), (some 100, 4)]).od_tuners.up_threshold = 100 ∧
    1 ≤ (store_up_threshold_seq
      (cpufreq_gov_dbs_init true 0
        ⟨example_state od_tuners_init [0] ⟨0, 400, 200, 800⟩ 1 0, 0, 0, fun _ => none⟩).gov
      [(some 11, 3), (none, 2), (some 200, 4), (some 100, 4)]).od_tuners.adj_up_threshold ∧
    (store_up_threshold_seq
      (cpufreq_gov_dbs_init true 0
        ⟨example_state od_tuners_init [0] ⟨0, 400, 200, 800⟩ 1 0, 0, 0, fun _ => none⟩).gov
      [(some 11, 3), (none, 2), (some 200, 4), (some 100, 4)]).od_tuners.adj_up_threshold <
    (store_up_threshold_seq
      (cpufreq_gov_dbs_init true 0
        ⟨example_state od_tuners_init [0] ⟨0, 400, 200, 800⟩ 1 0, 0, 0, fun _ => none⟩).gov
      [(some 11, 3), (none, 2), (some 200, 4), (some 100, 4)]).od_tuners.up_threshold :=
  ⟨by decide,
   (store_up_threshold_seq_divisor
      (cpufreq_gov_dbs_init true 0
        ⟨example_state od_tuners_init [0] ⟨0, 400, 200, 800⟩ 1 0, 0, 0, fun _ => none⟩).gov
      [(some 11, 3), (none, 2), (some 200, 4), (some 100, 4)] (Or.inr ⟨rfl, rfl⟩)).1,
   (store_up_threshold_seq_divisor
      (cpufreq_gov_dbs_init true 0
        ⟨example_state od_tuners_init [0] ⟨0, 400, 200, 800⟩ 1 0, 0, 0, fun _ => none⟩).gov
      [(some 11, 3), (none, 2), (some 200, 4), (some 100, 4)] (Or.inr ⟨rfl, rfl⟩)).2.1⟩


/-! ## The margin of the `sync_freq` adjustment -/

/-- When `max_load_other` does not exceed the margin, the first multi-core
adjustment is not made: `freq_next` is `optimal_freq` if the second adjustment
applies and the clamped quotient otherwise. -/
theorem od_freq_next_no_sync (s : gov_state) (policy : cpufreq_policy)
    (load_freq mlo : Nat) (h : ¬ mlo > sync_freq_margin s.od_tuners) :
    od_freq_next s policy load_freq mlo =
      if num_online_cpus s > 1 ∧
          load_freq > umul (usub s.od_tuners.up_threshold_multi_core
            s.od_tuners.down_differential_multi_core) policy.cur then
        s.od_tuners.optimal_freq
      else od_freq_next_clamped s policy load_freq := by
  unfold od_freq_next od_freq_next_clamped
  unfold sync_freq_margin at h
  dsimp only
  by_cases h1 : num_online_cpus s > 1
  · by_cases h2 : load_freq > umul (usub s.od_tuners.up_threshold_multi_core
        s.od_tuners.down_differential_multi_core) policy.cur
    · simp only [h1, h2, if_true, and_self]
    · simp only [h1, h2, h, if_true, if_false, false_and, and_false]
  · simp only [h1, if_false, false_and]

/-- The margin wraps around whenever `up_threshold_multi_core` is below the
sum of the two other thresholds. -/
theorem sync_freq_margin_wrap (t : od_dbs_tuners)
    (hsum : t.adj_up_threshold + t.up_threshold < U32_MOD)
    (hlt : t.up_threshold_multi_core < t.adj_up_threshold + t.up_threshold) :
    sync_freq_margin t =
      U32_MOD - (t.adj_up_threshold + t.up_threshold - t.up_threshold_multi_core) := by
  unfold sync_freq_margin usub u32
  unfold U32_MOD at *
  omega

/-- C30: the margin of the `sync_freq` adjustment wraps around. The margin
`up_threshold_multi_core - adj_up_threshold - up_threshold` is a 32-bit
unsigned value: for the static initialiser (80, 70, 80) it is 2^32 - 70. With
these three tunables, and more generally whenever `up_threshold_multi_core` is
below `adj_up_threshold + up_threshold` (both at most 2^32 - 101 together),
for every `max_load_other <= 100` the scale-down path does not raise
`freq_next` to `sync_freq`: the value passed on is `optimal_freq` if the
second adjustment applies and `max (load_freq / adj_up_threshold, min)`
otherwise. So the adjustment can apply only when
`up_threshold_multi_core >= adj_up_threshold + up_threshold`. -/
theorem sync_freq_margin_wraps :
    sync_freq_margin od_tuners_init = 4294967296 - 70 ∧
    (∀ (s : gov_state) (policy : cpufreq_policy) (load_freq mlo : Nat),
      s.od_tuners.up_threshold_multi_core = 80 → s.od_tuners.adj_up_threshold = 70 →
      s.od_tuners.up_threshold = 80 → mlo ≤ 100 →
      od_freq_next s policy load_freq mlo =
        if num_online_cpus s > 1 ∧
            load_freq > umul (usub s.od_tuners.up_threshold_multi_core
              s.od_tuners.down_differential_multi_core) policy.cur then
          s.od_tuners.optimal_freq
        else od_freq_next_clamped s policy load_freq) ∧
    (∀ (s : gov_state) (policy : cpufreq_policy) (load_freq mlo : Nat),
      mlo ≤ 100 → s.od_tuners.adj_up_threshold + s.od_tuners.up_threshold + 100 < U32_MOD →
      s.od_tuners.up_threshold_multi_core <
        s.od_tuners.adj_up_threshold + s.od_tuners.up_threshold →
      od_freq_next s policy load_freq mlo =
        if num_online_cpus s > 1 ∧
            load_freq > umul (usub s.od_tuners.up_threshold_multi_core
              s.od_tuners.down_differential_multi_core) policy.cur then
          s.od_tuners.optimal_freq
        else od_freq_next_clamped s policy load_freq) ∧
    (∀ (t : od_dbs_tuners) (mlo : Nat),
      mlo ≤ 100 → t.adj_up_threshold + t.up_threshold + 100 < U32_MOD →
      mlo > sync_freq_margin t →
      t.up_threshold_multi_core ≥ t.adj_up_threshold + t.up_threshold) := by
  have key : ∀ (t : od_dbs_tuners) (mlo : Nat), mlo ≤ 100 →
      t.adj_up_threshold + t.up_threshold + 100 < U32_MOD →
      t.up_threshold_multi_core < t.adj_up_threshold + t.up_threshold →
      ¬ mlo > sync_freq_margin t := by
    intro t mlo hm hsum hlt
    rw [sync_freq_margin_wrap t (by omega) hlt]
    unfold U32_MOD at *
    omega
  refine ⟨by decide, ?_, ?_, ?_⟩
  · intro s policy load_freq mlo h1 h2 h3 hm
    apply od_freq_next_no_sync
    apply key _ _ hm
    · rw [h2, h3]; decide
    · rw [h1, h2, h3]; decide
  · intro s policy load_freq mlo hm hsum hlt
    exact od_freq_next_no_sync s policy load_freq mlo (key _ _ hm hsum hlt)
  · intro t mlo hm hsum hgt
    by_contra hcon
    exact key t mlo hm hsum (by omega) hgt

/-- C30, witness. Two CPUs online, `sync_freq` 600, CPU 0 at 800 of 200..800,
`load_freq` 100 and another CPU fully loaded (`max_load_other` 100): with the
static thresholds (80, 70, 80) and with the thresholds 95 and 92 of
`cpufreq_gov_dbs_init`, `freq_next` is the clamped quotient 200, not 600. With
`up_threshold_multi_core` 100, `adj_up_threshold` 1 and `up_threshold` 11 the
margin is 88, a load of 90 exceeds it, and 100 >= 1 + 11. -/
theorem sync_freq_margin_wraps_witness :
    od_freq_next (example_state (tuners_sdf_5 600) [0, 1] ⟨0, 800, 200, 800⟩ 1 100)
      ⟨0, 800, 200, 800⟩ 100 100 = 200 ∧
    od_freq_next (example_state (tuners_micro 80 600 0) [0, 1] ⟨0, 800, 200, 800⟩ 1 100)
      ⟨0, 800, 200, 800⟩ 100 100 = 200 ∧
    (90 > sync_freq_margin { od_tuners_init with up_threshold_multi_core := 100,
                                                  adj_up_threshold := 1, up_threshold := 11 } ∧
      (100 : Nat) ≥ 1 + 11) :=
  ⟨sync_freq_margin_wraps.2.1
      (example_state (tuners_sdf_5 600) [0, 1] ⟨0, 800, 200, 800⟩ 1 100)
      ⟨0, 800, 200, 800⟩ 100 100 rfl rfl rfl (by decide),
   sync_freq_margin_wraps.2.2.1
      (example_state (tuners_micro 80 600 0) [0, 1] ⟨0, 800, 200, 800⟩ 1 100)
      ⟨0, 800, 200, 800⟩ 100 100 (by decide) (by decide) (by decide),
   by decide,
   sync_freq_margin_wraps.2.2.2
      { od_tuners_init with up_threshold_multi_core := 100,
                            adj_up_threshold := 1, up_threshold := 11 }
      90 (by decide) (by decide) (by decide)⟩

/-! ## The Blender never exceeds the request -/

/-- On a non-empty ascending table, with the Target Selector of the spec, the
two lookups of a `freq_avg` that some entry `freq_req` is at least as large as
give `freq_lo <= freq_hi <= freq_req`. -/
theorem psb_bounds_le_request (k : kernel_env) (hk : uses_target_selector k)
    (policy : cpufreq_policy) (table : List Nat) (freq_avg freq_req : Nat)
    (hne : table ≠ []) (hasc : List.Sorted (· ≤ ·) table)
    (hreq : freq_req ∈ table) (havg : freq_avg ≤ freq_req) :
    psb_freq_lo k policy table freq_avg ≤ psb_freq_hi k policy table freq_avg ∧
    psb_freq_hi k policy table freq_avg ≤ freq_req := by
  obtain ⟨fu, hfu, hfum, hfu1, _⟩ := target_frequency_round_up table freq_avg hne hasc
  obtain ⟨fd, hfd, hfdm, hfd1, hfd2⟩ := target_frequency_round_down table freq_avg hne hasc
  have ehi : psb_freq_hi k policy table freq_avg = fu :=
    table_lookup_selector k hk policy table freq_avg cpufreq_relation.CPUFREQ_RELATION_L fu hfu
  have elo : psb_freq_lo k policy table freq_avg = fd :=
    table_lookup_selector k hk policy table freq_avg cpufreq_relation.CPUFREQ_RELATION_H fd hfd
  rw [ehi, elo]
  obtain ⟨hu1, hu2⟩ := hfu1 ⟨freq_req, hreq, havg⟩
  refine ⟨?_, hu2 freq_req hreq havg⟩
  by_cases hb : ∃ g ∈ table, g ≤ freq_avg
  · have := (hfd1 hb).1
    omega
  · have hall : ∀ g ∈ table, freq_avg < g := by
      intro g hg
      by_contra hcon
      exact hb ⟨g, hg, Nat.le_of_not_lt hcon⟩
    exact (hfd2 hall).2 fu hfum

/-- C29: the Blender never exceeds the request. With the Target Selector of
the spec, on every non-empty ascending table of 32-bit entries, for every
`powersave_bias` from 0 to 1000 and every `freq_next`, the frequency returned
by `powersave_bias_target` is at most `freq_req`, the entry resolved for
`freq_next`; and whenever the call leaves `freq_lo != 0` in the record of
`policy->cpu`, that `freq_lo` is below the frequency returned. -/
theorem powersave_bias_target_le_request (k : kernel_env) (s : gov_state)
    (policy : cpufreq_policy) (freq_next : Nat) (relation : cpufreq_relation)
    (table : List Nat)
    (hk : uses_target_selector k)
    (htable : (per_cpu s policy.cpu).freq_table = some table)
    (hne : table ≠ []) (hasc : List.Sorted (· ≤ ·) table)
    (hwf : ∀ f ∈ table, f < U32_MOD)
    (hbias : 0 ≤ s.od_tuners.powersave_bias ∧ s.od_tuners.powersave_bias ≤ 1000) :
    (powersave_bias_target k s policy freq_next relation).1 ≤
      psb_freq_req k policy table freq_next relation ∧
    ((per_cpu (powersave_bias_target k s policy freq_next relation).2 policy.cpu).freq_lo ≠ 0 →
      (per_cpu (powersave_bias_target k s policy freq_next relation).2 policy.cpu).freq_lo <
        (powersave_bias_target k s policy freq_next relation).1) := by
  have hreqmem : psb_freq_req k policy table freq_next relation ∈ table :=
    table_lookup_mem k hk policy table freq_next relation hne hasc
  have havg := (psb_freq_avg_le s.od_tuners _ (hwf _ hreqmem) hbias).1
  obtain ⟨hlohi, hhireq⟩ := psb_bounds_le_request k hk policy table _ _ hne hasc hreqmem havg
  by_cases heq : psb_freq_hi k policy table
      (psb_freq_avg s.od_tuners (psb_freq_req k policy table freq_next relation)) =
      psb_freq_lo k policy table
        (psb_freq_avg s.od_tuners (psb_freq_req k policy table freq_next relation))
  · have hres : powersave_bias_target k s policy freq_next relation =
        (psb_freq_lo k policy table
          (psb_freq_avg s.od_tuners (psb_freq_req k policy table freq_next relation)),
         set_per_cpu s policy.cpu
           { per_cpu s policy.cpu with freq_lo := 0, freq_lo_jiffies := 0 }) := by
      simp only [powersave_bias_target, htable, heq, if_true]
    rw [hres]
    refine ⟨by omega, ?_⟩
    intro h0
    rw [per_cpu_set_per_cpu_same] at h0
    exact absurd rfl h0
  · obtain ⟨e1, e2, _⟩ := powersave_bias_target_stored k s policy freq_next relation table
      _ _ _ _ _ htable rfl rfl rfl rfl rfl heq
    rw [e1, e2]
    refine ⟨hhireq, fun _ => ?_⟩
    omega

/-- C29, witness. Bias 100 on the table 200..800 with a request for 800:
`freq_avg` is 720, the function returns 800, which is `freq_req`, and stores
`freq_lo` 600, which is below 800. -/
theorem powersave_bias_target_le_request_witness :
    (powersave_bias_target (spec_env table_200_800)
        (example_state tuners_bias_100 [0] ⟨0, 400, 200, 800⟩ 1 0) ⟨0, 400, 200, 800⟩ 800
        cpufreq_relation.CPUFREQ_RELATION_H).1 ≤
      psb_freq_req (spec_env table_200_800) ⟨0, 400, 200, 800⟩ table_200_800 800
        cpufreq_relation.CPUFREQ_RELATION_H ∧
    ((per_cpu (powersave_bias_target (spec_env table_200_800)
        (example_state tuners_bias_100 [0] ⟨0, 400, 200, 800⟩ 1 0) ⟨0, 400, 200, 800⟩ 800
        cpufreq_relation.CPUFREQ_RELATION_H).2 0).freq_lo ≠ 0 →
      (per_cpu (powersave_bias_target (spec_env table_200_800)
        (example_state tuners_bias_100 [0] ⟨0, 400, 200, 800⟩ 1 0) ⟨0, 400, 200, 800⟩ 800
        cpufreq_relation.CPUFREQ_RELATION_H).2 0).freq_lo <
      (powersave_bias_target (spec_env table_200_800)
        (example_state tuners_bias_100 [0] ⟨0, 400, 200, 800⟩ 1 0) ⟨0, 400, 200, 800⟩ 800
        cpufreq_relation.CPUFREQ_RELATION_H).1) :=
  powersave_bias_target_le_request (spec_env table_200_800)
    (example_state tuners_bias_100 [0] ⟨0, 400, 200, 800⟩ 1 0) ⟨0, 400, 200, 800⟩ 800
    cpufreq_relation.CPUFREQ_RELATION_H table_200_800 (fun _ _ _ _ => rfl) rfl (by decide)
    (by decide) (by decide) (by decide)

end Ondemand
